import Mathlib

/-!
# Slide-deck interactivity scripts

A shallow embedding of three browser scripts and the properties their
specification states about them:

* `assets/presenter.js`   -- namespace `Presenter`: the presenter window / overlay
  channel and the inbound message listener;
* `site/assets/papers.js` -- namespace `Papers`: the tabbed paper viewer;
* `assets/roadmap.js`     -- namespace `Roadmap`: the static detail table, the
  milestone popovers and controls, the path animation, placement and connectors;
  namespace `Roadmap.Details`: the active node and expansion of the
  DETAILS-bound roadmap.

Mutable script state becomes an explicit record that every operation takes and
returns.  Browser facilities whose outcome the script cannot control (whether
`window.open` yields a window, whether a deck library is loaded) are explicit
inputs.  A JavaScript exception is an `Except` error, or an `Option JSError`
next to the state when the mutations made before the throw persist.
-/

/-- The kinds of JavaScript exception the scripts can raise. -/
inductive JSError where
  | referenceError
  | typeError
  | syntaxError
  | domException
  deriving DecidableEq, Repr

namespace Presenter

/-! ## Values -/

/-- A JavaScript number as the presenter script observes it.  `int i` is an
integral value; `nonInt succ` is any other number (a fraction, `NaN`, an
infinity), for which array indexing yields `undefined`; `succ` is the integer
that `x + 1` evaluates to when floating-point rounding makes it integral
(`none` otherwise).  Integer arithmetic is exact below `2 ^ 53`, far above any
slide count. -/
inductive JSNum where
  | int (i : Int)
  | nonInt (succ : Option Int)
  deriving DecidableEq, Repr

/-- The value of `x + 1`. -/
def JSNum.succ : JSNum → JSNum
  | .int i => .int (i + 1)
  | .nonInt (some j) => .int j
  | .nonInt none => .nonInt none

/-- A JavaScript value as far as the message listener distinguishes them:
it compares with string literals using `===` and tests `typeof v === 'number'`. -/
inductive JSVal where
  | undefined
  | null
  | bool (b : Bool)
  | num (x : JSNum)
  | str (s : String)
  | object
  deriving DecidableEq, Repr

/-- The payload `ev.data` of a message event.  `empty` stands for a falsy value
(replaced by an empty object through `ev.data || {}`) and for a truthy primitive;
in both cases reading `type`, `index` and `action` gives `undefined`.  `record`
is an object with these three properties (an absent property is `undefined`). -/
inductive MsgData where
  | empty
  | record (type index action : JSVal)
  deriving DecidableEq, Repr

/-- Property read `data.type`. -/
def MsgData.type : MsgData → JSVal
  | .empty => .undefined
  | .record t _ _ => t

/-- Property read `data.index`. -/
def MsgData.index : MsgData → JSVal
  | .empty => .undefined
  | .record _ i _ => i

/-- Property read `data.action`. -/
def MsgData.action : MsgData → JSVal
  | .empty => .undefined
  | .record _ _ a => a

/-! ## The deck document -/

/-- The code points removed by `String.prototype.trim` (ECMAScript WhiteSpace and
LineTerminator). -/
def isJsWhiteSpace (c : Char) : Bool :=
  let n := c.toNat
  n = 0x09 || n = 0x0A || n = 0x0B || n = 0x0C || n = 0x0D || n = 0x20 ||
  n = 0xA0 || n = 0x1680 || (0x2000 ≤ n && n ≤ 0x200A) || n = 0x2028 ||
  n = 0x2029 || n = 0x202F || n = 0x205F || n = 0x3000 || n = 0xFEFF

/-- Model of `String.prototype.trim`. -/
def jsTrim (s : String) : String :=
  String.mk ((s.toList.dropWhile isJsWhiteSpace).reverse.dropWhile isJsWhiteSpace).reverse

/-- One `.slides>section` element, reduced to what the script reads from it:
the text of its first `h1,h2,h3`, the markup of its first `aside.notes`, the
markup of its first `.notes`, and whether it carries the class `present`. -/
structure SlideEl where
  heading : Option String
  asideNotes : Option String
  classNotes : Option String
  present : Bool
  deriving DecidableEq, Repr

/-- The record built for each slide by `getSlidesData`. -/
structure SlideSummary where
  index : Nat
  title : String
  notes : String
  deriving DecidableEq, Repr

/-- What `Reveal.getIndices()` returns: a falsy value, a truthy value whose `h`
is not a number, or an object with numeric `h`. -/
inductive Indices where
  | falsy
  | noH
  | h (x : JSNum)
  deriving DecidableEq, Repr

/-- The deck library as seen through `window.Reveal`: not loaded; loaded without
a `getIndices` function; loaded with a `getIndices` that throws; loaded with a
`getIndices` that returns.  A loaded deck provides `slide`, `next` and `prev`. -/
inductive Reveal where
  | absent
  | noGetIndices
  | getIndicesThrows
  | getIndices (r : Indices)
  deriving DecidableEq, Repr

/-- The environment the presenter reads: the slide elements in document order
and the deck library. -/
structure Env where
  slides : List SlideEl
  reveal : Reveal
  deriving DecidableEq, Repr

/-- Summary of the slide `el` found at position `i`: the callback of the `map`
in `getSlidesData`. -/
def slideSummary (i : Nat) (el : SlideEl) : SlideSummary :=
  { index := i
    title := jsTrim (el.heading.getD ("Slide " ++ toString (i + 1)))
    notes := match el.asideNotes with
      | some h => h
      | none => el.classNotes.getD "" }

/-- The function `getSlidesData`. -/
def getSlidesData (els : List SlideEl) : List SlideSummary :=
  els.mapIdx slideSummary

/-- The function `getCurrentIndex`: the deck's own index when `getIndices` exists
and returns, otherwise (also when it throws) the position of the first slide
with class `present`, or 0. -/
def getCurrentIndex (env : Env) : JSNum :=
  match env.reveal with
  | .getIndices (.h x) => x
  | .getIndices _ => .int 0
  | _ =>
    match env.slides.findIdx? (fun el => el.present) with
    | some i => .int i
    | none => .int 0

/-! ## Presenter state -/

/-- The message objects built by `sendState` and `sendUpdate`. -/
structure Payload where
  type : String
  slides : List SlideSummary
  index : JSNum
  deriving DecidableEq, Repr

/-- A window handle held in `Presenter.wnd`: its `closed` flag and the messages
posted to it so far. -/
structure Wnd where
  closed : Bool
  inbox : List Payload
  deriving DecidableEq, Repr

/-- The four text slots of the `#presenter-overlay` element. -/
structure Overlay where
  curTitle : String
  curNotes : String
  nextTitle : String
  nextNotes : String
  deriving DecidableEq, Repr

/-- The state of the presenter channel: the fields `wnd` and `overlay` of the
`Presenter` object, the number of `#presenter-overlay` nodes attached to the
document body, and the number of delayed `sendState` timers started. -/
structure PState where
  wnd : Option Wnd
  overlay : Option Overlay
  docOverlays : Nat
  timers : Nat
  deriving DecidableEq, Repr

/-- The guard `this.wnd && !this.wnd.closed`. -/
def PState.liveWnd (p : PState) : Bool :=
  match p.wnd with
  | some w => !w.closed
  | none => false

/-- The outcome of one `window.open` attempt inside `openWindow`: a window is
returned, `null` is returned (popup blocked), or the call throws. -/
inductive OpenOutcome where
  | opened
  | blocked
  | threw
  deriving DecidableEq, Repr

/-- Element `slides[x]`: defined only for an integral index inside the list. -/
def slideAt (slides : List SlideSummary) : JSNum → Option SlideSummary
  | .int i => if 0 ≤ i then slides[i.toNat]? else none
  | .nonInt _ => none

/-- The method `renderOverlay`: fills the four slots from `slides[index]` and
`slides[index + 1]`, with empty strings for a missing slide. -/
def renderOverlay (pl : Payload) : Overlay :=
  let cur := slideAt pl.slides pl.index
  let next := slideAt pl.slides pl.index.succ
  { curTitle := (cur.map (fun s => s.title)).getD ""
    curNotes := (cur.map (fun s => s.notes)).getD ""
    nextTitle := (next.map (fun s => s.title)).getD ""
    nextNotes := (next.map (fun s => s.notes)).getD "" }

/-- Delivery of a payload, the common tail of `sendState` and `sendUpdate`:
posted to the window when it is live, rendered when the overlay exists. -/
def deliver (p : PState) (pl : Payload) : PState :=
  let wnd := match p.wnd with
    | some w => if !w.closed then some { w with inbox := w.inbox ++ [pl] } else some w
    | none => none
  let overlay := match p.overlay with
    | some _ => some (renderOverlay pl)
    | none => none
  { p with wnd := wnd, overlay := overlay }

/-- The payload of `sendState`. -/
def statePayload (env : Env) : Payload :=
  { type := "state", slides := getSlidesData env.slides, index := getCurrentIndex env }

/-- The method `sendState`. -/
def sendState (env : Env) (p : PState) : PState :=
  deliver p (statePayload env)

/-- The payload of `sendUpdate(index)`. -/
def updatePayload (env : Env) (index : JSNum) : Payload :=
  { type := "update", slides := getSlidesData env.slides, index := index }

/-- The method `sendUpdate`. -/
def sendUpdate (env : Env) (p : PState) (index : JSNum) : PState :=
  deliver p (updatePayload env index)

/-- The method `openWindow`, with the state after it and its boolean result.
On success the handle is stored and a delayed `sendState` is scheduled; on
`null` the field becomes `null`; when the attempt throws the field is untouched. -/
def openWindow (p : PState) : OpenOutcome → PState × Bool
  | .opened => ({ p with wnd := some { closed := false, inbox := [] }, timers := p.timers + 1 }, true)
  | .blocked => ({ p with wnd := none }, false)
  | .threw => (p, false)

/-- The method `closeWindow`: closes a live window and clears the field. -/
def closeWindow (p : PState) : PState :=
  { p with wnd := none }

/-- The method `enterOverlay`: nothing when an overlay exists, otherwise a new
overlay element is appended to the body and filled by `sendState`. -/
def enterOverlay (env : Env) (p : PState) : PState :=
  match p.overlay with
  | some _ => p
  | none =>
    sendState env { p with overlay := some { curTitle := "", curNotes := "", nextTitle := "", nextNotes := "" }
                           docOverlays := p.docOverlays + 1 }

/-- The method `exitOverlay`: nothing when no overlay exists, otherwise the node
is removed from the document and the field cleared. -/
def exitOverlay (p : PState) : PState :=
  match p.overlay with
  | none => p
  | some _ => { p with overlay := none, docOverlays := p.docOverlays - 1 }

/-- The method `toggle`. -/
def toggle (env : Env) (p : PState) (o : OpenOutcome) : PState :=
  if p.liveWnd then
    exitOverlay (closeWindow p)
  else
    let r := openWindow p o
    if r.2 then r.1 else enterOverlay env r.1

/-! ## The message listener -/

/-- A navigation command issued to the deck library. -/
inductive Cmd where
  | slide (x : JSNum)
  | next
  | prev
  deriving DecidableEq, Repr

/-- A call of a deck navigation method: it fails when no deck is loaded. -/
def revealCall (env : Env) (c : Cmd) : Except JSError (List Cmd) :=
  if env.reveal = .absent then .error .referenceError else .ok [c]

/-- The statement `if (Presenter.wnd && !Presenter.wnd.closed) Presenter.wnd.close()`
of the listener: the window is closed but the handle stays in `wnd`. -/
def closeWndKeepRef (p : PState) : PState :=
  match p.wnd with
  | some w => { p with wnd := some { w with closed := true } }
  | none => p

/-- The `nav` branch of the listener. -/
def navBranch (env : Env) (data : MsgData) : Except JSError (List Cmd) :=
  if data.type = .str "nav" then
    match data.index with
    | .num x => revealCall env (.slide x)
    | _ => .ok []
  else .ok []

/-- The `control` branch of the listener. -/
def controlBranch (env : Env) (p : PState) (data : MsgData) : Except JSError (PState × List Cmd) :=
  if data.type = .str "control" then do
    let c1 ← if data.action = .str "next" then revealCall env .next else .ok []
    let c2 ← if data.action = .str "prev" then revealCall env .prev else .ok []
    let p1 := if data.action = .str "close" then exitOverlay (closeWndKeepRef p) else p
    pure (p1, c1 ++ c2)
  else .ok (p, [])

/-- The `message` listener: on normal completion, the state after it and the
deck commands it issued, in order. -/
def onMessage (env : Env) (p : PState) (data : MsgData) : Except JSError (PState × List Cmd) := do
  let c ← navBranch env data
  let r ← controlBranch env p data
  pure (r.1, c ++ r.2)

/-- The inputs that drive the presenter channel. -/
inductive Event where
  | toggle (o : OpenOutcome)
  | message (data : MsgData)
  deriving DecidableEq, Repr

/-- One event applied to the state.  A listener run that throws has changed
nothing, since its only throwing statements precede every mutation. -/
def step (env : Env) (p : PState) : Event → PState
  | .toggle o => toggle env p o
  | .message d =>
    match onMessage env p d with
    | .ok r => r.1
    | .error _ => p

/-- A sequence of events applied from left to right. -/
def run (env : Env) (p : PState) (es : List Event) : PState :=
  es.foldl (step env) p

/-- The presenter object as the script creates it. -/
def PState.init : PState :=
  { wnd := none, overlay := none, docOverlays := 0, timers := 0 }

/-- A message is malformed when its data is missing, its type is neither
`nav` nor `control`, it is a `nav` without a numeric index, or it is a
`control` whose action is none of `next`, `prev`, `close`. -/
def malformed (data : MsgData) : Prop :=
  data = .empty ∨
  (data.type ≠ .str "nav" ∧ data.type ≠ .str "control") ∨
  (data.type = .str "nav" ∧ ∀ x, data.index ≠ .num x) ∨
  (data.type = .str "control" ∧ data.action ≠ .str "next" ∧
    data.action ≠ .str "prev" ∧ data.action ≠ .str "close")

/-- The deck commands issued by delivering the messages `ds` one after the
other (a delivery that throws issues none). -/
def commandsOf (env : Env) (p : PState) : List MsgData → List Cmd
  | [] => []
  | d :: ds =>
    match onMessage env p d with
    | .ok r => r.2 ++ commandsOf env r.1 ds
    | .error _ => commandsOf env p ds

/-- A deck that executes commands: `exec` is the library's reaction to one
command. -/
def runCmds {D : Type} (exec : Cmd → D → D) (d : D) (cs : List Cmd) : D :=
  cs.foldl (fun d c => exec c d) d

end Presenter

namespace Papers

/-! ## The tabbed paper viewer (`site/assets/papers.js`) -/

/-- A child of a `.pdf-wrap` element: an `iframe` with its `src` and `title`, or
any other content (which contains no `iframe`). -/
inductive WrapChild where
  | iframe (src title : String)
  | other (html : String)
  deriving DecidableEq, Repr

/-- Test used by `pdfWrap.querySelector('iframe')`. -/
def WrapChild.isIframe : WrapChild → Bool
  | .iframe _ _ => true
  | .other _ => false

/-- The first `.pdf-wrap` element of a page: its `data-pdf-src` attribute
(`none` when the attribute is missing) and its children. -/
structure PdfWrap where
  pdfSrc : Option String
  children : List WrapChild
  deriving DecidableEq, Repr

/-- The value of a `data-plotly` attribute as `show` consumes it: the empty
string, text that `JSON.parse` rejects, or text that parses to a value whose
`demo` property is truthy (`value true`) or not (`value false`). -/
inductive PlotlyAttr where
  | empty
  | malformed
  | value (demo : Bool)
  deriving DecidableEq, Repr

/-- The first `[data-plotly]` element of a page: whether its trimmed `innerHTML`
is empty, and its attribute. -/
structure Fig where
  blank : Bool
  plotly : PlotlyAttr
  deriving DecidableEq, Repr

/-- A `.paper-page` element: its `id` (empty when it has none), whether it
carries the class `active`, and the two lazily filled descendants, which are
taken to be disjoint. -/
structure Page where
  id : String
  active : Bool
  pdfWrap : Option PdfWrap
  fig : Option Fig
  deriving DecidableEq, Repr

/-- A `#papers-tabs [role="tab"]` element: the attributes `aria-selected` and
`tabindex` and the data attributes `data-page-id`, `data-page`, `data-index`
(`none` for a missing attribute). -/
structure Tab where
  ariaSelected : Option String
  tabindex : Option String
  pageId : Option String
  page : Option String
  dataIndex : Option String
  deriving DecidableEq, Repr

/-- The state of the viewer: the tab and page elements, the variable `current`,
the URL fragment, whether `window.Plotly` is set, the number of charting-library
script elements appended to the document head, and the number of chart renders
waiting for the library promise. -/
structure State where
  tabs : List Tab
  pages : List Page
  current : Int
  hash : String
  plotlyLoaded : Bool
  headScripts : Nat
  pendingPlots : Nat
  deriving DecidableEq, Repr

/-- The clamping `Math.max(0, Math.min(pages.length - 1, index))`. -/
def clampIndex (n : Nat) (index : Int) : Int :=
  max 0 (min ((n : Int) - 1) index)

/-- The first half of `show`: the two `forEach` loops over pages and tabs and
the assignment to `current`; `index` is already clamped. -/
def markActive (s : State) (index : Int) : State :=
  { s with
    pages := s.pages.mapIdx (fun i p => { p with active := decide ((i : Int) = index) })
    tabs := s.tabs.mapIdx (fun i t =>
      { t with
        ariaSelected := some (toString (decide ((i : Int) = index)))
        tabindex := some (if (i : Int) = index then "0" else "-1") })
    current := index }

/-- The lazy creation of the PDF frame inside a `.pdf-wrap`: only when it holds
no `iframe` yet and declares a non-empty source. -/
def lazyPdf (w : PdfWrap) : PdfWrap :=
  if w.children.any WrapChild.isIframe then w
  else
    match w.pdfSrc with
    | some src =>
      if src ≠ "" then { w with children := [.iframe (src ++ "#view=FitH") "Paper PDF preview"] }
      else w
    | none => w

/-- The lazy chart request: for a blank figure whose attribute parses to a
demo request, `loadPlotly` appends a script element unless the library is
present, and the render waits for its promise; a malformed attribute makes
`JSON.parse` throw. -/
def lazyFig (s : State) : Option Fig → State × Option JSError
  | none => (s, none)
  | some fig =>
    if fig.blank then
      match fig.plotly with
      | .empty => (s, none)
      | .malformed => (s, some .syntaxError)
      | .value false => (s, none)
      | .value true =>
        ({ s with
           headScripts := if s.plotlyLoaded then s.headScripts else s.headScripts + 1
           pendingPlots := s.pendingPlots + 1 }, none)
    else (s, none)

/-- The UTF-8 bytes of a code point. -/
def utf8Bytes (n : Nat) : List Nat :=
  if n < 0x80 then [n]
  else if n < 0x800 then [0xC0 + n / 64, 0x80 + n % 64]
  else if n < 0x10000 then [0xE0 + n / 4096, 0x80 + n / 64 % 64, 0x80 + n % 64]
  else [0xF0 + n / 262144, 0x80 + n / 4096 % 64, 0x80 + n / 64 % 64, 0x80 + n % 64]

/-- An upper-case hexadecimal digit. -/
def hexDigit (d : Nat) : Char :=
  if d < 10 then Char.ofNat (48 + d) else Char.ofNat (55 + d)

/-- The percent-encoding of a character: `%XX` for each of its UTF-8 bytes. -/
def percentEncode (c : Char) : List Char :=
  (utf8Bytes c.toNat).flatMap (fun b => ['%', hexDigit (b / 16), hexDigit (b % 16)])

/-- The fragment percent-encode set of the URL parser: C0 controls, every code
point above U+007E, space, the double quote, the angle brackets and the grave
accent. -/
def inFragmentEncodeSet (c : Char) : Bool :=
  c.toNat ≤ 0x1F || 0x7E < c.toNat || c.toNat = 0x20 || c.toNat = 0x22 ||
  c.toNat = 0x3C || c.toNat = 0x3E || c.toNat = 0x60

/-- The fragment the URL parser stores for the input `'#' + text`: trailing C0
controls and spaces are stripped, tabs and newlines are removed, and the
characters of the fragment percent-encode set are percent-encoded. -/
def serializeFragment (text : List Char) : List Char :=
  (((text.reverse.dropWhile (fun c => decide (c.toNat ≤ 0x20))).reverse).filter
      (fun c => !(c.toNat = 0x09 || c.toNat = 0x0A || c.toNat = 0x0D))).flatMap
    (fun c => if inFragmentEncodeSet c then percentEncode c else [c])

/-- The value `location.hash` has after `history.replaceState(null, '', '#' + text)`:
empty for an empty fragment, otherwise `#` and the serialised fragment. -/
def locationHash (text : String) : String :=
  if serializeFragment text.toList = [] then ""
  else String.mk ('#' :: serializeFragment text.toList)

/-- The second half of `show`, from `const active = pages[index]` on: nothing
when the page does not exist; otherwise the PDF frame and the chart are created
on demand and, unless suppressed or cut short by an exception, the URL fragment
is rewritten; `hash` is what `location.hash` reads afterwards. -/
def lazyLoad (s : State) (index : Int) (updateHash : Bool) : State × Option JSError :=
  match s.pages[index.toNat]? with
  | none => (s, none)
  | some active =>
    let s2 := { s with
      pages := s.pages.set index.toNat { active with pdfWrap := active.pdfWrap.map lazyPdf } }
    match lazyFig s2 active.fig with
    | (s3, some e) => (s3, some e)
    | (s3, none) =>
      if updateHash then
        ({ s3 with
           hash := locationHash ("papers=" ++ (if active.id ≠ "" then active.id else toString index)) },
          none)
      else (s3, none)

/-- The function `show(index, updateHash)`: the state after the call and the
exception it ended with, if any. -/
def «show» (s : State) (index : Int) (updateHash : Bool) : State × Option JSError :=
  lazyLoad (markActive s (clampIndex s.pages.length index)) (clampIndex s.pages.length index)
    updateHash

/-- The match `location.hash.match(/papers=([^&]+)/)` on the characters of the
fragment: the capture group of the leftmost position where `papers=` is
followed by at least one character other than `&`; the group is the longest
run of such characters. -/
def matchPapers : List Char → Option (List Char)
  | [] => none
  | c :: cs =>
    if "papers=".toList.isPrefixOf (c :: cs) then
      let cap := ((c :: cs).drop 7).takeWhile (fun ch => ch ≠ '&')
      if cap ≠ [] then some cap else matchPapers cs
    else matchPapers cs

/-- The page identifier named by a URL fragment, `m[1]` in `init`. -/
def hashPageId (hash : String) : Option String :=
  (matchPapers hash.toList).map String.mk

/-- The callback of `tabs.findIndex` in `init`: the tab names the identifier in
`data-page-id` or in `data-page`. -/
def tabNames (id : String) (t : Tab) : Bool :=
  decide (t.pageId = some id) || decide (t.page = some id)

/-- The function `init`: every tab gets its `data-index` and an initial
`tabindex`, page 0 is shown without touching the URL, and when the fragment
names a tab the page of that tab is shown.  An exception thrown by the first
`show` ends `init` before the fragment is read. -/
def init (s : State) : State × Option JSError :=
  let s0 := { s with
    tabs := s.tabs.mapIdx (fun i t =>
      { t with dataIndex := some (toString i), tabindex := some (if i = 0 then "0" else "-1") }) }
  match «show» s0 0 false with
  | (s1, some e) => (s1, some e)
  | (s1, none) =>
    match hashPageId s1.hash with
    | none => (s1, none)
    | some id =>
      match s1.tabs.findIdx? (tabNames id) with
      | some idx => «show» s1 (idx : Int) true
      | none => (s1, none)

/-- A sequence of `show(index, updateHash)` calls, the state of each call being
the one left by the previous call (also when that call threw). -/
def showAll (s : State) (calls : List (Int × Bool)) : State :=
  calls.foldl (fun st c => («show» st c.1 c.2).1) s

/-- The test `/^[1-9]$/.test(key)` together with `parseInt(key, 10)`: the digit
when the key is exactly one character from `1` to `9`. -/
def digitKey (key : String) : Option Nat :=
  match key.toList with
  | [c] => if 49 ≤ c.toNat ∧ c.toNat ≤ 57 then some (c.toNat - 48) else none
  | _ => none

/-- The function `onKey` for a `keydown` event with the given `key`. -/
def onKey (s : State) (key : String) : State × Option JSError :=
  if key = "ArrowRight" then «show» s (s.current + 1) true
  else if key = "ArrowLeft" then «show» s (s.current - 1) true
  else
    match digitKey key with
    | some d =>
      if (d : Int) - 1 < (s.tabs.length : Int) then «show» s ((d : Int) - 1) true else (s, none)
    | none => (s, none)

/-- The tabs are labelled after their pages: tab `i` names the `id` of page `i`
in `data-page-id` or in `data-page`, and neither attribute of it holds
anything else. -/
def labelled (s : State) : Prop :=
  ∀ (i : Nat) (t : Tab) (p : Page), s.tabs[i]? = some t → s.pages[i]? = some p →
    (t.pageId = some p.id ∨ t.page = some p.id) ∧
    (∀ v, t.pageId = some v → v = p.id) ∧ (∀ v, t.page = some v → v = p.id)

/-- The page ids are pairwise distinct. -/
def distinctIds (s : State) : Prop :=
  ∀ (i j : Nat) (p q : Page), s.pages[i]? = some p → s.pages[j]? = some q → p.id = q.id → i = j

/-- The chart of a page does not stop `show`: the page has no empty
`[data-plotly]` figure whose attribute `JSON.parse` rejects. -/
def figParses (p : Page) : Prop :=
  ∀ f, p.fig = some f → f.blank = true → f.plotly ≠ .malformed

end Papers

namespace Roadmap

/-! ## The static detail table (`assets/roadmap.js`, first module) -/

/-- An entry of the `DETAILS` table. -/
structure Detail where
  title : String
  bullets : List String
  deriving DecidableEq, Repr

/-- The object literal `DETAILS`: its own properties, in source order. -/
def DETAILS : List (String × Detail) :=
  [ ("foundations",
      ⟨"Foundations: Heterogeneity & annotation noise",
       ["Site/scanner/protocol variability", "Inter-observer label variability"]⟩),
    ("published_securefl",
      ⟨"Secure FL: privacy-preserving annotation peer-review",
       ["Secure architecture for collaborative labelling", "Enables multi-site evaluation"]⟩),
    ("published_cia",
      ⟨"CIA: controllable image augmentation",
       ["Stable Diffusion-based synthetic patients", "Quality filtering + ControlNet"]⟩),
    ("submitted_recon",
      ⟨"Recon-based UQ",
       ["Low-cost single-pass failure signal", "Good clinical viability"]⟩),
    ("submitted_uq_eval",
      ⟨"UQ evaluation paradigm",
       ["Safety-constrained threshold calibration", "Risk–coverage evaluation"]⟩),
    ("emerging",
      ⟨"Emerging: Clustering & coverage metrics",
       ["Feature-based patient subgroups", "Sampling for coverage maximization"]⟩),
    ("future",
      ⟨"Future: Test-set protocol & QA dashboard",
       ["Systematic suite design + coverage metrics", "Multi-site validation plan"]⟩) ]

/-- The property names every object literal inherits from `Object.prototype`.
Each of them reads as a truthy value (a function, or the prototype object for
`__proto__`) that has neither a `title` nor a `bullets` property. -/
def objectPrototypeKeys : List String :=
  [ "constructor", "__defineGetter__", "__defineSetter__", "hasOwnProperty",
    "__lookupGetter__", "__lookupSetter__", "isPrototypeOf", "propertyIsEnumerable",
    "toString", "valueOf", "__proto__", "toLocaleString" ]

/-- The value bound to `d` in `renderDetails`: a record with `title` and
`bullets`, or an inherited member of `Object.prototype`, on which both property
reads give `undefined`. -/
inductive DetailVal where
  | record (title : String) (bullets : List String)
  | inherited (key : String)
  deriving DecidableEq, Repr

/-- The expression `DETAILS[nodeId] || { title: nodeId, bullets: [] }`: an own
property of the table wins, then a property inherited through the prototype
chain, and only an `undefined` read takes the fallback. -/
def lookupDetail (nodeId : String) : DetailVal :=
  match DETAILS.lookup nodeId with
  | some d => .record d.title d.bullets
  | none =>
    if nodeId ∈ objectPrototypeKeys then .inherited nodeId
    else .record nodeId []

/-- The detail panel: the text of `#roadmap-status` and the texts of the rows
of `#roadmap-bullets`; `none` when the element does not exist. -/
structure Panel where
  title : Option String
  bullets : Option (List String)
  deriving DecidableEq, Repr

/-- The function `renderDetails(nodeId)`.  For an inherited member the title
assignment receives `undefined`, which clears the text, and `d.bullets.forEach`
throws once the bullet container has been emptied. -/
def renderDetails (panel : Panel) (nodeId : String) : Panel × Option JSError :=
  match lookupDetail nodeId with
  | .record title bullets =>
    ({ title := panel.title.map (fun _ => title)
       bullets := panel.bullets.map (fun _ => bullets.map (fun b => "• " ++ b)) }, none)
  | .inherited _ =>
    match panel.bullets with
    | some _ => ({ title := panel.title.map (fun _ => ""), bullets := some [] }, some .typeError)
    | none => ({ title := panel.title.map (fun _ => ""), bullets := none }, none)

/-! ## Milestone popovers (`assets/roadmap.js`, second module) -/

/-- A `[data-milestone]` element of the root: its attributes `data-milestone`,
`data-preview` and `data-element-id` (`none` for a missing attribute). -/
structure Milestone where
  milestone : Option String
  preview : Option String
  elementId : Option String
  deriving DecidableEq, Repr

/-- The idiom `attr || fallback` for an attribute read: the fallback is taken
for a missing attribute and for the empty string. -/
def attrOr (a : Option String) (fallback : String) : String :=
  match a with
  | some v => if v ≠ "" then v else fallback
  | none => fallback

/-- A `.roadmap-popover` element built by `makePopover` and completed by
`openMilestone`: `node` is the identity of the element, the other fields are
its `id`, the `alt` and `data-src` of its image, the target of its link and its
`aria-labelledby`.  Titles are plain text; styling, CSS classes and focus are
not part of the model. -/
structure Popover where
  node : Nat
  id : String
  title : String
  dataSrc : String
  href : String
  labelledBy : String
  deriving DecidableEq, Repr

/-- The part of an initialised roadmap root that the popover functions use:
the milestone elements, the `id` of each element of `buttons`, the popover
elements currently among the children of the root (in document order), the
variable `currentPopover` (by identity), the popovers whose removal has been
scheduled by `closePopover` and has not run yet, and the next unused element
identity. -/
structure Root where
  milestones : List Milestone
  buttonIds : List String
  popovers : List Popover
  currentPopover : Option Nat
  closing : List Nat
  fresh : Nat
  deriving DecidableEq, Repr

/-- The root right after `initRoadmap(root)`: no popover exists. -/
def Root.init (milestones : List Milestone) (buttonIds : List String) : Root :=
  { milestones := milestones, buttonIds := buttonIds, popovers := [],
    currentPopover := none, closing := [], fresh := 0 }

/-- The function `closePopover`: nothing when no popover is current; otherwise
the exit transition starts, the removal of the element is left to the
`cleanup` callback (registered for `transitionend` and for a 300 ms timer), and
`currentPopover` is cleared.  The element itself stays in the root. -/
def closePopover (r : Root) : Root :=
  match r.currentPopover with
  | none => r
  | some n => { r with closing := r.closing ++ [n], currentPopover := none }

/-- The callback `cleanup` of `closePopover` for the popover `n`: the element
is removed from the root.  Running it again changes nothing. -/
def cleanup (r : Root) (n : Nat) : Root :=
  { r with popovers := r.popovers.filter (fun p => p.node ≠ n)
           closing := r.closing.filter (fun m => m ≠ n) }

/-- All removals scheduled so far have run. -/
def settle (r : Root) : Root :=
  r.closing.foldl cleanup r

/-- The popover element that `openMilestone(i)` builds for the milestone `m`. -/
def newPopover (r : Root) (i : Int) (m : Milestone) : Popover :=
  { node := r.fresh
    id := "milestone-popover-" ++ toString (i + 1)
    title := attrOr m.milestone ("Milestone " ++ toString (i + 1))
    dataSrc := attrOr m.preview ("assets/previews/section-" ++ toString (i + 1) ++ ".png")
    href := "#section-" ++ toString (i + 1)
    labelledBy :=
      attrOr (r.buttonIds[i.toNat]?) (attrOr m.elementId ("milestone-" ++ toString (i + 1))) }

/-- The function `openMilestone(i)`, up to the point where the new popover has
been appended and made current (the later statements move focus and the
highlight only).  It first runs `closePopover`; reading an attribute of a
milestone that does not exist throws. -/
def openMilestone (r : Root) (i : Int) : Root × Option JSError :=
  let r1 := closePopover r
  match (if 0 ≤ i then r1.milestones[i.toNat]? else none) with
  | none => (r1, some .typeError)
  | some m =>
    ({ r1 with
       popovers := r1.popovers ++ [newPopover r1 i m]
       currentPopover := some r1.fresh
       fresh := r1.fresh + 1 }, none)

/-- The operations on the popovers of a root.  A `cleanup` may name any
element identity, which covers every order in which the scheduled callbacks
can fire. -/
inductive PopEvent where
  | openMilestone (i : Int)
  | closePopover
  | cleanup (n : Nat)
  deriving DecidableEq, Repr

/-- One operation applied to a root. -/
def applyEvent (r : Root) : PopEvent → Root
  | .openMilestone i => (openMilestone r i).1
  | .closePopover => closePopover r
  | .cleanup n => cleanup r n

/-- A sequence of operations applied from left to right. -/
def applyEvents (r : Root) (es : List PopEvent) : Root :=
  es.foldl applyEvent r

/-- The call `openMilestone(i)` followed by the call `openMilestone(j)`. -/
def reopen (r : Root) (i j : Int) : Root :=
  (openMilestone (openMilestone r i).1 j).1

/-- Sanity condition on a root: element identities in use lie below `fresh`,
and every popover still in the root is the current one or has its removal
scheduled. -/
def Root.WF (r : Root) : Prop :=
  (∀ p ∈ r.popovers, p.node < r.fresh) ∧
  (∀ n ∈ r.closing, n < r.fresh) ∧
  (∀ n, r.currentPopover = some n → n < r.fresh) ∧
  (∀ p ∈ r.popovers, r.currentPopover = some p.node ∨ p.node ∈ r.closing)

/-! ## Controls and keyboard (`assets/roadmap.js`, second module) -/

/-- A `.roadmap-milestone` element found inside an existing
`.roadmap-milestones` container: its `id` (empty when it has none) and its
`data-element-id` attribute. -/
structure ExistingButton where
  id : String
  elementId : Option String
  deriving DecidableEq, Repr

/-- The "build or adopt" step of `initRoadmap(root)`: the `id` of every element
of `buttons`, and the number of children the freshly created `controls`
element ends up with.  Existing milestone buttons are adopted and get an `id`
when they lack one, and nothing is appended to `controls`; otherwise one button
per milestone is created and appended to `controls`. -/
def buildButtons (ms : List Milestone) (existing : List ExistingButton) : List String × Nat :=
  if existing ≠ [] then
    (existing.mapIdx (fun idx b =>
      if b.id ≠ "" then b.id else attrOr b.elementId ("milestone-" ++ toString (idx + 1))), 0)
  else
    (ms.mapIdx (fun i _ => "milestone-" ++ toString (i + 1)), ms.length)

/-- The closure state of an initialised roadmap with milestones: the popover
part, the variable `active`, and `controls.children.length`. -/
structure Widget where
  root : Root
  active : Int
  controlsCount : Nat
  deriving DecidableEq, Repr

/-- The widget right after `initRoadmap(root)`. -/
def Widget.init (ms : List Milestone) (existing : List ExistingButton) : Widget :=
  { root := Root.init ms (buildButtons ms existing).1
    active := 0
    controlsCount := (buildButtons ms existing).2 }

/-- The keys the `keydown` listener of the root distinguishes. -/
inductive Key where
  | arrowRight
  | arrowLeft
  | enter
  | space
  | escape
  | other
  deriving DecidableEq, Repr

/-- The `keydown` listener of the root: the widget after it and the exception
it ended with, if any.  Moving focus and the highlight is not modelled. -/
def keydown (w : Widget) : Key → Widget × Option JSError
  | .arrowRight => ({ w with active := min (w.active + 1) ((w.controlsCount : Int) - 1) }, none)
  | .arrowLeft => ({ w with active := max (w.active - 1) 0 }, none)
  | .enter => ({ w with root := (openMilestone w.root w.active).1 }, (openMilestone w.root w.active).2)
  | .space => ({ w with root := (openMilestone w.root w.active).1 }, (openMilestone w.root w.active).2)
  | .escape => ({ w with root := closePopover w.root }, none)
  | .other => (w, none)

/-- A sequence of key events, each handled in the state left by the previous one. -/
def keysDown (w : Widget) (ks : List Key) : Widget :=
  ks.foldl (fun st k => (keydown st k).1) w

/-! ## Path animation and the milestone gate (second module) -/

/-- The value of an inline style property: not set, a number, or other text. -/
inductive StyleVal where
  | empty
  | num (q : ℚ)
  | text (s : String)
  deriving DecidableEq

/-- An SVG `path` of the root: the result of `getTotalLength()` (`none` when it
throws), the inline styles `stroke-dasharray`, `stroke-dashoffset` and
`transition`, and the classes `timeline-dashed` and `path-animate`. -/
structure SvgPath where
  totalLength : Option ℚ
  dasharray : StyleVal
  dashoffset : StyleVal
  transition : String
  timelineDashed : Bool
  pathAnimate : Bool
  deriving DecidableEq

/-- A roadmap root element together with what `initRoadmap(root)` installs: the
user's reduced-motion preference (`matchMedia(...).matches`), the SVG paths,
the `[data-milestone]` elements, the existing milestone buttons, the class
`roadmap--visible`, the number of intersection observers watching the root,
the number of event listeners installed, and the controls once they are built. -/
structure View where
  reducedMotion : Bool
  paths : List SvgPath
  milestones : List Milestone
  existing : List ExistingButton
  visible : Bool
  observers : Nat
  handlers : Nat
  widget : Option Widget
  deriving DecidableEq

/-- The body of the first `svgPaths.forEach` of `initRoadmap(root)`: the stroke
is prepared for the draw animation; a path whose length query throws is left
as it is. -/
def preparePath (p : SvgPath) : SvgPath :=
  match p.totalLength with
  | some len =>
    { p with dasharray := .num len, dashoffset := .num len
             transition := "stroke-dashoffset 900ms ease", timelineDashed := true }
  | none => p

/-- The function `initRoadmap(root)` for an existing root: the paths are
prepared and the observer is installed first; only then does a root without
milestones return, and otherwise the controls, the highlight and the listeners
(window resize and scroll, root keydown, document click, one click per created
button) are set up.  The reduced-motion preference is not read. -/
def initRoadmap (v : View) : View :=
  if v.milestones = [] then
    { v with paths := v.paths.map preparePath, observers := v.observers + 1 }
  else
    { v with paths := v.paths.map preparePath, observers := v.observers + 1
             widget := some (Widget.init v.milestones v.existing)
             handlers := v.handlers + 4 + (buildButtons v.milestones v.existing).2 }

/-- The observer callback for one entry: entering the viewport shows the
stroke and adds `path-animate`; leaving hides it again. -/
def intersect (v : View) (isIntersecting : Bool) : View :=
  if isIntersecting then
    { v with visible := true
             paths := v.paths.map (fun p => { p with dashoffset := .num 0, pathAnimate := true }) }
  else
    { v with visible := false
             paths := v.paths.map (fun p =>
               { p with dashoffset := (match p.dasharray with
                          | .empty => .num 0
                          | d => d)
                        pathAnimate := false }) }

/-- A sequence of viewport enter (`true`) and leave (`false`) events. -/
def viewport (v : View) (events : List Bool) : View :=
  events.foldl intersect v

/-! ## Numbers of the placement code (`assets/roadmap.js`, third module)

`placeMilestonesInStage` computes in IEEE 754 double precision, rounding every
intermediate result to the nearest double.  A finite double is represented by
the rational number it denotes, so the two zeros are one value: neither the
operations used by the code (`+`, `-`, `*`, division by the literal `100`,
`Math.round`, `Math.max`, `Number.isNaN`) nor the conversion of a number to text
tells them apart. -/

/-- The number of binary digits of `n`, counted with `fuel` halvings at most. -/
def bitsAux : Nat → Nat → Nat
  | 0, _ => 0
  | fuel + 1, n => if n = 0 then 0 else bitsAux fuel (n / 2) + 1

/-- The number of binary digits of `n`: `0` for `0`, otherwise the `l` with
`2 ^ (l - 1) ≤ n < 2 ^ l`. -/
def bitLength (n : Nat) : Nat :=
  bitsAux n n

/-- The binary64 magnitude nearest to the positive rational `a / b`, ties going
to the even significand; `none` when that magnitude is out of range, so that
the result is an infinity.  `e` is the binary exponent of `a / b`, `k` the
exponent of the last place of the result (held at `-1074` for subnormal
results) and `m` the significand, at most `2 ^ 53`. -/
def roundMag (a b : Nat) : Option ℚ :=
  let e0 : Int := (bitLength a : Int) - (bitLength b : Int)
  let e : Int := if b * 2 ^ e0.toNat ≤ a * 2 ^ (-e0).toNat then e0 else e0 - 1
  let k : Int := max (e - 52) (-1074)
  let num : Nat := a * 2 ^ (-k).toNat
  let den : Nat := b * 2 ^ k.toNat
  let q := num / den
  let r := num % den
  let m := if 2 * r < den then q else if den < 2 * r then q + 1 else if q % 2 = 0 then q else q + 1
  if 2 ^ 1024 * 2 ^ (-k).toNat ≤ m * 2 ^ k.toNat then none
  else some ((m : ℚ) * 2 ^ k)

/-- A JavaScript `Number`: `NaN`, an infinity (`neg` for `-Infinity`), or a
finite double given by the rational it denotes. -/
inductive Float64 where
  | nan
  | inf (neg : Bool)
  | fin (q : ℚ)
  deriving DecidableEq

namespace Float64

/-- The Number value for a rational: the nearest double, ties to even, and an
infinity beyond the largest finite double. -/
def ofRat (q : ℚ) : Float64 :=
  if q = 0 then .fin 0
  else
    match roundMag q.num.natAbs q.den with
    | some v => .fin (if q < 0 then -v else v)
    | none => .inf (decide (q < 0))

/-- The operator `+` on Numbers. -/
def add : Float64 → Float64 → Float64
  | .nan, _ => .nan
  | _, .nan => .nan
  | .inf s, .inf t => if s = t then .inf s else .nan
  | .inf s, .fin _ => .inf s
  | .fin _, .inf t => .inf t
  | .fin a, .fin b => ofRat (a + b)

/-- The operator `-` on Numbers. -/
def sub : Float64 → Float64 → Float64
  | .nan, _ => .nan
  | _, .nan => .nan
  | .inf s, .inf t => if s = t then .nan else .inf s
  | .inf s, .fin _ => .inf s
  | .fin _, .inf t => .inf (!t)
  | .fin a, .fin b => ofRat (a - b)

/-- The operator `*` on Numbers. -/
def mul : Float64 → Float64 → Float64
  | .nan, _ => .nan
  | _, .nan => .nan
  | .inf s, .inf t => .inf (s != t)
  | .inf s, .fin b => if b = 0 then .nan else .inf (s != decide (b < 0))
  | .fin a, .inf t => if a = 0 then .nan else .inf (decide (a < 0) != t)
  | .fin a, .fin b => ofRat (a * b)

/-- The quotient `x / d` for a finite constant `d > 0`, as in `x / 100`. -/
def divBy : Float64 → ℚ → Float64
  | .nan, _ => .nan
  | .inf s, _ => .inf s
  | .fin a, d => ofRat (a / d)

/-- The function `Math.round`: the nearest integer, halves rounded up; `NaN`
and the infinities are returned as they are. -/
def mathRound : Float64 → Float64
  | .fin q => .fin ((⌊q + 1 / 2⌋ : Int) : ℚ)
  | v => v

/-- The function `Math.max` of two Numbers. -/
def mathMax : Float64 → Float64 → Float64
  | .nan, _ => .nan
  | _, .nan => .nan
  | .inf false, _ => .inf false
  | _, .inf false => .inf false
  | .inf true, b => b
  | a, .inf true => a
  | .fin a, .fin b => .fin (max a b)

instance : Add Float64 := ⟨add⟩

instance : Sub Float64 := ⟨sub⟩

instance : Mul Float64 := ⟨mul⟩

end Float64

/-! ## Stages: milestone placement and connectors (`assets/roadmap.js`, third module)

The numbers of a rectangle are rationals.  The placement code reads them as
doubles (`Float64.ofRat`, which leaves a double as it is) and computes in double
precision; the connector and button geometry further down is exact. -/

/-- The result of `getBoundingClientRect()`. -/
structure Rect where
  left : ℚ
  top : ℚ
  width : ℚ
  height : ℚ
  deriving DecidableEq

/-- The function `Math.round`: the nearest integer, halves rounded up. -/
def jsRound (x : ℚ) : Int :=
  ⌊x + 1 / 2⌋

/-- The value of an inline length property: not set, a whole number of pixels,
a percentage, or other text. -/
inductive CssLen where
  | unset
  | px (n : Int)
  | pct (q : ℚ)
  | other (s : String)
  deriving DecidableEq

/-- A `.milestone` element of a stage: `data-node-id`, `id`, the characters
`Math.random().toString(36).slice(2, 8)` yields when its connector is named,
the Numbers `parseFloat` returns for `data-x` and `data-y` (`NaN` for a missing
or non-numeric attribute), its bounding rectangle (`none` when the query
throws), and its inline `left`, `top` and `max-width`. -/
structure Marker where
  nodeId : Option String
  id : String
  randomId : String
  x : Float64
  y : Float64
  rect : Option Rect
  left : CssLen
  top : CssLen
  maxWidth : CssLen
  deriving DecidableEq

/-- The value of an attribute written by `setAttribute`: a number or text. -/
inductive AttrVal where
  | num (q : ℚ)
  | str (s : String)
  deriving DecidableEq

/-- A child element of the connectors `svg`: tag, `id` and further attributes in
the order they were first set. -/
structure SvgEl where
  tag : String
  id : String
  attrs : List (String × AttrVal)
  deriving DecidableEq

/-- A `.stage` element: its bounding rectangle, the rectangle of its
`.roadmap-img` (`none` when it has no image), its milestone elements, and the
children of its connectors `svg` (`none` when it has no `svg`).  Connector ids
are taken not to occur anywhere else in the document. -/
structure Stage where
  rect : Rect
  imgRect : Option Rect
  markers : List Marker
  svg : Option (List SvgEl)
  deriving DecidableEq

/-- The assignment `style.prop = v + 'px'` for a whole Number `v`: a finite
value is stored; `NaNpx` and `Infinitypx` are not valid lengths and the style
keeps its value. -/
def assignPx (old : CssLen) : Float64 → CssLen
  | .fin q => .px ⌊q⌋
  | _ => old

/-- The guarded assignment `if (!Number.isNaN(v)) style.prop = v + '%'`: a
finite value is stored; `NaN` is skipped by the guard and `Infinity%` is not a
valid length, so the style keeps its value. -/
def assignPct (old : CssLen) : Float64 → CssLen
  | .fin q => .pct q
  | _ => old

/-- The body of the loop of `placeMilestonesInStage` for one milestone.  With an
image the pixel position is derived from the image rectangle in double
precision, in the order in which the code evaluates it; without an image the
coordinates are written as percentages. -/
def placeOne (imgRect : Option Rect) (stageRect : Rect) (m : Marker) : Marker :=
  match imgRect with
  | some ir =>
    let px := Float64.ofRat ir.left - Float64.ofRat stageRect.left
      + m.x.divBy 100 * Float64.ofRat ir.width
    let py := Float64.ofRat ir.top - Float64.ofRat stageRect.top
      + m.y.divBy 100 * Float64.ofRat ir.height
    let base := Float64.mathMax (.fin 1) (Float64.ofRat ir.width)
    let mw := Float64.mathMax (.fin 80) (Float64.mathRound (base * Float64.ofRat (12 / 100)))
    { m with
      left := assignPx m.left (Float64.mathRound px)
      top := assignPx m.top (Float64.mathRound py)
      maxWidth := assignPx m.maxWidth mw }
  | none =>
    { m with
      left := assignPct m.left m.x
      top := assignPct m.top m.y }

/-- The function `placeMilestonesInStage` for an existing stage. -/
def placeMilestonesInStage (st : Stage) : Stage :=
  { st with markers := st.markers.map (placeOne st.imgRect st.rect) }

/-- The function `placeAll` over the stages of the document. -/
def placeAll (stages : List Stage) : List Stage :=
  stages.map placeMilestonesInStage

/-- Update of one attribute by `setAttribute`. -/
def setAttr (attrs : List (String × AttrVal)) (k : String) (v : AttrVal) :
    List (String × AttrVal) :=
  if attrs.any (fun kv => kv.1 = k) then
    attrs.map (fun kv => if kv.1 = k then (k, v) else kv)
  else attrs ++ [(k, v)]

/-- A run of `setAttribute` calls on one element. -/
def setAttrs (el : SvgEl) (kvs : List (String × AttrVal)) : SvgEl :=
  { el with attrs := kvs.foldl (fun a kv => setAttr a kv.1 kv.2) el.attrs }

/-- Lookup `document.getElementById(id)` among the children of the `svg`. -/
def byId (id : String) : List SvgEl → Option SvgEl
  | [] => none
  | e :: es => if e.id = id then some e else byId id es

/-- The first element with the given `id` is replaced by its image under `f`. -/
def modifyById (id : String) (f : SvgEl → SvgEl) : List SvgEl → List SvgEl
  | [] => []
  | e :: es => if e.id = id then f e :: es else e :: modifyById id f es

/-- The element with the given `id` is created and appended with its initial
attributes unless one exists, then the further attributes are set on it: the
common shape of `makeLine` and `makeTip`. -/
def upsert (svg : List SvgEl) (tag id : String) (initial further : List (String × AttrVal)) :
    List SvgEl :=
  modifyById id (fun e => setAttrs e further)
    (match byId id svg with
     | some _ => svg
     | none => svg ++ [{ tag := tag, id := id, attrs := initial }])

/-- The inner function `makeLine` with the default colour. -/
def makeLine (svg : List SvgEl) (id : String) (x1 y1 x2 y2 : AttrVal) : List SvgEl :=
  upsert svg "line" id
    [("id", .str id), ("class", .str "connector-line"),
     ("vector-effect", .str "non-scaling-stroke")]
    [("x1", x1), ("y1", y1), ("x2", x2), ("y2", y2), ("stroke", .str "#0361bf"),
     ("stroke-width", .str "2"), ("stroke-opacity", .str "1")]

/-- The inner function `makeTip` with radius 5 and the default colour. -/
def makeTip (svg : List SvgEl) (id : String) (cx cy : AttrVal) : List SvgEl :=
  upsert svg "circle" (id ++ "-tip")
    [("id", .str (id ++ "-tip")), ("class", .str "connector-tip")]
    [("cx", cx), ("cy", cy), ("r", .str "5"), ("fill", .str "#0361bf"),
     ("fill-opacity", .str "1")]

/-- The name a milestone gives to its connector:
`m.dataset.nodeId || m.id || ('node-' + random)`. -/
def connectorName (m : Marker) : String :=
  attrOr m.nodeId (if m.id ≠ "" then m.id else "node-" ++ m.randomId)

/-- The body of the loop of `drawConnectorsFor` for one milestone, inside its
`try`: when the rectangle query throws nothing is drawn; otherwise the line
runs from the anchor at 0.08 of the stage width to the centre of the milestone,
and the tip sits at that centre. -/
def drawOne (stageRect : Rect) (svg : List SvgEl) (m : Marker) : List SvgEl :=
  match m.rect with
  | none => svg
  | some rect =>
    let x2 := rect.left + rect.width / 2 - stageRect.left
    let y2 := rect.top + rect.height / 2 - stageRect.top
    let x1 : ℚ := jsRound (stageRect.width * (8 / 100))
    let y1 : ℚ := jsRound y2
    makeTip
      (makeLine svg ("connector-" ++ connectorName m) (.num x1) (.num y1) (.num x2) (.num y2))
      ("connector-" ++ connectorName m) (.num x2) (.num y2)

/-- The function `drawConnectorsFor` for an existing stage: nothing without an
`svg`; otherwise the `svg` is emptied and the connectors are drawn milestone by
milestone. -/
def drawConnectorsFor (st : Stage) : Stage :=
  match st.svg with
  | none => st
  | some _ => { st with svg := some (st.markers.foldl (drawOne st.rect) []) }

/-- The element with the given `id` among the connectors of a stage. -/
def connectorOf (st : Stage) (id : String) : Option SvgEl :=
  match st.svg with
  | some svg => byId id svg
  | none => none

/-! ## Positioning the buttons along the path (second module) -/

/-- A point returned by `getPointAtLength`. -/
structure Point where
  x : ℚ
  y : ℚ
  deriving DecidableEq

/-- What `positionButtons` reads from the document: whether an `svg` with a
path exists, the first path's `getTotalLength()` (`none` when it throws) and
`getPointAtLength` (`none` where it throws), the view box `vb`, and the
bounding rectangles of the `svg` and of the root. -/
structure PathGeom where
  hasPath : Bool
  totalLength : Option ℚ
  pointAt : ℚ → Option Point
  viewBox : Rect
  svgRect : Rect
  rootRect : Rect

/-- A milestone button: `offsetWidth`, `offsetHeight` and the inline styles
`position`, `left` and `top`. -/
structure Btn where
  offsetWidth : ℚ
  offsetHeight : ℚ
  position : String
  left : CssLen
  top : CssLen
  deriving DecidableEq

/-- The fraction of the path at which button `i` of `n` is placed. -/
def pathFraction (n i : Nat) : ℚ :=
  if n = 1 then 1 / 2 else (i : ℚ) / ((n : ℚ) - 1)

/-- The body of the loop of `positionButtons` after the point query returned
`pt`.  A view box of zero width or height makes the coordinate non-finite, and
the style ignores the resulting invalid value. -/
def positionOne (g : PathGeom) (pt : Point) (b : Btn) : Btn :=
  let px := g.svgRect.left + (pt.x - g.viewBox.left) * (g.svgRect.width / g.viewBox.width)
  let py := g.svgRect.top + (pt.y - g.viewBox.top) * (g.svgRect.height / g.viewBox.height)
  let bw := if b.offsetWidth = 0 then 44 else b.offsetWidth
  let bh := if b.offsetHeight = 0 then 44 else b.offsetHeight
  { b with
    position := "absolute"
    left := if g.viewBox.width = 0 then b.left else .px (jsRound (px - g.rootRect.left - bw / 2))
    top := if g.viewBox.height = 0 then b.top else .px (jsRound (py - g.rootRect.top - bh / 2)) }

/-- The loop `buttons.forEach` of `positionButtons` from button `i` on: it has
no `try`, so the first point query that throws ends it and the exception
leaves the function, the remaining buttons being untouched. -/
def positionLoop (g : PathGeom) (len : ℚ) (n : Nat) : Nat → List Btn → List Btn × Option JSError
  | _, [] => ([], none)
  | i, b :: bs =>
    match g.pointAt (pathFraction n i * len) with
    | none => (b :: bs, some .domException)
    | some pt =>
      ((positionOne g pt b) :: (positionLoop g len n (i + 1) bs).1,
        (positionLoop g len n (i + 1) bs).2)

/-- The function `positionButtons`: nothing without a path or without buttons,
nothing when the length query throws (it is caught), otherwise the loop. -/
def positionButtons (g : PathGeom) (buttons : List Btn) : List Btn × Option JSError :=
  if g.hasPath = false ∨ buttons = [] then (buttons, none)
  else
    match g.totalLength with
    | none => (buttons, none)
    | some len => positionLoop g len buttons.length 0 buttons

/-! ## The DETAILS-bound roadmap: active node and expansion (first module) -/

namespace Details

/-- An element carrying a `data-node-id` attribute: that attribute, its
`tabindex`, the classes `active` and `expanded`, and its `aria-expanded`
attribute (`none` when missing). -/
structure DNode where
  nodeId : String
  tabindex : Option String
  active : Bool
  expanded : Bool
  ariaExpanded : Option String
  deriving DecidableEq, Repr

/-- The element `#box_found_examples`: whether its inline `display` shows it,
its `aria-hidden`, its class `expanded` and its `aria-expanded`. -/
structure Box where
  shown : Bool
  ariaHidden : Option String
  expanded : Bool
  ariaExpanded : Option String
  deriving DecidableEq, Repr

/-- The element `#btn_show_foundation_examples`: its `aria-expanded`. -/
structure FoundationBtn where
  ariaExpanded : Option String
  deriving DecidableEq, Repr

/-- What the variable `expandedEl` refers to: the bound node at a position, or
the examples box. -/
inductive Expanded where
  | node (i : Nat)
  | box
  deriving DecidableEq, Repr

/-- The closure state of `initRoadmap()`: the bound `nodes`, the examples box
and its button when they exist, `activeIndex`, `expandedEl` and the detail
panel.  The box and the button are taken not to be bound nodes themselves. -/
structure Bound where
  nodes : List DNode
  box : Option Box
  btn : Option FoundationBtn
  activeIndex : Int
  expandedEl : Option Expanded
  panel : Panel
  deriving DecidableEq, Repr

/-- The binding `ids.map(id => document.querySelector(...)).filter(Boolean)`:
for every key of `DETAILS`, in order, the first element of the document with
that `data-node-id`. -/
def bindNodes (doc : List DNode) : List DNode :=
  (DETAILS.map Prod.fst).filterMap (fun id => doc.find? (fun e => decide (e.nodeId = id)))

/-- The node at position `i` is replaced by its image under `f`. -/
def withNode (nodes : List DNode) (i : Nat) (f : DNode → DNode) : List DNode :=
  nodes.mapIdx (fun j nd => if j = i then f nd else nd)

/-- The function `collapseCurrent`. -/
def collapseCurrent (st : Bound) : Bound :=
  match st.expandedEl with
  | none => st
  | some (.node i) =>
    { st with
      nodes := withNode st.nodes i (fun nd =>
        { nd with expanded := false, ariaExpanded := nd.ariaExpanded.map (fun _ => "false") })
      expandedEl := none }
  | some .box =>
    { st with
      box := st.box.map (fun b =>
        { b with expanded := false, ariaExpanded := b.ariaExpanded.map (fun _ => "false")
                 shown := false, ariaHidden := some "true" })
      btn := st.btn.map (fun _ => { ariaExpanded := some "false" })
      expandedEl := none }

/-- The tail of `expandFor`: the node itself is expanded. -/
def expandSelf (st : Bound) (i : Nat) : Bound :=
  { st with
    nodes := withNode st.nodes i (fun nd =>
      { nd with expanded := true, ariaExpanded := nd.ariaExpanded.map (fun _ => "true") })
    expandedEl := some (.node i) }

/-- The function `expandFor(node)` for the node at position `i`: the current
expansion is collapsed, the node is marked active, and either the examples box
is shown (for the node `foundations`, when the box exists) or the node itself
is expanded. -/
def expandFor (st : Bound) (i : Nat) : Bound :=
  match (collapseCurrent st).nodes[i]? with
  | none => collapseCurrent st
  | some node =>
    if node.nodeId = "foundations" then
      match (collapseCurrent st).box with
      | some b =>
        { collapseCurrent st with
          nodes := withNode (collapseCurrent st).nodes i (fun nd => { nd with active := true })
          box := some { b with shown := true, ariaHidden := some "false" }
          btn := (collapseCurrent st).btn.map (fun _ => { ariaExpanded := some "true" })
          expandedEl := some .box }
      | none =>
        expandSelf { collapseCurrent st with
          nodes := withNode (collapseCurrent st).nodes i (fun nd => { nd with active := true }) } i
    else
      expandSelf { collapseCurrent st with
        nodes := withNode (collapseCurrent st).nodes i (fun nd => { nd with active := true }) } i

/-- The two clamping statements at the head of `setActive`. -/
def clampActive (n : Nat) (index : Int) : Int :=
  let i1 := if index < 0 then 0 else index
  if i1 ≥ (n : Int) then (n : Int) - 1 else i1

/-- The function `setActive(index, focusNode)` up to its last statement: the
index is clamped, every node loses `active`, the target node gets it,
`activeIndex` is updated, the details are rendered and the node is expanded.
An exception of `renderDetails` ends the call before the expansion. -/
def setActiveBody (st : Bound) (index : Int) : Bound × Option JSError :=
  let c := clampActive st.nodes.length index
  let cleared := st.nodes.map (fun nd => { nd with active := false })
  match (if 0 ≤ c then cleared[c.toNat]? else none) with
  | none => ({ st with nodes := cleared }, none)
  | some node =>
    let st1 := { st with
      nodes := withNode cleared c.toNat (fun nd => { nd with active := true })
      activeIndex := c }
    match renderDetails st1.panel node.nodeId with
    | (panel, some e) => ({ st1 with panel := panel }, some e)
    | (panel, none) => (expandFor { st1 with panel := panel } c.toNat, none)

/-- The function `setActive(index, focusNode)`.  Its last statement focuses the
node when asked to; `refocus` tells whether that raises a `focus` event, whose
listener runs `setActive` once more for the same node. -/
def setActive (st : Bound) (index : Int) (refocus : Bool) : Bound × Option JSError :=
  if refocus = true ∧ (setActiveBody st index).2 = none ∧ st.nodes ≠ [] then
    setActiveBody (setActiveBody st index).1 (setActiveBody st index).1.activeIndex
  else setActiveBody st index

/-- The function `initRoadmap()` of the first module for a document with at
least one bound node (without one it returns before any state exists): the
nodes are bound and get a `tabindex`, and the first node is activated. -/
def initRoadmap (doc : List DNode) (box : Option Box) (btn : Option FoundationBtn)
    (panel : Panel) : Bound × Option JSError :=
  setActive
    { nodes := (bindNodes doc).map (fun nd => { nd with tabindex := some (attrOr nd.tabindex "0") })
      box := box, btn := btn, activeIndex := 0, expandedEl := none, panel := panel }
    0 false

/-- The click listener of `#btn_show_foundation_examples`, attached when the
button and the box both exist: the box is shown or hidden according to the
`aria-expanded` of the button; `expandedEl` is not touched. -/
def clickFoundation (st : Bound) : Bound :=
  match st.btn, st.box with
  | some btn, some box =>
    if btn.ariaExpanded = some "true" then
      { st with
        btn := some { ariaExpanded := some "false" }
        box := some { box with shown := false, ariaHidden := some "true" } }
    else
      { st with
        btn := some { ariaExpanded := some "true" }
        box := some { box with shown := true, ariaHidden := some "false" } }
  | _, _ => st

/-- What can happen after `initRoadmap()`: a call `setActive(index, focusNode)`
(from a click, a key or a focus event on a node), or a click on the
foundation-examples button. -/
inductive DEvent where
  | activate (index : Int) (refocus : Bool)
  | clickButton
  deriving DecidableEq, Repr

/-- The state after one event. -/
def applyDEvent (st : Bound) : DEvent → Bound
  | .activate index refocus => (setActive st index refocus).1
  | .clickButton => clickFoundation st

/-- The state after a sequence of events. -/
def runDEvents (st : Bound) (events : List DEvent) : Bound :=
  events.foldl applyDEvent st

/-- The number of elements in the expanded state: nodes with class `expanded`,
and the examples box when it is shown or carries that class. -/
def expandedCount (st : Bound) : Nat :=
  (st.nodes.filter (fun nd => nd.expanded)).length +
    (match st.box with
     | some b => if b.shown || b.expanded then 1 else 0
     | none => 0)

/-- There are `n` nodes, every node is named by a key of `DETAILS`, and every
expanded node is the one `expandedEl` refers to. -/
def NodesTracked (n : Nat) (st : Bound) : Prop :=
  st.nodes.length = n ∧
  (∀ nd ∈ st.nodes, ∃ d, DETAILS.lookup nd.nodeId = some d) ∧
  (∀ (j : Nat) (nd : DNode), st.nodes[j]? = some nd → nd.expanded = true →
    st.expandedEl = some (.node j))

/-- The examples box is hidden, or it is the element `expandedEl` refers to. -/
def BoxTracked (st : Bound) : Prop :=
  ∀ b : Box, st.box = some b → (b.shown = true ∨ b.expanded = true) →
    st.expandedEl = some .box

end Details

end Roadmap

/-! # Theorems -/

namespace Presenter

/-! ## Toggling -/

/-- Claim C1 (evaluated on the code): starting with no auxiliary surface, when
the first window-open attempt succeeds a second toggle closes everything; but
when the first attempt fails (blocked or thrown) the overlay created by the
first toggle is still there after the second toggle, whatever the second
attempt does, and its node is still in the document. -/
theorem toggle_twice_from_closed (env : Env) (t : Nat) (o2 : OpenOutcome) :
    ((toggle env (toggle env ⟨none, none, 0, t⟩ .opened) o2).liveWnd = false ∧
      (toggle env (toggle env ⟨none, none, 0, t⟩ .opened) o2).overlay = none ∧
      (toggle env (toggle env ⟨none, none, 0, t⟩ .opened) o2).docOverlays = 0) ∧
    ((toggle env (toggle env ⟨none, none, 0, t⟩ .blocked) o2).overlay.isSome = true ∧
      (toggle env (toggle env ⟨none, none, 0, t⟩ .blocked) o2).docOverlays = 1) ∧
    ((toggle env (toggle env ⟨none, none, 0, t⟩ .threw) o2).overlay.isSome = true ∧
      (toggle env (toggle env ⟨none, none, 0, t⟩ .threw) o2).docOverlays = 1) := by
  cases o2 <;>
    simp [toggle, openWindow, closeWindow, exitOverlay, enterOverlay, sendState, deliver,
      PState.liveWnd]

/-- Claim C2 (evaluated on the code): a toggle whose window-open attempt is
blocked, followed by a toggle whose attempt succeeds, reaches a state with a
live window and an overlay at the same time. -/
theorem window_and_overlay_reachable (env : Env) :
    (run env PState.init [.toggle .blocked, .toggle .opened]).liveWnd = true ∧
    (run env PState.init [.toggle .blocked, .toggle .opened]).overlay.isSome = true ∧
    (run env PState.init [.toggle .blocked, .toggle .opened]).docOverlays = 1 := by
  simp [run, step, toggle, openWindow, enterOverlay, sendState, deliver,
    PState.liveWnd, PState.init]

/-! ## Payloads -/

/-- Claim C5: the payload built by sendUpdate(i) has type update, index i and one
summary per slide element, the k-th summary being the one of the k-th element
and carrying index k; a live window receives exactly this payload. -/
theorem sendUpdate_payload (env : Env) (p : PState) (i : JSNum) :
    (updatePayload env i).type = "update" ∧
    (updatePayload env i).index = i ∧
    (updatePayload env i).slides.length = env.slides.length ∧
    (∀ k, ∀ el, env.slides[k]? = some el →
      (updatePayload env i).slides[k]? = some (slideSummary k el) ∧
      (slideSummary k el).index = k) ∧
    (∀ w, p.wnd = some w → w.closed = false →
      (sendUpdate env p i).wnd = some { w with inbox := w.inbox ++ [updatePayload env i] }) := by
  refine ⟨rfl, rfl, ?_, ?_, ?_⟩
  · simp [updatePayload, getSlidesData]
  · intro k el h
    simp [updatePayload, getSlidesData, List.getElem?_mapIdx, h, slideSummary]
  · intro w hw hc
    simp [sendUpdate, deliver, hw, hc]

/-- Witness for C5: a deck of five slides and sendUpdate(2). -/
theorem sendUpdate_payload_witness :
    (updatePayload ⟨List.replicate 5 ⟨none, none, none, false⟩, .absent⟩ (.int 2)).type = "update" ∧
    (updatePayload ⟨List.replicate 5 ⟨none, none, none, false⟩, .absent⟩ (.int 2)).index = .int 2 ∧
    (updatePayload ⟨List.replicate 5 ⟨none, none, none, false⟩, .absent⟩ (.int 2)).slides.length = 5 :=
  have h := sendUpdate_payload ⟨List.replicate 5 ⟨none, none, none, false⟩, .absent⟩ PState.init (.int 2)
  ⟨h.1, h.2.1, h.2.2.1⟩

/-! ## The message listener -/

/-- Counterexample to C6 as stated: the second delivery of the identical
message nav 2 is not ignored, it issues the slide command again. -/
theorem nav_repeat_issues_again :
    commandsOf ⟨[], .noGetIndices⟩ PState.init
        [.record (.str "nav") (.num (.int 2)) .undefined,
         .record (.str "nav") (.num (.int 2)) .undefined]
      = [.slide (.int 2), .slide (.int 2)] ∧
    commandsOf ⟨[], .noGetIndices⟩ PState.init
        [.record (.str "nav") (.num (.int 2)) .undefined,
         .record (.str "nav") (.num (.int 2)) .undefined]
      ≠ commandsOf ⟨[], .noGetIndices⟩ PState.init
        [.record (.str "nav") (.num (.int 2)) .undefined] := by
  decide

/-- Claim C6, amended: with a deck loaded, each delivery of a nav message with
numeric index k issues exactly the command slide k and leaves the presenter
state unchanged; a repeat delivery issues it again; and on any deck whose
slide k command is idempotent, the deck after two deliveries equals the deck
after one. -/
theorem nav_delivery (env : Env) (p : PState) (k : JSNum) (a : JSVal)
    (hdeck : env.reveal ≠ .absent) :
    onMessage env p (.record (.str "nav") (.num k) a) = .ok (p, [.slide k]) ∧
    commandsOf env p [.record (.str "nav") (.num k) a, .record (.str "nav") (.num k) a]
      = [.slide k, .slide k] ∧
    ∀ (D : Type) (exec : Cmd → D → D) (d : D),
      exec (.slide k) (exec (.slide k) d) = exec (.slide k) d →
      runCmds exec d
          (commandsOf env p [.record (.str "nav") (.num k) a, .record (.str "nav") (.num k) a])
        = runCmds exec d (commandsOf env p [.record (.str "nav") (.num k) a]) := by
  have h1 : onMessage env p (.record (.str "nav") (.num k) a) = .ok (p, [.slide k]) := by
    simp [onMessage, navBranch, controlBranch, revealCall, hdeck, MsgData.type, MsgData.index,
      bind, Except.bind, pure, Except.pure]
  refine ⟨h1, ?_, ?_⟩
  · simp [commandsOf, h1]
  · intro D exec d hid
    simp [commandsOf, h1, runCmds, hid]

/-- Witness for C6: the message nav 2 delivered to a loaded deck. -/
theorem nav_delivery_witness :
    onMessage ⟨[], .noGetIndices⟩ PState.init (.record (.str "nav") (.num (.int 2)) .undefined)
      = .ok (PState.init, [.slide (.int 2)]) :=
  (nav_delivery ⟨[], .noGetIndices⟩ PState.init (.int 2) .undefined (by decide)).1

/-- Claim C7: in every presenter state, with or without a deck, a control
message with action close completes normally, issues no deck command, and
leaves no live window and no overlay. -/
theorem control_close (env : Env) (p : PState) (i : JSVal) :
    ∃ q, onMessage env p (.record (.str "control") i (.str "close")) = .ok (q, []) ∧
      q.liveWnd = false ∧ q.overlay = none := by
  refine ⟨exitOverlay (closeWndKeepRef p), ?_, ?_, ?_⟩
  · simp [onMessage, navBranch, controlBranch, MsgData.type, MsgData.action,
      bind, Except.bind, pure, Except.pure]
  · cases p with
    | mk wnd overlay d t =>
      cases wnd <;> cases overlay <;> simp [exitOverlay, closeWndKeepRef, PState.liveWnd]
  · cases p with
    | mk wnd overlay d t =>
      cases wnd <;> cases overlay <;> simp [exitOverlay, closeWndKeepRef]

/-- Claim C8: a malformed message is a no-op that never throws: in every state,
with or without a deck, the listener completes normally, issues no deck
command and leaves the presenter state unchanged. -/
theorem malformed_is_noop (env : Env) (p : PState) (data : MsgData)
    (h : malformed data) : onMessage env p data = .ok (p, []) := by
  rcases h with h | ⟨h1, h2⟩ | ⟨h1, h2⟩ | ⟨h1, h2, h3, h4⟩
  · subst h
    simp [onMessage, navBranch, controlBranch, MsgData.type,
      bind, Except.bind, pure, Except.pure]
  · simp [onMessage, navBranch, controlBranch, h1, h2,
      bind, Except.bind, pure, Except.pure]
  · have h3 : data.type ≠ .str "control" := by rw [h1]; decide
    cases hi : data.index with
    | num x => exact absurd hi (h2 x)
    | _ => simp [onMessage, navBranch, controlBranch, h1, hi,
        bind, Except.bind, pure, Except.pure]
  · have h5 : data.type ≠ .str "nav" := by rw [h1]; decide
    simp [onMessage, navBranch, controlBranch, h1, h2, h3, h4,
      bind, Except.bind, pure, Except.pure]

/-- Witness for C8: a control message with the unknown action pause, received
while an overlay is open and no deck is loaded. -/
theorem malformed_is_noop_witness :
    onMessage ⟨[], .absent⟩ ⟨none, some ⟨"", "", "", ""⟩, 1, 0⟩
        (.record (.str "control") .undefined (.str "pause"))
      = .ok (⟨none, some ⟨"", "", "", ""⟩, 1, 0⟩, []) :=
  malformed_is_noop _ _ _ (Or.inr (Or.inr (Or.inr ⟨rfl, by decide, by decide, by decide⟩)))

/-! ## The index resolver and the overlay -/

/-- Claim C18: getCurrentIndex prefers the deck's index API and falls back to
the DOM: when getIndices exists and returns a numeric h the result is h; when
the deck or its getIndices is absent, or getIndices throws, the result is the
position of the first slide carrying class present, and 0 when no slide does. -/
theorem getCurrentIndex_prefers_api (env : Env) :
    (∀ x, env.reveal = .getIndices (.h x) → getCurrentIndex env = x) ∧
    ((env.reveal = .absent ∨ env.reveal = .noGetIndices ∨ env.reveal = .getIndicesThrows) →
      (∀ (i : Nat) (el : SlideEl), env.slides[i]? = some el → el.present = true →
        (∀ (j : Nat) (e : SlideEl), j < i → env.slides[j]? = some e → e.present = false) →
        getCurrentIndex env = .int i) ∧
      ((∀ el ∈ env.slides, el.present = false) → getCurrentIndex env = .int 0)) := by
  constructor
  · intro x hx
    simp [getCurrentIndex, hx]
  · intro hr
    have hdom : getCurrentIndex env =
        match env.slides.findIdx? (fun el => el.present) with
        | some i => .int i
        | none => .int 0 := by
      rcases hr with h | h | h <;> simp [getCurrentIndex, h]
    constructor
    · intro i el hel hp hbefore
      have hlt : i < env.slides.length := by
        rcases Nat.lt_or_ge i env.slides.length with h | h
        · exact h
        · rw [List.getElem?_eq_none h] at hel; cases hel
      have hfind : env.slides.findIdx? (fun el => el.present) = some i := by
        rw [List.findIdx?_eq_some_iff_getElem]
        refine ⟨hlt, ?_, ?_⟩
        · rw [List.getElem?_eq_getElem hlt] at hel
          rw [Option.some.inj hel]; exact hp
        · intro j hj
          have := hbefore j _ hj (List.getElem?_eq_getElem (Nat.lt_trans hj hlt))
          simp [this]
      rw [hdom, hfind]
    · intro hnone
      have hfind : env.slides.findIdx? (fun el => el.present) = none := by
        rw [List.findIdx?_eq_none_iff]
        exact hnone
      rw [hdom, hfind]

/-- Witness for C18: no deck loaded, three slides, the second one present. -/
theorem getCurrentIndex_prefers_api_witness :
    getCurrentIndex ⟨[⟨none, none, none, false⟩, ⟨none, none, none, true⟩,
      ⟨none, none, none, false⟩], .absent⟩ = .int (1 : Nat) :=
  ((getCurrentIndex_prefers_api ⟨[⟨none, none, none, false⟩, ⟨none, none, none, true⟩,
      ⟨none, none, none, false⟩], .absent⟩).2 (Or.inl rfl)).1 1 ⟨none, none, none, true⟩
    (by decide) rfl (by
      intro j e hj he
      have hj0 : j = 0 := by omega
      subst hj0
      simp at he
      rw [← he])

/-- Claim C19: renderOverlay shows the title and notes of slides[index] as the
current slide and those of slides[index + 1] as the next slide; a position
outside the list, or a non-integral index, gives empty strings; the function
is total, and it is what sendUpdate puts into an existing overlay. -/
theorem renderOverlay_current_and_next (ty : String) (slides : List SlideSummary) :
    (∀ (i : Int) (s : SlideSummary), 0 ≤ i → slides[i.toNat]? = some s →
      (renderOverlay ⟨ty, slides, .int i⟩).curTitle = s.title ∧
      (renderOverlay ⟨ty, slides, .int i⟩).curNotes = s.notes) ∧
    (∀ (i : Int) (s : SlideSummary), 0 ≤ i + 1 → slides[(i + 1).toNat]? = some s →
      (renderOverlay ⟨ty, slides, .int i⟩).nextTitle = s.title ∧
      (renderOverlay ⟨ty, slides, .int i⟩).nextNotes = s.notes) ∧
    (∀ i : Int, (i < 0 ∨ (slides.length : Int) ≤ i) →
      (renderOverlay ⟨ty, slides, .int i⟩).curTitle = "" ∧
      (renderOverlay ⟨ty, slides, .int i⟩).curNotes = "") ∧
    (∀ i : Int, (i + 1 < 0 ∨ (slides.length : Int) ≤ i + 1) →
      (renderOverlay ⟨ty, slides, .int i⟩).nextTitle = "" ∧
      (renderOverlay ⟨ty, slides, .int i⟩).nextNotes = "") ∧
    (∀ succ : Option Int,
      (renderOverlay ⟨ty, slides, .nonInt succ⟩).curTitle = "" ∧
      (renderOverlay ⟨ty, slides, .nonInt succ⟩).curNotes = "") ∧
    (∀ (env : Env) (p : PState) (x : JSNum) (o : Overlay), p.overlay = some o →
      (sendUpdate env p x).overlay = some (renderOverlay (updatePayload env x))) := by
  have hout : ∀ i : Int, (i < 0 ∨ (slides.length : Int) ≤ i) → slideAt slides (.int i) = none := by
    intro i hi
    simp only [slideAt]
    split
    · apply List.getElem?_eq_none
      omega
    · rfl
  refine ⟨?_, ?_, ?_, ?_, ?_, ?_⟩
  · intro i s hi hs
    simp [renderOverlay, slideAt, hi, hs]
  · intro i s hi hs
    simp [renderOverlay, slideAt, JSNum.succ, hi, hs]
  · intro i hi
    simp [renderOverlay, hout i hi]
  · intro i hi
    simp [renderOverlay, JSNum.succ, hout (i + 1) hi]
  · intro succ
    simp [renderOverlay, slideAt]
  · intro env p x o ho
    simp [sendUpdate, deliver, ho]

/-- Witness for C19: two slides and index 1, the last slide: the current slot
shows slide 1 and the next slot is empty. -/
theorem renderOverlay_current_and_next_witness :
    ((renderOverlay ⟨"update", [⟨0, "A", "a"⟩, ⟨1, "B", "b"⟩], .int 1⟩).curTitle = "B" ∧
      (renderOverlay ⟨"update", [⟨0, "A", "a"⟩, ⟨1, "B", "b"⟩], .int 1⟩).curNotes = "b") ∧
    ((renderOverlay ⟨"update", [⟨0, "A", "a"⟩, ⟨1, "B", "b"⟩], .int 1⟩).nextTitle = "" ∧
      (renderOverlay ⟨"update", [⟨0, "A", "a"⟩, ⟨1, "B", "b"⟩], .int 1⟩).nextNotes = "") :=
  have h := renderOverlay_current_and_next "update" [⟨0, "A", "a"⟩, ⟨1, "B", "b"⟩]
  ⟨h.1 1 ⟨1, "B", "b"⟩ (by decide) (by decide), h.2.2.2.1 1 (Or.inr (by decide))⟩

end Presenter

namespace Papers

/-! ## Page selection -/

theorem markActive_pages_length (s : State) (c : Int) :
    (markActive s c).pages.length = s.pages.length := by
  simp [markActive]

theorem markActive_tabs_length (s : State) (c : Int) :
    (markActive s c).tabs.length = s.tabs.length := by
  simp [markActive]

theorem markActive_page (s : State) (c : Int) (j : Nat) (p : Page)
    (h : (markActive s c).pages[j]? = some p) : (p.active = true ↔ (j : Int) = c) := by
  simp only [markActive, List.getElem?_mapIdx, Option.map_eq_some'] at h
  obtain ⟨q, _, rfl⟩ := h
  simp

theorem markActive_tab (s : State) (c : Int) (j : Nat) (t : Tab)
    (h : (markActive s c).tabs[j]? = some t) :
    t.ariaSelected = some (if (j : Int) = c then "true" else "false") ∧
    t.tabindex = some (if (j : Int) = c then "0" else "-1") := by
  simp only [markActive, List.getElem?_mapIdx, Option.map_eq_some'] at h
  obtain ⟨q, _, rfl⟩ := h
  by_cases hj : (j : Int) = c <;> simp [hj] <;> rfl

theorem lazyFig_frame (s : State) (f : Option Fig) :
    (lazyFig s f).1.tabs = s.tabs ∧ (lazyFig s f).1.current = s.current ∧
    (lazyFig s f).1.pages = s.pages := by
  cases f with
  | none => simp [lazyFig]
  | some fig =>
    rcases fig with ⟨b, a⟩
    cases b <;> cases a <;> simp [lazyFig]
    rename_i d
    cases d <;> simp

theorem set_pdfWrap_active (l : List Page) (n : Nat) (a : Page) (ha : l[n]? = some a)
    (w : Option PdfWrap) (j : Nat) (p : Page)
    (hp : (l.set n { a with pdfWrap := w })[j]? = some p) :
    ∃ q : Page, l[j]? = some q ∧ q.active = p.active := by
  rw [List.getElem?_set] at hp
  by_cases hnj : n = j
  · subst hnj
    have hlt : n < l.length := by
      rcases Nat.lt_or_ge n l.length with h | h
      · exact h
      · rw [List.getElem?_eq_none h] at ha; cases ha
    simp [hlt] at hp
    exact ⟨a, ha, by rw [← hp]⟩
  · simp [hnj] at hp
    exact ⟨p, hp, rfl⟩

/-- The lazy half of `show` keeps tabs, `current`, the number of pages and
every page's `active` flag. -/
theorem lazyLoad_frame (s : State) (c : Int) (u : Bool) :
    (lazyLoad s c u).1.tabs = s.tabs ∧
    (lazyLoad s c u).1.current = s.current ∧
    (lazyLoad s c u).1.pages.length = s.pages.length ∧
    ∀ (j : Nat) (p : Page), (lazyLoad s c u).1.pages[j]? = some p →
      ∃ q : Page, s.pages[j]? = some q ∧ q.active = p.active := by
  unfold lazyLoad
  cases ha : s.pages[c.toNat]? with
  | none => exact ⟨rfl, rfl, rfl, fun j p hp => ⟨p, hp, rfl⟩⟩
  | some a =>
    simp only
    obtain ⟨h1, h2, h3⟩ := lazyFig_frame
      { s with pages := s.pages.set c.toNat { a with pdfWrap := a.pdfWrap.map lazyPdf } } a.fig
    generalize lazyFig
      { s with pages := s.pages.set c.toNat { a with pdfWrap := a.pdfWrap.map lazyPdf } } a.fig = r
      at h1 h2 h3
    rcases r with ⟨s3, e⟩
    simp only at h1 h2 h3
    cases e with
    | some e =>
      simp only
      refine ⟨h1, h2, by rw [h3]; simp, ?_⟩
      intro j p hp
      rw [h3] at hp
      exact set_pdfWrap_active s.pages c.toNat a ha _ j p hp
    | none =>
      simp only
      cases u with
      | false =>
        simp only [Bool.false_eq_true, if_false]
        refine ⟨h1, h2, by rw [h3]; simp, ?_⟩
        intro j p hp
        rw [h3] at hp
        exact set_pdfWrap_active s.pages c.toNat a ha _ j p hp
      | true =>
        simp only [if_true]
        refine ⟨h1, h2, by rw [h3]; simp, ?_⟩
        intro j p hp
        rw [h3] at hp
        exact set_pdfWrap_active s.pages c.toNat a ha _ j p hp

/-- The bounds of the clamped index for a non-empty page list. -/
theorem clampIndex_bounds (n : Nat) (k : Int) (hn : 1 ≤ n) :
    0 ≤ clampIndex n k ∧ clampIndex n k ≤ (n : Int) - 1 := by
  unfold clampIndex
  omega

/-- Claim C3: with one tab per page and a valid index i, after show(i) a page
is active exactly when it is page i, and a tab has aria-selected true and
tabindex 0 exactly when it is tab i, all other tabs having aria-selected false
and tabindex -1; page i and tab i exist. -/
theorem show_marks_exactly_one (s : State) (i : Nat) (u : Bool)
    (htabs : s.tabs.length = s.pages.length) (hi : i < s.pages.length) :
    («show» s i u).1.pages.length = s.pages.length ∧
    («show» s i u).1.tabs.length = s.pages.length ∧
    (∀ (j : Nat) (p : Page), («show» s i u).1.pages[j]? = some p → (p.active = true ↔ j = i)) ∧
    (∀ (j : Nat) (t : Tab), («show» s i u).1.tabs[j]? = some t →
      t.ariaSelected = some (if j = i then "true" else "false") ∧
      t.tabindex = some (if j = i then "0" else "-1")) := by
  have hc : clampIndex s.pages.length i = (i : Int) := by
    unfold clampIndex
    omega
  obtain ⟨h1, _, h3, h4⟩ := lazyLoad_frame (markActive s (i : Int)) (i : Int) u
  unfold «show»
  rw [hc]
  refine ⟨by rw [h3, markActive_pages_length], by rw [h1, markActive_tabs_length, htabs], ?_, ?_⟩
  · intro j p hp
    obtain ⟨q, hq, hqa⟩ := h4 j p hp
    rw [← hqa, markActive_page s i j q hq]
    exact Int.ofNat_inj
  · intro j t ht
    rw [h1] at ht
    have := markActive_tab s i j t ht
    simpa [Int.ofNat_inj] using this

/-- Witness for C3: three pages with three tabs and show(1); page 1 is the
page found active, pages 0 and 2 are found inactive. -/
theorem show_marks_exactly_one_witness :
    (3 = 3 ∧ 1 < 3) ∧
    («show» ⟨List.replicate 3 ⟨none, none, none, none, none⟩,
        List.replicate 3 ⟨"", false, none, none⟩, 0, "", false, 0, 0⟩ (1 : Nat) true).1.pages
      = [⟨"", false, none, none⟩, ⟨"", true, none, none⟩, ⟨"", false, none, none⟩] ∧
    ((⟨"", true, none, none⟩ : Page).active = true ↔ 1 = 1) ∧
    ((⟨"", false, none, none⟩ : Page).active = true ↔ 0 = 1) ∧
    ((⟨"", false, none, none⟩ : Page).active = true ↔ 2 = 1) :=
  have h := show_marks_exactly_one ⟨List.replicate 3 ⟨none, none, none, none, none⟩,
      List.replicate 3 ⟨"", false, none, none⟩, 0, "", false, 0, 0⟩ 1 true (by decide) (by decide)
  ⟨⟨rfl, by decide⟩, by decide, h.2.2.1 1 _ (by decide), h.2.2.1 0 _ (by decide),
    h.2.2.1 2 _ (by decide)⟩

/-- Claim C4: for a non-empty page list and any integer k, show(k) sets current
to max(0, min(n-1, k)), which lies in the valid range, and a page is active
afterwards exactly when its position is that value; with four pages show(-5)
selects 0 and show(99) selects 3. -/
theorem show_clamps (s : State) (k : Int) (u : Bool) (hn : 1 ≤ s.pages.length) :
    («show» s k u).1.current = max 0 (min ((s.pages.length : Int) - 1) k) ∧
    0 ≤ («show» s k u).1.current ∧
    («show» s k u).1.current ≤ (s.pages.length : Int) - 1 ∧
    (∀ (j : Nat) (p : Page), («show» s k u).1.pages[j]? = some p →
      (p.active = true ↔ (j : Int) = max 0 (min ((s.pages.length : Int) - 1) k))) ∧
    (∃ p : Page, («show» s k u).1.pages[(max 0 (min ((s.pages.length : Int) - 1) k)).toNat]? = some p ∧
      p.active = true) ∧
    (s.pages.length = 4 → («show» s (-5) u).1.current = 0 ∧ («show» s 99 u).1.current = 3) := by
  obtain ⟨_, h2, h3, h4⟩ :=
    lazyLoad_frame (markActive s (clampIndex s.pages.length k)) (clampIndex s.pages.length k) u
  have hb := clampIndex_bounds s.pages.length k hn
  have hcur : ∀ k', («show» s k' u).1.current = clampIndex s.pages.length k' := by
    intro k'
    have := (lazyLoad_frame (markActive s (clampIndex s.pages.length k'))
      (clampIndex s.pages.length k') u).2.1
    unfold «show»
    rw [this]
    rfl
  have hpage : ∀ (j : Nat) (p : Page), («show» s k u).1.pages[j]? = some p →
      (p.active = true ↔ (j : Int) = clampIndex s.pages.length k) := by
    intro j p hp
    obtain ⟨q, hq, hqa⟩ := h4 j p hp
    rw [← hqa]
    exact markActive_page s _ j q hq
  refine ⟨hcur k, by rw [hcur]; exact hb.1, by rw [hcur]; exact hb.2, hpage, ?_, ?_⟩
  · have hlt : (clampIndex s.pages.length k).toNat < («show» s k u).1.pages.length := by
      unfold «show»
      rw [h3, markActive_pages_length]
      omega
    refine ⟨(«show» s k u).1.pages[(clampIndex s.pages.length k).toNat], ?_, ?_⟩
    · exact List.getElem?_eq_getElem hlt
    · rw [hpage _ _ (List.getElem?_eq_getElem hlt)]
      omega
  · intro h4p
    rw [hcur, hcur, h4p]
    decide

/-- Witness for C4: four pages, show(-5) and show(99). -/
theorem show_clamps_witness :
    («show» ⟨[], List.replicate 4 ⟨"", false, none, none⟩, 0, "", false, 0, 0⟩ (-5) true).1.current = 0 ∧
    («show» ⟨[], List.replicate 4 ⟨"", false, none, none⟩, 0, "", false, 0, 0⟩ 99 true).1.current = 3 :=
  (show_clamps ⟨[], List.replicate 4 ⟨"", false, none, none⟩, 0, "", false, 0, 0⟩ 0 true
    (by decide)).2.2.2.2.2 (by decide)

/-! ## Initial selection and lazy content -/

theorem lazyFig_effect (s : State) (f : Option Fig) :
    (lazyFig s f).1.tabs = s.tabs ∧ (lazyFig s f).1.current = s.current ∧
    (lazyFig s f).1.pages = s.pages ∧ (lazyFig s f).1.hash = s.hash ∧
    ((∀ g, f = some g → g.blank = true → g.plotly ≠ .malformed) → (lazyFig s f).2 = none) := by
  cases f with
  | none => simp [lazyFig]
  | some fig =>
    rcases fig with ⟨b, a⟩
    cases b <;> cases a <;> simp [lazyFig]
    rename_i d
    cases d <;> simp

/-- The two ways `lazyLoad` can go: the indexed page does not exist and nothing
happens, or it exists and only its `.pdf-wrap`, the chart bookkeeping and the
fragment can change. -/
theorem lazyLoad_cases (s : State) (c : Int) (u : Bool) :
    (s.pages[c.toNat]? = none ∧ lazyLoad s c u = (s, none)) ∨
    (∃ a : Page, s.pages[c.toNat]? = some a ∧
      (lazyLoad s c u).1.pages =
        s.pages.set c.toNat { a with pdfWrap := a.pdfWrap.map lazyPdf } ∧
      (lazyLoad s c u).1.tabs = s.tabs ∧
      (u = false → (lazyLoad s c u).1.hash = s.hash) ∧
      (figParses a → (lazyLoad s c u).2 = none)) := by
  unfold lazyLoad
  cases ha : s.pages[c.toNat]? with
  | none => exact Or.inl ⟨rfl, rfl⟩
  | some a =>
    right
    refine ⟨a, rfl, ?_⟩
    simp only
    obtain ⟨h1, _, h3, h4, h5⟩ := lazyFig_effect
      { s with pages := s.pages.set c.toNat { a with pdfWrap := a.pdfWrap.map lazyPdf } } a.fig
    generalize lazyFig
      { s with pages := s.pages.set c.toNat { a with pdfWrap := a.pdfWrap.map lazyPdf } } a.fig = r
      at h1 h3 h4 h5
    rcases r with ⟨s3, e⟩
    simp only at h1 h3 h4 h5
    cases e with
    | some e =>
      refine ⟨h3, h1, fun _ => h4, ?_⟩
      intro hg
      exact absurd (h5 hg) (by simp)
    | none =>
      cases u with
      | false => exact ⟨h3, h1, fun _ => h4, fun _ => rfl⟩
      | true =>
        refine ⟨h3, h1, ?_, fun _ => rfl⟩
        intro hu
        cases hu

theorem markActive_fields (s : State) (c : Int) :
    (markActive s c).hash = s.hash ∧ (markActive s c).current = c ∧
    (∀ (j : Nat) (q : Page), (markActive s c).pages[j]? = some q →
      ∃ p0 : Page, s.pages[j]? = some p0 ∧ q.pdfWrap = p0.pdfWrap ∧ q.fig = p0.fig ∧
        q.id = p0.id) ∧
    (∀ (j : Nat) (p0 : Page), s.pages[j]? = some p0 →
      ∃ q : Page, (markActive s c).pages[j]? = some q ∧ q.pdfWrap = p0.pdfWrap) := by
  refine ⟨rfl, rfl, ?_, ?_⟩
  · intro j q hq
    simp only [markActive, List.getElem?_mapIdx, Option.map_eq_some'] at hq
    obtain ⟨p0, hp0, rfl⟩ := hq
    exact ⟨p0, hp0, rfl, rfl, rfl⟩
  · intro j p0 hp0
    simp only [markActive, List.getElem?_mapIdx, Option.map_eq_some']
    exact ⟨_, ⟨p0, hp0, rfl⟩, rfl⟩

/-- The flags left by `show`, for every state and index. -/
theorem show_flags (s : State) (k : Int) (u : Bool) :
    («show» s k u).1.current = clampIndex s.pages.length k ∧
    («show» s k u).1.pages.length = s.pages.length ∧
    («show» s k u).1.tabs.length = s.tabs.length ∧
    (∀ (j : Nat) (p : Page), («show» s k u).1.pages[j]? = some p →
      (p.active = true ↔ (j : Int) = clampIndex s.pages.length k)) := by
  obtain ⟨h1, h2, h3, h4⟩ :=
    lazyLoad_frame (markActive s (clampIndex s.pages.length k)) (clampIndex s.pages.length k) u
  unfold «show»
  refine ⟨by rw [h2]; rfl, by rw [h3, markActive_pages_length],
    by rw [h1, markActive_tabs_length], ?_⟩
  intro j p hp
  obtain ⟨q, hq, hqa⟩ := h4 j p hp
  rw [← hqa]
  exact markActive_page s _ j q hq

/-- When the chart of the page it activates does not stop it, `show` completes
normally. -/
theorem show_ok (s : State) (k : Int) (u : Bool)
    (h : ∀ p, s.pages[(clampIndex s.pages.length k).toNat]? = some p → figParses p) :
    («show» s k u).2 = none := by
  unfold «show»
  rcases lazyLoad_cases (markActive s (clampIndex s.pages.length k))
    (clampIndex s.pages.length k) u with ⟨_, h2⟩ | ⟨a, ha, _, _, _, h5⟩
  · rw [h2]
  · apply h5
    intro g hg hb
    obtain ⟨p0, hp0, _, hfig, _⟩ := (markActive_fields s _).2.2.1 _ a ha
    exact h p0 hp0 g (by rw [← hfig]; exact hg) hb

/-- A call of `show` that does not update the hash leaves the fragment alone. -/
theorem show_hash_kept (s : State) (k : Int) : («show» s k false).1.hash = s.hash := by
  unfold «show»
  rcases lazyLoad_cases (markActive s (clampIndex s.pages.length k))
    (clampIndex s.pages.length k) false with ⟨_, h2⟩ | ⟨a, _, _, _, h4, _⟩
  · rw [h2]; rfl
  · rw [h4 rfl]; rfl

/-- The tabs keep their page names through `show`. -/
theorem show_tab_names (s : State) (k : Int) (u : Bool) (id : String) :
    («show» s k u).1.tabs.map (tabNames id) = s.tabs.map (tabNames id) := by
  have h := (lazyLoad_frame (markActive s (clampIndex s.pages.length k))
    (clampIndex s.pages.length k) u).1
  unfold «show»
  rw [h]
  apply List.ext_getElem?
  intro j
  simp only [markActive, List.getElem?_map, List.getElem?_mapIdx, Option.map_map]
  cases s.tabs[j]? <;> simp [tabNames]

theorem findIdx?_of_map_eq {α : Type} (f : α → Bool) (l1 l2 : List α)
    (h : l1.map f = l2.map f) : l1.findIdx? f = l2.findIdx? f := by
  have e : ∀ l : List α, l.findIdx? f = (l.map f).findIdx? (fun b => b) := by
    intro l
    rw [List.findIdx?_map]
    rfl
  rw [e l1, e l2, h]

/-- The state in which `init` reads the fragment: tabs indexed, page 0 shown. -/
theorem init_unfold (s : State) (hfirst : ∀ p, s.pages[0]? = some p → figParses p) :
    ∃ s1 : State,
      s1.pages.length = s.pages.length ∧ s1.tabs.length = s.tabs.length ∧
      s1.current = clampIndex s.pages.length 0 ∧
      (∀ (j : Nat) (p : Page), s1.pages[j]? = some p →
        (p.active = true ↔ (j : Int) = clampIndex s.pages.length 0)) ∧
      init s =
        match hashPageId s.hash with
        | none => (s1, none)
        | some id =>
          match s.tabs.findIdx? (tabNames id) with
          | some idx => «show» s1 (idx : Int) true
          | none => (s1, none) := by
  have hz : ∀ n : Nat, (clampIndex n 0).toNat = 0 := by
    intro n
    unfold clampIndex
    omega
  have hok := show_ok { s with
      tabs := s.tabs.mapIdx (fun i t =>
        { t with dataIndex := some (toString i), tabindex := some (if i = 0 then "0" else "-1") }) }
    0 false (by
      intro p hp
      rw [hz] at hp
      exact hfirst p hp)
  have hhash := show_hash_kept { s with
      tabs := s.tabs.mapIdx (fun i t =>
        { t with dataIndex := some (toString i), tabindex := some (if i = 0 then "0" else "-1") }) } 0
  have hflags := show_flags { s with
      tabs := s.tabs.mapIdx (fun i t =>
        { t with dataIndex := some (toString i), tabindex := some (if i = 0 then "0" else "-1") }) } 0 false
  have hnames := fun id => show_tab_names { s with
      tabs := s.tabs.mapIdx (fun i t =>
        { t with dataIndex := some (toString i), tabindex := some (if i = 0 then "0" else "-1") }) }
      0 false id
  unfold init
  simp only
  generalize «show» { s with
      tabs := s.tabs.mapIdx (fun i t =>
        { t with dataIndex := some (toString i), tabindex := some (if i = 0 then "0" else "-1") }) }
      0 false = r at hok hhash hflags hnames
  rcases r with ⟨s1, e⟩
  simp only at hok hhash hflags hnames
  subst hok
  refine ⟨s1, hflags.2.1, by rw [hflags.2.2.1]; simp, hflags.1, hflags.2.2.2, ?_⟩
  simp only [hhash]
  cases hid : hashPageId s.hash with
  | none => rfl
  | some id =>
    simp only
    have hfind : s1.tabs.findIdx? (tabNames id) = s.tabs.findIdx? (tabNames id) := by
      apply findIdx?_of_map_eq
      rw [hnames id]
      apply List.ext_getElem?
      intro j
      simp only [List.getElem?_map, List.getElem?_mapIdx, Option.map_map]
      cases s.tabs[j]? <;> simp [tabNames]
    rw [hfind]

theorem papers_prefix_split (l : List Char) (h : "papers=".toList.isPrefixOf l = true) :
    ∃ t, l = "papers=".toList ++ t ∧ l.drop 7 = t := by
  rw [List.isPrefixOf_iff_prefix] at h
  obtain ⟨t, ht⟩ := h
  refine ⟨t, ht.symm, ?_⟩
  rw [← ht]
  rfl

/-- A position where `papers=` is not followed by a character other than `&`
is passed over. -/
theorem matchPapers_skip (c0 : Char) (l : List Char)
    (h : ∀ (c : Char) (rest : List Char), c0 :: l = "papers=".toList ++ c :: rest → c = '&') :
    matchPapers (c0 :: l) = matchPapers l := by
  rw [matchPapers]
  by_cases hpre : "papers=".toList.isPrefixOf (c0 :: l) = true
  · obtain ⟨t, ht, hd⟩ := papers_prefix_split _ hpre
    rw [if_pos hpre]
    simp only [hd]
    cases t with
    | nil => simp
    | cons c t2 =>
      have hc := h c t2 ht
      simp [hc]
  · rw [if_neg hpre]

/-- A match at the head of the list. -/
theorem matchPapers_here (id rest : List Char) (hne : id ≠ [])
    (hamp : ∀ c ∈ id, c ≠ '&') (hrest : rest = [] ∨ ∃ r, rest = '&' :: r) :
    matchPapers ("papers=".toList ++ id ++ rest) = some id := by
  have e : "papers=".toList = ['p', 'a', 'p', 'e', 'r', 's', '='] := rfl
  have htw : (id ++ rest).takeWhile (fun ch => !decide (ch = '&')) = id := by
    rcases hrest with rfl | ⟨r, rfl⟩
    · rw [List.append_nil, List.takeWhile_eq_self_iff]
      intro d hd
      simpa using hamp d hd
    · rw [List.takeWhile_append_of_pos (fun d hd => by simpa using hamp d hd)]
      simp
  have hl : "papers=".toList ++ id ++ rest
      = 'p' :: (['a', 'p', 'e', 'r', 's', '='] ++ (id ++ rest)) := by
    simp [e]
  have hp : "papers=".toList.isPrefixOf ('p' :: (['a', 'p', 'e', 'r', 's', '='] ++ (id ++ rest)))
      = true := by
    rw [List.isPrefixOf_iff_prefix]
    exact ⟨id ++ rest, rfl⟩
  have hd : List.drop 7 ('p' :: (['a', 'p', 'e', 'r', 's', '='] ++ (id ++ rest)))
      = id ++ rest := rfl
  rw [hl, matchPapers, if_pos hp]
  simp only [hd, ne_eq, decide_not, htw, hne, not_false_eq_true, if_true]

/-- The match of `init` returns the identifier after the first `papers=` that
is followed by a character other than `&`. -/
theorem matchPapers_first (pre id rest : List Char) (hne : id ≠ [])
    (hamp : ∀ c ∈ id, c ≠ '&') (hrest : rest = [] ∨ ∃ r, rest = '&' :: r)
    (hfirst : ∀ (pre2 : List Char) (c : Char) (rest2 : List Char),
      pre ++ "papers=".toList ++ id ++ rest = pre2 ++ "papers=".toList ++ c :: rest2 →
      c ≠ '&' → pre.length ≤ pre2.length) :
    matchPapers (pre ++ "papers=".toList ++ id ++ rest) = some id := by
  induction pre with
  | nil => exact matchPapers_here id rest hne hamp hrest
  | cons a pre2 ih =>
    have hskip : matchPapers (a :: (pre2 ++ "papers=".toList ++ id ++ rest))
        = matchPapers (pre2 ++ "papers=".toList ++ id ++ rest) := by
      apply matchPapers_skip
      intro c r hc
      by_contra hne2
      have := hfirst [] c r (by simpa using hc) hne2
      simp at this
    have e : a :: pre2 ++ "papers=".toList ++ id ++ rest
        = a :: (pre2 ++ "papers=".toList ++ id ++ rest) := by simp
    rw [e, hskip]
    apply ih
    intro p2 c r hc hne2
    have := hfirst (a :: p2) c r (by rw [e, hc]; simp) hne2
    simpa using this

/-- Without a `papers=` followed by a character other than `&` there is no
match. -/
theorem matchPapers_none (l : List Char)
    (h : ∀ (pre : List Char) (c : Char) (rest : List Char),
      l = pre ++ "papers=".toList ++ c :: rest → c = '&') :
    matchPapers l = none := by
  induction l with
  | nil => rfl
  | cons a l2 ih =>
    rw [matchPapers_skip a l2 (fun c r hc => h [] c r (by simpa using hc))]
    apply ih
    intro pre c r hc
    exact h (a :: pre) c r (by rw [hc]; simp)

/-- The outcome of `init` in terms of the match and of `findIndex`. -/
theorem init_cases (s : State) (htabs : s.tabs.length = s.pages.length)
    (hn : 1 ≤ s.pages.length) (hfirst : ∀ p, s.pages[0]? = some p → figParses p) :
    (∀ (id : String) (idx : Nat), hashPageId s.hash = some id →
      s.tabs.findIdx? (tabNames id) = some idx →
      (init s).1.current = (idx : Int) ∧ idx < s.pages.length ∧
      (init s).1.pages.length = s.pages.length ∧
      ∀ (j : Nat) (p : Page), (init s).1.pages[j]? = some p → (p.active = true ↔ j = idx)) ∧
    ((hashPageId s.hash = none ∨
        ∃ id, hashPageId s.hash = some id ∧ s.tabs.findIdx? (tabNames id) = none) →
      (init s).2 = none ∧ (init s).1.current = 0 ∧
      (init s).1.pages.length = s.pages.length ∧
      ∀ (j : Nat) (p : Page), (init s).1.pages[j]? = some p → (p.active = true ↔ j = 0)) := by
  obtain ⟨s1, hlen, _, hcur, hact, hinit⟩ := init_unfold s hfirst
  have hc0 : clampIndex s.pages.length 0 = 0 := by
    unfold clampIndex
    omega
  rw [hc0] at hcur hact
  constructor
  · intro id idx hid hfind
    rw [hinit, hid]
    simp only [hfind]
    have hidx : idx < s.pages.length := by
      rw [List.findIdx?_eq_some_iff_getElem] at hfind
      obtain ⟨h, _⟩ := hfind
      omega
    have hcl : clampIndex s1.pages.length (idx : Int) = (idx : Int) := by
      unfold clampIndex
      omega
    obtain ⟨f1, f2, _, f4⟩ := show_flags s1 (idx : Int) true
    rw [hcl] at f1 f4
    refine ⟨f1, hidx, by rw [f2, hlen], ?_⟩
    intro j p hp
    rw [f4 j p hp]
    exact Int.ofNat_inj
  · intro h
    have hres : init s = (s1, none) := by
      rw [hinit]
      rcases h with h | ⟨id, h1, h2⟩
      · rw [h]
      · rw [h1]; simp only [h2]
    rw [hres]
    refine ⟨rfl, hcur, hlen, ?_⟩
    intro j p hp
    rw [hact j p hp]
    exact Int.ofNat_inj

/-- Counterexample to C16 as stated: two tabs and pages a and b, the fragment
#papers=b, and on page a an empty figure whose data-plotly attribute is not
JSON.  The fragment names the known page b, yet after init() page a is the
active page: the initial show(0) throws in JSON.parse and init() ends before
it reads the fragment. -/
theorem init_stops_on_unparsable_chart :
    (init ⟨[⟨none, none, some "a", none, none⟩, ⟨none, none, some "b", none, none⟩],
        [⟨"a", false, none, some ⟨true, .malformed⟩⟩, ⟨"b", false, none, none⟩],
        0, "#papers=b", false, 0, 0⟩).2 = some .syntaxError ∧
    (init ⟨[⟨none, none, some "a", none, none⟩, ⟨none, none, some "b", none, none⟩],
        [⟨"a", false, none, some ⟨true, .malformed⟩⟩, ⟨"b", false, none, none⟩],
        0, "#papers=b", false, 0, 0⟩).1.pages.map (fun p => p.active) = [true, false] ∧
    (init ⟨[⟨none, none, some "a", none, none⟩, ⟨none, none, some "b", none, none⟩],
        [⟨"a", false, none, some ⟨true, .malformed⟩⟩, ⟨"b", false, none, none⟩],
        0, "#papers=b", false, 0, 0⟩).1.current = 0 := by
  decide

/-- Claim C16, amended: with one tab per page, at least one page, and a first
page whose chart does not stop the initial show(0) (no empty data-plotly figure
with an attribute that is not JSON), after init(): when the fragment contains
papers=id (id follows the first papers= that is not followed by an ampersand or
the end, and runs to the next ampersand or the end) and a tab carries id in
data-page-id or data-page, the page of the first such tab is the one active
page and current is its index; when no tab carries id, or the fragment has no
such papers= part, init() completes and page 0 is the one active page. -/
theorem init_selects_page (s : State) (htabs : s.tabs.length = s.pages.length)
    (hn : 1 ≤ s.pages.length) (hfirst : ∀ p, s.pages[0]? = some p → figParses p) :
    (∀ (pre id rest : List Char),
      s.hash.toList = pre ++ "papers=".toList ++ id ++ rest →
      id ≠ [] → (∀ c ∈ id, c ≠ '&') → (rest = [] ∨ ∃ r, rest = '&' :: r) →
      (∀ (pre2 : List Char) (c : Char) (rest2 : List Char),
        s.hash.toList = pre2 ++ "papers=".toList ++ c :: rest2 → c ≠ '&' →
        pre.length ≤ pre2.length) →
      (∀ (idx : Nat) (t : Tab), s.tabs[idx]? = some t →
        (t.pageId = some (String.mk id) ∨ t.page = some (String.mk id)) →
        (∀ (j : Nat) (u : Tab), j < idx → s.tabs[j]? = some u →
          u.pageId ≠ some (String.mk id) ∧ u.page ≠ some (String.mk id)) →
        (init s).1.current = (idx : Int) ∧ idx < s.pages.length ∧
        (init s).1.pages.length = s.pages.length ∧
        ∀ (j : Nat) (p : Page), (init s).1.pages[j]? = some p →
          (p.active = true ↔ j = idx)) ∧
      ((∀ t ∈ s.tabs, t.pageId ≠ some (String.mk id) ∧ t.page ≠ some (String.mk id)) →
        (init s).2 = none ∧ (init s).1.current = 0 ∧
        (init s).1.pages.length = s.pages.length ∧
        ∀ (j : Nat) (p : Page), (init s).1.pages[j]? = some p → (p.active = true ↔ j = 0))) ∧
    ((∀ (pre : List Char) (c : Char) (rest : List Char),
        s.hash.toList = pre ++ "papers=".toList ++ c :: rest → c = '&') →
      (init s).2 = none ∧ (init s).1.current = 0 ∧
      (init s).1.pages.length = s.pages.length ∧
      ∀ (j : Nat) (p : Page), (init s).1.pages[j]? = some p → (p.active = true ↔ j = 0)) := by
  obtain ⟨hnamed, hzero⟩ := init_cases s htabs hn hfirst
  constructor
  · intro pre id rest hhash hne hamp hrest hfst
    have hm : hashPageId s.hash = some (String.mk id) := by
      unfold hashPageId
      rw [hhash, matchPapers_first pre id rest hne hamp hrest (by rw [← hhash]; exact hfst)]
      rfl
    constructor
    · intro idx t ht hnames hbefore
      apply hnamed (String.mk id) idx hm
      have hlt : idx < s.tabs.length := by
        rcases Nat.lt_or_ge idx s.tabs.length with h | h
        · exact h
        · rw [List.getElem?_eq_none h] at ht; cases ht
      rw [List.findIdx?_eq_some_iff_getElem]
      refine ⟨hlt, ?_, ?_⟩
      · have e : s.tabs[idx] = t := by
          rw [List.getElem?_eq_getElem hlt] at ht
          exact Option.some.inj ht
        rw [e]
        rcases hnames with h | h <;> simp [tabNames, h]
      · intro j hj
        have hj2 : j < s.tabs.length := by omega
        obtain ⟨h1, h2⟩ := hbefore j s.tabs[j] hj (List.getElem?_eq_getElem hj2)
        simp [tabNames, h1, h2]
    · intro hnone
      apply hzero
      right
      refine ⟨String.mk id, hm, ?_⟩
      rw [List.findIdx?_eq_none_iff]
      intro t ht
      obtain ⟨h1, h2⟩ := hnone t ht
      simp [tabNames, h1, h2]
  · intro hno
    apply hzero
    left
    unfold hashPageId
    rw [matchPapers_none _ hno]
    rfl

/-- Witness for C16: two pages, tabs naming them a and b, fragment #papers=b. -/
theorem init_selects_page_witness :
    (init ⟨[⟨none, none, some "a", none, none⟩, ⟨none, none, some "b", none, none⟩],
        [⟨"a", false, none, none⟩, ⟨"b", false, none, none⟩], 0, "#papers=b", false, 0, 0⟩).1.current
      = ((1 : Nat) : Int) :=
  (((init_selects_page ⟨[⟨none, none, some "a", none, none⟩, ⟨none, none, some "b", none, none⟩],
        [⟨"a", false, none, none⟩, ⟨"b", false, none, none⟩], 0, "#papers=b", false, 0, 0⟩
      (by decide) (by decide) (by
        intro p hp f hf
        simp at hp
        subst hp
        simp at hf)).1 ['#'] ['b'] [] (by decide) (by decide) (by decide) (Or.inl rfl) (by
        intro pre2 c rest2 h _
        cases pre2 with
        | nil => simp at h
        | cons a as => simp)).1 1 ⟨none, none, some "b", none, none⟩ (by decide)
      (Or.inl (by decide)) (by
        intro j u hj hu
        have hj0 : j = 0 := by omega
        subst hj0
        simp at hu
        subst hu
        decide)).1

theorem lazyPdf_idem (w : PdfWrap) : lazyPdf (lazyPdf w) = lazyPdf w := by
  unfold lazyPdf
  by_cases h : w.children.any WrapChild.isIframe = true
  · simp [h]
  · rcases w with ⟨src, ch⟩
    cases src with
    | none => simp [h]
    | some v =>
      by_cases hv : v = ""
      · simp [h, hv]
      · simp [h, hv, WrapChild.isIframe]

theorem map_lazyPdf_idem (w : Option PdfWrap) :
    (w.map lazyPdf).map lazyPdf = w.map lazyPdf := by
  cases w with
  | none => rfl
  | some v => simp [lazyPdf_idem]

/-- The effect of one `show` on the `.pdf-wrap` of every page: only the page
that becomes active is touched, and it gets the lazily created frame. -/
theorem show_pdfWrap (s : State) (k : Int) (u : Bool) (j : Nat) (p0 : Page)
    (hp : s.pages[j]? = some p0) :
    ∃ p : Page, («show» s k u).1.pages[j]? = some p ∧
      p.pdfWrap = if (j : Int) = clampIndex s.pages.length k then p0.pdfWrap.map lazyPdf
        else p0.pdfWrap := by
  have hc : 0 ≤ clampIndex s.pages.length k := by
    unfold clampIndex
    omega
  obtain ⟨q, hq, hqw⟩ := (markActive_fields s (clampIndex s.pages.length k)).2.2.2 j p0 hp
  unfold «show»
  rcases lazyLoad_cases (markActive s (clampIndex s.pages.length k))
    (clampIndex s.pages.length k) u with ⟨h1, h2⟩ | ⟨a, ha, hpages, _, _, _⟩
  · rw [h2]
    refine ⟨q, hq, ?_⟩
    have hne : ¬ (j : Int) = clampIndex s.pages.length k := by
      intro hj
      have : (clampIndex s.pages.length k).toNat = j := by omega
      rw [this, hq] at h1
      cases h1
    rw [if_neg hne, hqw]
  · rw [hpages, List.getElem?_set]
    by_cases hj : (clampIndex s.pages.length k).toNat = j
    · have hlt : j < (markActive s (clampIndex s.pages.length k)).pages.length := by
        rcases Nat.lt_or_ge j (markActive s (clampIndex s.pages.length k)).pages.length with h | h
        · exact h
        · rw [List.getElem?_eq_none h] at hq; cases hq
      have hja : (j : Int) = clampIndex s.pages.length k := by omega
      rw [hj] at ha
      have haq : a = q := by
        rw [hq] at ha
        exact (Option.some.inj ha).symm
      subst haq
      simp only [hj, hlt, if_true, if_pos hja]
      exact ⟨_, rfl, by rw [hqw]⟩
    · have hne : ¬ (j : Int) = clampIndex s.pages.length k := by omega
      simp only [hj, if_false, if_neg hne]
      exact ⟨q, hq, hqw⟩

theorem showAll_pdfWrap (calls : List (Int × Bool)) (j : Nat) :
    ∀ (s : State) (p0 : Page), s.pages[j]? = some p0 →
      ∃ p : Page, (showAll s calls).pages[j]? = some p ∧
        p.pdfWrap =
          if calls.any (fun c => decide ((j : Int) = clampIndex s.pages.length c.1)) = true
          then p0.pdfWrap.map lazyPdf else p0.pdfWrap := by
  induction calls with
  | nil =>
    intro s p0 hp
    exact ⟨p0, hp, by simp⟩
  | cons c cs ih =>
    intro s p0 hp
    obtain ⟨p1, hp1, hw1⟩ := show_pdfWrap s c.1 c.2 j p0 hp
    obtain ⟨p, hpf, hw⟩ := ih («show» s c.1 c.2).1 p1 hp1
    have hlen : («show» s c.1 c.2).1.pages.length = s.pages.length := (show_flags s c.1 c.2).2.1
    rw [hlen] at hw
    refine ⟨p, by simpa [showAll] using hpf, ?_⟩
    rw [hw, hw1, List.any_cons]
    by_cases h1 : (j : Int) = clampIndex s.pages.length c.1
    · rw [if_pos h1, decide_eq_true h1, Bool.true_or, if_pos rfl]
      by_cases h2 : cs.any (fun c => decide ((j : Int) = clampIndex s.pages.length c.1)) = true
      · rw [if_pos h2, map_lazyPdf_idem]
      · rw [if_neg h2]
    · rw [if_neg h1, decide_eq_false h1, Bool.false_or]

/-- Claim C17: through every sequence of show calls the .pdf-wrap of a page is
the original one until a call activates the page, and from then on it is the
original one with the viewer created (an iframe on the declared source when it
had none), whatever later calls do; in particular show(i); show(i) leaves the
same .pdf-wrap content on every page as show(i). -/
theorem viewer_created_once (s : State) (calls : List (Int × Bool)) (j : Nat) (p0 : Page)
    (hp : s.pages[j]? = some p0) :
    (∃ p : Page, (showAll s calls).pages[j]? = some p ∧
      ((∃ c ∈ calls, (j : Int) = clampIndex s.pages.length c.1) →
        p.pdfWrap = p0.pdfWrap.map lazyPdf) ∧
      ((∀ c ∈ calls, (j : Int) ≠ clampIndex s.pages.length c.1) → p.pdfWrap = p0.pdfWrap)) ∧
    (∀ (w : PdfWrap) (src : String), w.pdfSrc = some src → src ≠ "" →
      w.children.any WrapChild.isIframe = false →
      (lazyPdf w).children = [.iframe (src ++ "#view=FitH") "Paper PDF preview"]) ∧
    (∀ w : PdfWrap, w.children.any WrapChild.isIframe = true → lazyPdf w = w) ∧
    (∀ (i : Int) (u v : Bool),
      (showAll s [(i, u), (i, v)]).pages.map (fun p => p.pdfWrap)
        = (showAll s [(i, u)]).pages.map (fun p => p.pdfWrap)) := by
  refine ⟨?_, ?_, ?_, ?_⟩
  · obtain ⟨p, hpf, hw⟩ := showAll_pdfWrap calls j s p0 hp
    refine ⟨p, hpf, ?_, ?_⟩
    · rintro ⟨c, hc, hj⟩
      have : calls.any (fun c => decide ((j : Int) = clampIndex s.pages.length c.1)) = true := by
        rw [List.any_eq_true]
        exact ⟨c, hc, by simpa using hj⟩
      rw [hw, if_pos this]
    · intro hall
      have : ¬ calls.any (fun c => decide ((j : Int) = clampIndex s.pages.length c.1)) = true := by
        rw [List.any_eq_true]
        rintro ⟨c, hc, hj⟩
        exact hall c hc (by simpa using hj)
      rw [hw, if_neg this]
  · intro w src hsrc hne hno
    simp [lazyPdf, hsrc, hne, hno]
  · intro w hany
    simp [lazyPdf, hany]
  · intro i u v
    apply List.ext_getElem?
    intro m
    simp only [List.getElem?_map]
    have hl1 : (showAll s [(i, u)]).pages.length = s.pages.length := (show_flags s i u).2.1
    cases hm : (showAll s [(i, u)]).pages[m]? with
    | none =>
      have hl2 : (showAll s [(i, u), (i, v)]).pages.length = (showAll s [(i, u)]).pages.length :=
        (show_flags (showAll s [(i, u)]) i v).2.1
      have : (showAll s [(i, u), (i, v)]).pages[m]? = none := by
        rw [List.getElem?_eq_none_iff] at hm ⊢
        omega
      rw [this]
    | some p1 =>
      have hlt : m < s.pages.length := by
        rcases Nat.lt_or_ge m (showAll s [(i, u)]).pages.length with h | h
        · omega
        · rw [List.getElem?_eq_none h] at hm; cases hm
      obtain ⟨q1, hq1, hw1⟩ := show_pdfWrap s i u m _ (List.getElem?_eq_getElem hlt)
      have hq : q1 = p1 := by
        have : (showAll s [(i, u)]).pages[m]? = some q1 := hq1
        rw [hm] at this
        exact (Option.some.inj this).symm
      subst hq
      obtain ⟨q2, hq2, hw2⟩ := show_pdfWrap (showAll s [(i, u)]) i v m q1 hm
      have : (showAll s [(i, u), (i, v)]).pages[m]? = some q2 := hq2
      rw [this]
      simp only [Option.map_some']
      rw [hw2, hl1, hw1]
      by_cases hmi : (m : Int) = clampIndex s.pages.length i
      · rw [if_pos hmi, if_pos hmi, map_lazyPdf_idem]
      · rw [if_neg hmi, if_neg hmi]

/-- Witness for C17: one page whose .pdf-wrap declares the source p.pdf, shown
twice: the frame exists after the calls. -/
theorem viewer_created_once_witness :
    ∃ p : Page,
      (showAll ⟨[], [⟨"a", false, some ⟨some "p.pdf", []⟩, none⟩], 0, "", false, 0, 0⟩
        [(0, true), (0, true)]).pages[0]? = some p ∧
      p.pdfWrap = (some ⟨some "p.pdf", []⟩ : Option PdfWrap).map lazyPdf :=
  match (viewer_created_once ⟨[], [⟨"a", false, some ⟨some "p.pdf", []⟩, none⟩], 0, "", false, 0, 0⟩
      [(0, true), (0, true)] 0 ⟨"a", false, some ⟨some "p.pdf", []⟩, none⟩ (by decide)).1 with
  | ⟨p, h1, h2, _⟩ => ⟨p, h1, h2 ⟨(0, true), by decide, by decide⟩⟩

/-! ## Keys -/

theorem digitKey_singleton (d : Nat) (h1 : 1 ≤ d) (h9 : d ≤ 9) :
    digitKey (String.singleton (Char.ofNat (48 + d))) = some d := by
  interval_cases d <;> decide

theorem digitKey_some (key : String) (d : Nat) (h : digitKey key = some d) :
    1 ≤ d ∧ d ≤ 9 ∧ key = String.singleton (Char.ofNat (48 + d)) := by
  unfold digitKey at h
  split at h
  · rename_i c hc
    split at h
    · rename_i hr
      have hd : d = c.toNat - 48 := (Option.some.inj h).symm
      have hk : key = String.singleton c := by
        rcases key with ⟨l⟩
        simp only [String.toList] at hc
        subst hc
        rfl
      refine ⟨by omega, by omega, ?_⟩
      rw [hk, hd]
      congr 1
      have : 48 + (c.toNat - 48) = c.toNat := by omega
      rw [this, Char.ofNat_toNat]
    · cases h
  · cases h

/-- Claim C21: with one tab per page and current = c inside [0, n-1], ArrowRight
makes min(c+1, n-1) the active page and ArrowLeft makes max(c-1, 0) the active
page; a digit key d from 1 to 9 makes d-1 the active page when d-1 is below
the number of tabs and changes nothing otherwise; every other key changes
nothing.  In each case current is the active page. -/
theorem onKey_selects (s : State) (htabs : s.tabs.length = s.pages.length)
    (h0 : 0 ≤ s.current) (h1 : s.current ≤ (s.pages.length : Int) - 1) :
    ((onKey s "ArrowRight").1.current = min (s.current + 1) ((s.pages.length : Int) - 1) ∧
      ∀ (j : Nat) (p : Page), (onKey s "ArrowRight").1.pages[j]? = some p →
        (p.active = true ↔ (j : Int) = min (s.current + 1) ((s.pages.length : Int) - 1))) ∧
    ((onKey s "ArrowLeft").1.current = max (s.current - 1) 0 ∧
      ∀ (j : Nat) (p : Page), (onKey s "ArrowLeft").1.pages[j]? = some p →
        (p.active = true ↔ (j : Int) = max (s.current - 1) 0)) ∧
    (∀ d : Nat, 1 ≤ d → d ≤ 9 →
      (d - 1 < s.tabs.length →
        (onKey s (String.singleton (Char.ofNat (48 + d)))).1.current = ((d - 1 : Nat) : Int) ∧
        ∀ (j : Nat) (p : Page),
          (onKey s (String.singleton (Char.ofNat (48 + d)))).1.pages[j]? = some p →
          (p.active = true ↔ j = d - 1)) ∧
      (s.tabs.length ≤ d - 1 →
        onKey s (String.singleton (Char.ofNat (48 + d))) = (s, none))) ∧
    (∀ key : String, key ≠ "ArrowRight" → key ≠ "ArrowLeft" →
      (∀ d : Nat, 1 ≤ d → d ≤ 9 → key ≠ String.singleton (Char.ofNat (48 + d))) →
      onKey s key = (s, none)) := by
  have hR : onKey s "ArrowRight" = «show» s (s.current + 1) true := by
    simp [onKey]
  have hL : onKey s "ArrowLeft" = «show» s (s.current - 1) true := by
    have : ¬ ("ArrowLeft" = "ArrowRight") := by decide
    simp [onKey, this]
  refine ⟨?_, ?_, ?_, ?_⟩
  · have hc : clampIndex s.pages.length (s.current + 1)
        = min (s.current + 1) ((s.pages.length : Int) - 1) := by
      unfold clampIndex; omega
    obtain ⟨f1, _, _, f4⟩ := show_flags s (s.current + 1) true
    rw [hR, ← hc]
    exact ⟨f1, f4⟩
  · have hc : clampIndex s.pages.length (s.current - 1) = max (s.current - 1) 0 := by
      unfold clampIndex; omega
    obtain ⟨f1, _, _, f4⟩ := show_flags s (s.current - 1) true
    rw [hL, ← hc]
    exact ⟨f1, f4⟩
  · intro d hd1 hd9
    have hkey := digitKey_singleton d hd1 hd9
    have hne1 : ¬ String.singleton (Char.ofNat (48 + d)) = "ArrowRight" := by
      intro h
      have hn : digitKey "ArrowRight" = none := by decide
      rw [h, hn] at hkey
      cases hkey
    have hne2 : ¬ String.singleton (Char.ofNat (48 + d)) = "ArrowLeft" := by
      intro h
      have hn : digitKey "ArrowLeft" = none := by decide
      rw [h, hn] at hkey
      cases hkey
    constructor
    · intro hlt
      have hcond : ((d : Int) - 1 < (s.tabs.length : Int)) := by omega
      have hk : onKey s (String.singleton (Char.ofNat (48 + d)))
          = «show» s ((d : Int) - 1) true := by
        simp only [onKey, if_neg hne1, if_neg hne2, hkey, if_pos hcond]
      have hc : clampIndex s.pages.length ((d : Int) - 1) = ((d - 1 : Nat) : Int) := by
        unfold clampIndex; omega
      obtain ⟨f1, _, _, f4⟩ := show_flags s ((d : Int) - 1) true
      rw [hk]
      rw [hc] at f1 f4
      refine ⟨f1, ?_⟩
      intro j p hp
      rw [f4 j p hp]
      exact Int.ofNat_inj
    · intro hge
      have hcond : ¬ ((d : Int) - 1 < (s.tabs.length : Int)) := by omega
      simp only [onKey, if_neg hne1, if_neg hne2, hkey, if_neg hcond]
  · intro key hk1 hk2 hk3
    have hnone : digitKey key = none := by
      cases hd : digitKey key with
      | none => rfl
      | some d =>
        obtain ⟨a, b, c⟩ := digitKey_some key d hd
        exact absurd c (hk3 d a b)
    simp only [onKey, if_neg hk1, if_neg hk2, hnone]

/-- Witness for C21: three pages and tabs, current 2: ArrowRight stays on 2. -/
theorem onKey_selects_witness :
    (onKey ⟨List.replicate 3 ⟨none, none, none, none, none⟩,
        List.replicate 3 ⟨"", false, none, none⟩, 2, "", false, 0, 0⟩ "ArrowRight").1.current
      = min (2 + 1) (((List.replicate 3 (⟨"", false, none, none⟩ : Page)).length : Int) - 1) :=
  (onKey_selects ⟨List.replicate 3 ⟨none, none, none, none, none⟩,
      List.replicate 3 ⟨"", false, none, none⟩, 2, "", false, 0, 0⟩
    (by decide) (by decide) (by decide)).1.1

/-! ## The fragment round trip -/

theorem serializeFragment_safe (l : List Char)
    (h : ∀ c ∈ l, inFragmentEncodeSet c = false) : serializeFragment l = l := by
  have hsafe : ∀ c ∈ l, 0x20 < c.toNat := by
    intro c hc
    have := h c hc
    simp only [inFragmentEncodeSet, Bool.or_eq_false_iff, decide_eq_false_iff_not] at this
    omega
  have h1 : l.reverse.dropWhile (fun c => decide (c.toNat ≤ 0x20)) = l.reverse := by
    rw [List.dropWhile_eq_self_iff]
    intro hl
    have hm : l.reverse.get ⟨0, hl⟩ ∈ l := List.mem_reverse.mp (List.get_mem _ _ _)
    have := hsafe _ hm
    simp only [decide_eq_true_eq]
    omega
  have h2 : l.filter (fun c => !(c.toNat = 0x09 || c.toNat = 0x0A || c.toNat = 0x0D)) = l := by
    rw [List.filter_eq_self]
    intro c hc
    have := hsafe c hc
    simp only [Bool.not_eq_true', Bool.or_eq_false_iff, decide_eq_false_iff_not]
    omega
  unfold serializeFragment
  rw [h1, List.reverse_reverse, h2]
  clear h1 h2 hsafe
  induction l with
  | nil => rfl
  | cons c cs ih =>
    have hc := h c (List.mem_cons_self _ _)
    simp only [List.flatMap_cons, hc, Bool.false_eq_true, if_false, List.singleton_append]
    rw [ih (fun d hd => h d (List.mem_cons_of_mem _ hd))]

theorem matchPapers_written (id : List Char) (hne : id ≠ [])
    (hamp : ∀ c ∈ id, c ≠ '&') :
    matchPapers ('#' :: ("papers=".toList ++ id)) = some id := by
  have e : "papers=".toList = ['p', 'a', 'p', 'e', 'r', 's', '='] := rfl
  cases id with
  | nil => exact absurd rfl hne
  | cons c cs =>
    have hc : ¬ c = '&' := hamp c (List.mem_cons_self _ _)
    have htw : cs.takeWhile (fun ch => !decide (ch = '&')) = cs := by
      rw [List.takeWhile_eq_self_iff]
      intro d hd
      simpa using hamp d (List.mem_cons_of_mem _ hd)
    rw [e]
    simp [matchPapers, e, hc, htw]

/-- The fragment left by a completed `show` that updates the hash. -/
theorem lazyLoad_hash_written (s : State) (c : Int) (a : Page)
    (ha : s.pages[c.toNat]? = some a) (hfig : figParses a) :
    (lazyLoad s c true).1.hash
      = locationHash ("papers=" ++ (if a.id ≠ "" then a.id else toString c)) := by
  unfold lazyLoad
  rw [ha]
  simp only
  obtain ⟨_, _, _, _, h5⟩ := lazyFig_effect
    { s with pages := s.pages.set c.toNat { a with pdfWrap := a.pdfWrap.map lazyPdf } } a.fig
  have h6 := h5 hfig
  generalize lazyFig
    { s with pages := s.pages.set c.toNat { a with pdfWrap := a.pdfWrap.map lazyPdf } } a.fig = r
    at h6
  rcases r with ⟨s3, e⟩
  simp only at h6
  subst h6
  rfl

/-- The fragment written by `show(i)` for a page with a non-empty id made of
characters the URL parser leaves alone, and what `init` reads from it. -/
theorem show_fragment (s : State) (i : Nat) (p : Page) (hp : s.pages[i]? = some p)
    (hne : p.id ≠ "") (hamp : ∀ c ∈ p.id.toList, c ≠ '&')
    (hsafe : ∀ c ∈ p.id.toList, inFragmentEncodeSet c = false) (hpar : figParses p) :
    («show» s (i : Int) true).1.hash = "#papers=" ++ p.id ∧
    hashPageId («show» s (i : Int) true).1.hash = some p.id := by
  have hlt : i < s.pages.length := by
    rcases Nat.lt_or_ge i s.pages.length with h | h
    · exact h
    · rw [List.getElem?_eq_none h] at hp; cases hp
  have hc : clampIndex s.pages.length (i : Int) = (i : Int) := by
    unfold clampIndex; omega
  obtain ⟨q, hq, _⟩ := (markActive_fields s (i : Int)).2.2.2 i p hp
  obtain ⟨p0, hp0, _, hfig, hid⟩ := (markActive_fields s (i : Int)).2.2.1 i q hq
  have hpp : p0 = p := by
    rw [hp] at hp0
    exact (Option.some.inj hp0).symm
  subst hpp
  have hwritten : («show» s (i : Int) true).1.hash
      = locationHash ("papers=" ++ (if q.id ≠ "" then q.id else toString (i : Int))) := by
    unfold «show»
    rw [hc]
    apply lazyLoad_hash_written
    · simpa using hq
    · intro g hg hb
      exact hpar g (by rw [← hfig]; exact hg) hb
  have hidne : q.id ≠ "" := by rw [hid]; exact hne
  rw [if_pos hidne, hid] at hwritten
  have hlist : ("papers=" ++ p0.id).toList = "papers=".toList ++ p0.id.toList :=
    String.data_append _ _
  have hall : ∀ c ∈ ("papers=" ++ p0.id).toList, inFragmentEncodeSet c = false := by
    intro c hc
    rw [hlist, List.mem_append] at hc
    rcases hc with hc | hc
    · revert c; decide
    · exact hsafe c hc
  have hser := serializeFragment_safe _ hall
  have hnil : ¬ ("papers=" ++ p0.id).toList = [] := by
    rw [hlist]
    simp [show "papers=".toList = ['p', 'a', 'p', 'e', 'r', 's', '='] from rfl]
  have hhash : («show» s (i : Int) true).1.hash = "#papers=" ++ p0.id := by
    rw [hwritten]
    unfold locationHash
    rw [hser, if_neg hnil]
    apply String.ext
    show '#' :: ("papers=" ++ p0.id).toList = ("#papers=" ++ p0.id).data
    rw [hlist, String.data_append]
    rfl
  refine ⟨hhash, ?_⟩
  rw [hhash]
  unfold hashPageId
  have hl2 : ("#papers=" ++ p0.id).toList = '#' :: ("papers=".toList ++ p0.id.toList) :=
    String.data_append _ _
  have hidnil : p0.id.toList ≠ [] := by
    intro h
    apply hne
    apply String.ext
    exact h
  rw [hl2, matchPapers_written _ hidnil hamp]
  rfl

/-- Counterexample to C22 as stated, in four runs with two pages whose ids are
distinct, non-empty and free of ampersands, each tab carrying its page id.
First run, ids a and é: show(1) leaves the fragment #papers=%C3%A9, which names
no tab, and init() on the later load activates page 0.  Second run, ids a and
b, page a holding an empty figure whose data-plotly attribute is not JSON:
show(1) writes #papers=b, and init() on the later load throws in its initial
show(0) and leaves page 0 active.  Third run, the same figure on page b:
show(1) throws before it writes the fragment.  Fourth run, the tab of page a
also carries b in data-page: show(1) writes #papers=b and init() on the later
load activates page 0, the page of the first tab that carries b. -/
theorem round_trip_fails_for_encoded_id :
    ((«show» ⟨[⟨none, none, some "a", none, none⟩, ⟨none, none, some "é", none, none⟩],
        [⟨"a", false, none, none⟩, ⟨"é", false, none, none⟩], 0, "", false, 0, 0⟩ 1 true).1.hash
      = "#papers=%C3%A9" ∧
    (init ⟨[⟨none, none, some "a", none, none⟩, ⟨none, none, some "é", none, none⟩],
        [⟨"a", false, none, none⟩, ⟨"é", false, none, none⟩], 0, "#papers=%C3%A9", false, 0,
        0⟩).1.current = 0 ∧
    (init ⟨[⟨none, none, some "a", none, none⟩, ⟨none, none, some "é", none, none⟩],
        [⟨"a", false, none, none⟩, ⟨"é", false, none, none⟩], 0, "#papers=%C3%A9", false, 0,
        0⟩).1.pages.map (fun p => p.active) = [true, false]) ∧
    ((«show» ⟨[⟨none, none, some "a", none, none⟩, ⟨none, none, some "b", none, none⟩],
        [⟨"a", false, none, some ⟨true, .malformed⟩⟩, ⟨"b", false, none, none⟩], 0, "", false, 0,
        0⟩ 1 true).1.hash = "#papers=b" ∧
    (init ⟨[⟨none, none, some "a", none, none⟩, ⟨none, none, some "b", none, none⟩],
        [⟨"a", false, none, some ⟨true, .malformed⟩⟩, ⟨"b", false, none, none⟩], 0, "#papers=b",
        false, 0, 0⟩).1.pages.map (fun p => p.active) = [true, false]) ∧
    ((«show» ⟨[⟨none, none, some "a", none, none⟩, ⟨none, none, some "b", none, none⟩],
        [⟨"a", false, none, none⟩, ⟨"b", false, none, some ⟨true, .malformed⟩⟩], 0, "", false, 0,
        0⟩ 1 true).2 = some .syntaxError ∧
    («show» ⟨[⟨none, none, some "a", none, none⟩, ⟨none, none, some "b", none, none⟩],
        [⟨"a", false, none, none⟩, ⟨"b", false, none, some ⟨true, .malformed⟩⟩], 0, "", false, 0,
        0⟩ 1 true).1.hash = "") ∧
    ((«show» ⟨[⟨none, none, some "a", some "b", none⟩, ⟨none, none, some "b", none, none⟩],
        [⟨"a", false, none, none⟩, ⟨"b", false, none, none⟩], 0, "", false, 0, 0⟩ 1 true).1.hash
      = "#papers=b" ∧
    (init ⟨[⟨none, none, some "a", some "b", none⟩, ⟨none, none, some "b", none, none⟩],
        [⟨"a", false, none, none⟩, ⟨"b", false, none, none⟩], 0, "#papers=b", false, 0,
        0⟩).1.pages.map (fun p => p.active) = [true, false]) := by
  decide

theorem findIdx?_labelled (s : State) (i : Nat) (p : Page)
    (htabs : s.tabs.length = s.pages.length) (hp : s.pages[i]? = some p)
    (hlab : labelled s) (hdist : distinctIds s) :
    s.tabs.findIdx? (tabNames p.id) = some i := by
  have hlt : i < s.pages.length := by
    rcases Nat.lt_or_ge i s.pages.length with h | h
    · exact h
    · rw [List.getElem?_eq_none h] at hp; cases hp
  have hlt2 : i < s.tabs.length := by omega
  rw [List.findIdx?_eq_some_iff_getElem]
  refine ⟨hlt2, ?_, ?_⟩
  · obtain ⟨h1, _, _⟩ := hlab i s.tabs[i] p (List.getElem?_eq_getElem hlt2) hp
    rcases h1 with h1 | h1 <;> simp [tabNames, h1]
  · intro j hj hnames
    have hj2 : j < s.tabs.length := by omega
    have hj3 : j < s.pages.length := by omega
    obtain ⟨_, h2, h3⟩ := hlab j s.tabs[j] s.pages[j] (List.getElem?_eq_getElem hj2)
      (List.getElem?_eq_getElem hj3)
    have hid : p.id = s.pages[j].id := by
      simp only [tabNames, Bool.or_eq_true, decide_eq_true_eq] at hnames
      rcases hnames with h | h
      · exact h2 _ h
      · exact h3 _ h
    have := hdist i j p s.pages[j] hp (List.getElem?_eq_getElem hj3) hid
    omega

/-- Claim C22, amended: for tabs labelled after their pages (each tab carries
the id of its page in data-page-id or data-page and nothing else in either),
distinct page ids, and a page i whose id is non-empty, has no ampersand and
consists of characters the URL parser does not percent-encode (printable ASCII
other than space, double quote, angle brackets and grave accent), where
neither page 0 nor page i holds an empty data-plotly figure with an attribute
that is not JSON: show(i) leaves the fragment #papers= followed by the id, and
init() on a later load with that fragment parses it back to index i and makes
page i the one active page. -/
theorem fragment_round_trip (s : State) (i : Nat) (p : Page)
    (htabs : s.tabs.length = s.pages.length) (hp : s.pages[i]? = some p)
    (hne : p.id ≠ "") (hamp : ∀ c ∈ p.id.toList, c ≠ '&')
    (hsafe : ∀ c ∈ p.id.toList, inFragmentEncodeSet c = false)
    (hlab : labelled s) (hdist : distinctIds s)
    (hfirst : ∀ q, s.pages[0]? = some q → figParses q) (hpar : figParses p) :
    («show» s (i : Int) true).1.hash = "#papers=" ++ p.id ∧
    hashPageId («show» s (i : Int) true).1.hash = some p.id ∧
    (init { s with hash := («show» s (i : Int) true).1.hash }).1.current = (i : Int) ∧
    (init { s with hash := («show» s (i : Int) true).1.hash }).1.pages.length
      = s.pages.length ∧
    ∀ (j : Nat) (q : Page),
      (init { s with hash := («show» s (i : Int) true).1.hash }).1.pages[j]? = some q →
      (q.active = true ↔ j = i) := by
  obtain ⟨hh, hid⟩ := show_fragment s i p hp hne hamp hsafe hpar
  have hlt : i < s.pages.length := by
    rcases Nat.lt_or_ge i s.pages.length with h | h
    · exact h
    · rw [List.getElem?_eq_none h] at hp; cases hp
  obtain ⟨s1, hlen, _, _, _, hinit⟩ :=
    init_unfold { s with hash := («show» s (i : Int) true).1.hash } hfirst
  have hfind : ({ s with hash := («show» s (i : Int) true).1.hash } : State).tabs.findIdx?
      (tabNames p.id) = some i := findIdx?_labelled s i p htabs hp hlab hdist
  have hlen2 : s1.pages.length = s.pages.length := hlen
  have hres : init { s with hash := («show» s (i : Int) true).1.hash }
      = «show» s1 (i : Int) true := by
    rw [hinit]
    simp only [hid, hfind]
  have hcl : clampIndex s1.pages.length (i : Int) = (i : Int) := by
    unfold clampIndex; omega
  obtain ⟨f1, f2, _, f4⟩ := show_flags s1 (i : Int) true
  rw [hcl] at f1 f4
  refine ⟨hh, hid, by rw [hres]; exact f1, by rw [hres, f2, hlen2], ?_⟩
  intro j q hq
  rw [hres] at hq
  rw [f4 j q hq]
  exact Int.ofNat_inj

/-- Witness for C22: pages a and b with tabs naming them; show(1) writes
#papers=b and init() on the later load selects index 1. -/
theorem fragment_round_trip_witness :
    («show» ⟨[⟨none, none, some "a", none, none⟩, ⟨none, none, some "b", none, none⟩],
        [⟨"a", false, none, none⟩, ⟨"b", false, none, none⟩], 0, "", false, 0, 0⟩
      ((1 : Nat) : Int) true).1.hash = "#papers=" ++ "b" ∧
    (init { (⟨[⟨none, none, some "a", none, none⟩, ⟨none, none, some "b", none, none⟩],
        [⟨"a", false, none, none⟩, ⟨"b", false, none, none⟩], 0, "", false, 0, 0⟩ : State) with
      hash := («show» ⟨[⟨none, none, some "a", none, none⟩, ⟨none, none, some "b", none, none⟩],
        [⟨"a", false, none, none⟩, ⟨"b", false, none, none⟩], 0, "", false, 0, 0⟩
        ((1 : Nat) : Int) true).1.hash }).1.current = ((1 : Nat) : Int) :=
  have h := fragment_round_trip
    ⟨[⟨none, none, some "a", none, none⟩, ⟨none, none, some "b", none, none⟩],
      [⟨"a", false, none, none⟩, ⟨"b", false, none, none⟩], 0, "", false, 0, 0⟩
    1 ⟨"b", false, none, none⟩ (by decide) (by decide) (by decide) (by decide) (by decide)
    (by
      intro i t p ht hp
      match i with
      | 0 =>
        simp at ht hp
        subst ht hp
        simp
      | 1 =>
        simp at ht hp
        subst ht hp
        simp
      | n + 2 => simp at ht)
    (by
      intro i j p q hp hq hid
      match i, j with
      | 0, 0 => rfl
      | 1, 1 => rfl
      | 0, 1 =>
        simp at hp hq
        subst hp hq
        simp at hid
      | 1, 0 =>
        simp at hp hq
        subst hp hq
        simp at hid
      | n + 2, _ => simp at hp
      | 0, n + 2 => simp at hq
      | 1, n + 2 => simp at hq)
    (by
      intro q hq f hf
      simp at hq
      subst hq
      simp at hf)
    (by
      intro f hf
      simp at hf)
  ⟨h.1, h.2.2.1⟩

end Papers

namespace Roadmap

/-! ## The detail table -/

theorem lookup_none_of_not_mem {α β : Type} [BEq α] [LawfulBEq α] (l : List (α × β)) (k : α)
    (h : k ∉ l.map Prod.fst) : l.lookup k = none := by
  induction l with
  | nil => rfl
  | cons p ps ih =>
    rcases p with ⟨a, b⟩
    simp only [List.map_cons, List.mem_cons, not_or] at h
    have hne : (k == a) = false := by
      simpa using h.1
    simp only [List.lookup, hne]
    exact ih h.2

theorem DETAILS_lookup_of_mem (id : String) (d : Detail) (h : (id, d) ∈ DETAILS) :
    DETAILS.lookup id = some d := by
  simp only [DETAILS, List.mem_cons, Prod.mk.injEq, List.mem_singleton, List.not_mem_nil,
    or_false] at h
  rcases h with ⟨rfl, rfl⟩ | ⟨rfl, rfl⟩ | ⟨rfl, rfl⟩ | ⟨rfl, rfl⟩ | ⟨rfl, rfl⟩ | ⟨rfl, rfl⟩ |
    ⟨rfl, rfl⟩ <;> rfl

/-- Counterexample to C9 as stated: the id constructor is absent from the
DETAILS table, yet the lookup of renderDetails does not yield the fallback with
title constructor and no bullets.  DETAILS is an object literal, so the read
finds the member inherited from the object prototype, which is truthy; the
title is then undefined and rendering the bullets throws. -/
theorem lookupDetail_constructor :
    "constructor" ∉ DETAILS.map Prod.fst ∧
    lookupDetail "constructor" ≠ .record "constructor" [] ∧
    lookupDetail "constructor" = .inherited "constructor" ∧
    (renderDetails ⟨some "", some []⟩ "constructor").2 = some .typeError := by
  decide

/-- Claim C9, amended: for every id that is absent from the DETAILS table and
is not the name of a member inherited from the object prototype, the lookup of
renderDetails yields the fallback with the raw id as title and no bullets, and
renderDetails shows that title and renders no bullet; for every id present in
the table the lookup yields that entry unchanged and renderDetails shows it.
The nodes initRoadmap() binds all carry a key of the table as their
data-node-id, so an inherited name does not reach renderDetails from them. -/
theorem lookupDetail_fallback (id : String) :
    (id ∉ DETAILS.map Prod.fst → id ∉ objectPrototypeKeys →
      lookupDetail id = .record id [] ∧
      ∀ panel : Panel, renderDetails panel id =
        ({ title := panel.title.map (fun _ => id), bullets := panel.bullets.map (fun _ => []) },
          none)) ∧
    (∀ d : Detail, (id, d) ∈ DETAILS →
      lookupDetail id = .record d.title d.bullets ∧
      ∀ panel : Panel, renderDetails panel id =
        ({ title := panel.title.map (fun _ => d.title),
           bullets := panel.bullets.map (fun _ => d.bullets.map (fun b => "• " ++ b)) }, none)) ∧
    (∀ (doc : List Details.DNode) (nd : Details.DNode), nd ∈ Details.bindNodes doc →
      nd.nodeId ∈ DETAILS.map Prod.fst) := by
  refine ⟨?_, ?_, ?_⟩
  · intro h1 h2
    have h3 := lookup_none_of_not_mem DETAILS id h1
    have h4 : lookupDetail id = .record id [] := by
      simp [lookupDetail, h3, h2]
    refine ⟨h4, fun panel => ?_⟩
    simp [renderDetails, h4]
  · intro d h
    have h3 := DETAILS_lookup_of_mem id d h
    have h4 : lookupDetail id = .record d.title d.bullets := by
      simp [lookupDetail, h3]
    refine ⟨h4, fun panel => ?_⟩
    simp [renderDetails, h4]
  · intro doc nd h
    simp only [Details.bindNodes, List.mem_filterMap] at h
    obtain ⟨key, hkey, hfind⟩ := h
    have hp := List.find?_some hfind
    simp only [decide_eq_true_eq] at hp
    rw [hp]
    exact hkey

/-- Witness for C9: the id roadmap_extra is in neither list and gets the
fallback; the id future gets its table entry. -/
theorem lookupDetail_fallback_witness :
    lookupDetail "roadmap_extra" = .record "roadmap_extra" [] ∧
    lookupDetail "future" = .record "Future: Test-set protocol & QA dashboard"
      ["Systematic suite design + coverage metrics", "Multi-site validation plan"] :=
  ⟨((lookupDetail_fallback "roadmap_extra").1 (by decide) (by decide)).1,
   ((lookupDetail_fallback "future").2.1
      ⟨"Future: Test-set protocol & QA dashboard",
        ["Systematic suite design + coverage metrics", "Multi-site validation plan"]⟩
      (by decide)).1⟩

/-! ## Popovers -/

theorem wf_init (ms : List Milestone) (bs : List String) : (Root.init ms bs).WF := by
  simp [Root.WF, Root.init]

theorem wf_closePopover (r : Root) (h : r.WF) :
    (closePopover r).WF ∧ (closePopover r).currentPopover = none ∧
    (closePopover r).fresh = r.fresh ∧ (closePopover r).milestones = r.milestones ∧
    (closePopover r).buttonIds = r.buttonIds ∧ (closePopover r).popovers = r.popovers := by
  obtain ⟨h1, h2, h3, h4⟩ := h
  unfold closePopover
  cases hc : r.currentPopover with
  | none => exact ⟨⟨h1, h2, h3, h4⟩, hc, rfl, rfl, rfl, rfl⟩
  | some n =>
    refine ⟨⟨h1, ?_, ?_, ?_⟩, rfl, rfl, rfl, rfl, rfl⟩
    · intro m hm
      simp only [List.mem_append, List.mem_singleton] at hm
      rcases hm with hm | hm
      · exact h2 m hm
      · rw [hm]; exact h3 n hc
    · intro m hm
      cases hm
    · intro q hq
      right
      simp only [List.mem_append, List.mem_singleton]
      rcases h4 q hq with hq1 | hq1
      · right
        rw [hc] at hq1
        exact (Option.some.inj hq1).symm
      · left; exact hq1

theorem wf_openMilestone (r : Root) (i : Int) (h : r.WF) :
    (openMilestone r i).1.WF ∧ (openMilestone r i).1.milestones = r.milestones ∧
    (openMilestone r i).1.buttonIds = r.buttonIds := by
  obtain ⟨hwf, hcur, hfr, hms, hbs, _⟩ := wf_closePopover r h
  obtain ⟨h1, h2, h3, h4⟩ := hwf
  unfold openMilestone
  simp only
  cases hm : (if 0 ≤ i then (closePopover r).milestones[i.toNat]? else none) with
  | none => exact ⟨⟨h1, h2, h3, h4⟩, hms, hbs⟩
  | some m =>
    refine ⟨⟨?_, ?_, ?_, ?_⟩, hms, hbs⟩
    · intro q hq
      simp only [List.mem_append, List.mem_singleton] at hq
      rcases hq with hq | hq
      · exact Nat.lt_succ_of_lt (h1 q hq)
      · rw [hq]; exact Nat.lt_succ_self _
    · intro n hn
      exact Nat.lt_succ_of_lt (h2 n hn)
    · intro n hn
      rw [← Option.some.inj hn]
      exact Nat.lt_succ_self _
    · intro q hq
      simp only [List.mem_append, List.mem_singleton] at hq
      rcases hq with hq | hq
      · right
        rcases h4 q hq with hq1 | hq1
        · rw [hcur] at hq1; cases hq1
        · exact hq1
      · left; rw [hq]; rfl

theorem wf_cleanup (r : Root) (n : Nat) (h : r.WF) :
    (cleanup r n).WF ∧ (cleanup r n).milestones = r.milestones ∧
    (cleanup r n).buttonIds = r.buttonIds := by
  obtain ⟨h1, h2, h3, h4⟩ := h
  refine ⟨⟨?_, ?_, h3, ?_⟩, rfl, rfl⟩
  · intro q hq
    simp only [cleanup, List.mem_filter] at hq
    exact h1 q hq.1
  · intro m hm
    simp only [cleanup, List.mem_filter] at hm
    exact h2 m hm.1
  · intro q hq
    simp only [cleanup, List.mem_filter, decide_eq_true_eq] at hq ⊢
    rcases h4 q hq.1 with hq1 | hq1
    · exact Or.inl hq1
    · exact Or.inr ⟨hq1, hq.2⟩

/-- Every root reached from an initialised one by opening, closing and cleanup
is well formed and keeps its milestones. -/
theorem wf_applyEvents (es : List PopEvent) (r : Root) (h : r.WF) :
    (applyEvents r es).WF ∧ (applyEvents r es).milestones = r.milestones := by
  induction es generalizing r with
  | nil => exact ⟨h, rfl⟩
  | cons e es ih =>
    have hstep : (applyEvent r e).WF ∧ (applyEvent r e).milestones = r.milestones := by
      cases e with
      | openMilestone i => exact ⟨(wf_openMilestone r i h).1, (wf_openMilestone r i h).2.1⟩
      | closePopover => exact ⟨(wf_closePopover r h).1, (wf_closePopover r h).2.2.2.1⟩
      | cleanup n => exact ⟨(wf_cleanup r n h).1, (wf_cleanup r n h).2.1⟩
    obtain ⟨ih1, ih2⟩ := ih (applyEvent r e) hstep.1
    exact ⟨ih1, ih2.trans hstep.2⟩

theorem foldl_cleanup (ns : List Nat) (r : Root) :
    (ns.foldl cleanup r).popovers = r.popovers.filter (fun p => decide (p.node ∉ ns)) ∧
    (ns.foldl cleanup r).currentPopover = r.currentPopover := by
  induction ns generalizing r with
  | nil => simp
  | cons n ns ih =>
    obtain ⟨ih1, ih2⟩ := ih (cleanup r n)
    simp only [List.foldl_cons]
    refine ⟨?_, ih2⟩
    rw [ih1]
    simp only [cleanup, List.filter_filter]
    apply List.filter_congr
    intro q _
    simp only [List.mem_cons, not_or, ne_eq, decide_not, Bool.and_eq_true,
      Bool.not_eq_true', decide_eq_false_iff_not, Bool.decide_and]
    exact Bool.and_comm _ _

theorem closePopover_fields (r : Root) :
    (closePopover r).milestones = r.milestones ∧ (closePopover r).fresh = r.fresh ∧
    (closePopover r).popovers = r.popovers ∧ (closePopover r).buttonIds = r.buttonIds ∧
    (closePopover r).closing = r.closing ++ r.currentPopover.toList := by
  unfold closePopover
  cases r.currentPopover <;> simp

theorem openMilestone_fields (r : Root) (i : Nat) (m : Milestone)
    (hm : r.milestones[i]? = some m) :
    (openMilestone r i).2 = none ∧
    (openMilestone r i).1.popovers = r.popovers ++ [newPopover (closePopover r) i m] ∧
    (openMilestone r i).1.currentPopover = some r.fresh ∧
    (openMilestone r i).1.closing = r.closing ++ r.currentPopover.toList ∧
    (openMilestone r i).1.fresh = r.fresh + 1 ∧
    (openMilestone r i).1.milestones = r.milestones ∧
    (newPopover (closePopover r) i m).node = r.fresh := by
  obtain ⟨c1, c2, c3, _, c5⟩ := closePopover_fields r
  simp [openMilestone, hm, c1, c2, c3, c5, newPopover]

/-- Core of C10 on a well-formed root. -/
theorem reopen_wf (r : Root) (h : r.WF) (i j : Nat)
    (hi : i < r.milestones.length) (hj : j < r.milestones.length) :
    ∃ pi pj : Popover,
      (openMilestone r i).2 = none ∧
      (openMilestone (openMilestone r i).1 j).2 = none ∧
      pi.id = "milestone-popover-" ++ toString ((i : Int) + 1) ∧
      pj.id = "milestone-popover-" ++ toString ((j : Int) + 1) ∧
      pi.node ≠ pj.node ∧
      (reopen r i j).currentPopover = some pj.node ∧
      pi ∈ (reopen r i j).popovers ∧
      pj ∈ (reopen r i j).popovers ∧
      pi.node ∈ (reopen r i j).closing ∧
      (settle (reopen r i j)).popovers = [pj] ∧
      (settle (reopen r i j)).currentPopover = some pj.node := by
  obtain ⟨h1, h2, h3, h4⟩ := h
  have hmi : r.milestones[i]? = some r.milestones[i] := List.getElem?_eq_getElem hi
  obtain ⟨a1, a2, a3, a4, a5, a6, a7⟩ := openMilestone_fields r i _ hmi
  have hmj : (openMilestone r i).1.milestones[j]? = some r.milestones[j] := by
    rw [a6]; exact List.getElem?_eq_getElem hj
  obtain ⟨b1, b2, b3, b4, b5, _, b7⟩ := openMilestone_fields (openMilestone r i).1 j _ hmj
  rw [a2, a3, a4, a5] at *
  simp only [Option.toList_some] at b4
  refine ⟨newPopover (closePopover r) i r.milestones[i],
    newPopover (closePopover (openMilestone r i).1) j r.milestones[j],
    a1, b1, rfl, rfl, ?_, ?_, ?_, ?_, ?_, ?_, ?_⟩
  · rw [a7, b7]; omega
  · unfold reopen; rw [b3, b7]
  · unfold reopen; rw [b2]; simp
  · unfold reopen; rw [b2]; simp
  · unfold reopen; rw [b4, a7]; simp
  · unfold settle
    rw [(foldl_cleanup _ _).1]
    unfold reopen
    rw [b2, b4]
    simp only [List.filter_append]
    have e1 : List.filter (fun p => decide (p.node ∉ (r.closing ++ r.currentPopover.toList) ++ [r.fresh]))
        r.popovers = [] := by
      rw [List.filter_eq_nil_iff]
      intro q hq
      simp only [decide_eq_true_eq, not_not, List.mem_append, Option.mem_toList,
        Option.mem_def, List.mem_singleton]
      rcases h4 q hq with hq1 | hq1
      · exact Or.inl (Or.inr hq1)
      · exact Or.inl (Or.inl hq1)
    have e2 : List.filter (fun p => decide (p.node ∉ (r.closing ++ r.currentPopover.toList) ++ [r.fresh]))
        [newPopover (closePopover r) i r.milestones[i]] = [] := by
      rw [List.filter_eq_nil_iff]
      intro q hq
      simp only [List.mem_singleton] at hq
      simp [hq, a7]
    have e3 : List.filter (fun p => decide (p.node ∉ (r.closing ++ r.currentPopover.toList) ++ [r.fresh]))
        [newPopover (closePopover (openMilestone r i).1) j r.milestones[j]]
        = [newPopover (closePopover (openMilestone r i).1) j r.milestones[j]] := by
      rw [List.filter_eq_self]
      intro q hq
      simp only [List.mem_singleton] at hq
      simp only [hq, b7, decide_eq_true_eq, List.mem_append, Option.mem_toList,
        Option.mem_def, List.mem_singleton, not_or]
      refine ⟨⟨?_, ?_⟩, by omega⟩
      · intro hc
        have := h2 _ hc
        omega
      · intro hc
        have := h3 _ hc
        omega
    rw [e1, e2, e3]
    rfl
  · unfold settle
    rw [(foldl_cleanup _ _).2]
    unfold reopen; rw [b3, b7]

/-- Counterexample to C10 as stated: right after openMilestone(0) followed by
openMilestone(1) on a fresh root with two milestones, two popover elements are
present in the root, the one for milestone 0 among them. -/
theorem two_popovers_after_reopen :
    ((openMilestone (openMilestone (Root.init [⟨none, none, none⟩, ⟨none, none, none⟩] []) 0).1 1).1.popovers.map
      (fun p => p.id)) = ["milestone-popover-1", "milestone-popover-2"] := by
  decide

/-- Claim C10, amended: on every root reached from an initialised one by
opening, closing and cleanup, openMilestone(i) followed by openMilestone(j)
with i, j below the number of milestones both complete; currentPopover then
refers to the new popover for j, which is in the root; the popover for i is
still in the root at that moment, with its removal scheduled; and once the
scheduled removals have run, the popover for j is the only popover element in
the root and is still the current one. -/
theorem reopen_one_popover_after_cleanup (ms : List Milestone) (bs : List String)
    (es : List PopEvent) (i j : Nat) (hi : i < ms.length) (hj : j < ms.length) :
    ∃ pi pj : Popover,
      (openMilestone (applyEvents (Root.init ms bs) es) i).2 = none ∧
      (openMilestone (openMilestone (applyEvents (Root.init ms bs) es) i).1 j).2 = none ∧
      pi.id = "milestone-popover-" ++ toString ((i : Int) + 1) ∧
      pj.id = "milestone-popover-" ++ toString ((j : Int) + 1) ∧
      pi.node ≠ pj.node ∧
      (reopen (applyEvents (Root.init ms bs) es) i j).currentPopover = some pj.node ∧
      pi ∈ (reopen (applyEvents (Root.init ms bs) es) i j).popovers ∧
      pj ∈ (reopen (applyEvents (Root.init ms bs) es) i j).popovers ∧
      pi.node ∈ (reopen (applyEvents (Root.init ms bs) es) i j).closing ∧
      (settle (reopen (applyEvents (Root.init ms bs) es) i j)).popovers = [pj] ∧
      (settle (reopen (applyEvents (Root.init ms bs) es) i j)).currentPopover = some pj.node := by
  obtain ⟨hwf, hms⟩ := wf_applyEvents es (Root.init ms bs) (wf_init ms bs)
  have hms2 : (applyEvents (Root.init ms bs) es).milestones = ms := hms
  exact reopen_wf _ hwf i j (by rw [hms2]; exact hi) (by rw [hms2]; exact hj)

/-- Witness for C10: a fresh root with two milestones, openMilestone(0) then
openMilestone(1); after the scheduled removal one popover remains. -/
theorem reopen_one_popover_after_cleanup_witness :
    ∃ pj : Popover,
      pj.id = "milestone-popover-" ++ toString (((1 : Nat) : Int) + 1) ∧
      (settle (reopen (applyEvents (Root.init [⟨none, none, none⟩, ⟨none, none, none⟩] []) [])
        ((0 : Nat) : Int) ((1 : Nat) : Int))).popovers = [pj] :=
  match reopen_one_popover_after_cleanup [⟨none, none, none⟩, ⟨none, none, none⟩] [] [] 0 1
      (by decide) (by decide) with
  | ⟨_, pj, h⟩ => ⟨pj, h.2.2.2.1, h.2.2.2.2.2.2.2.2.2.1⟩

/-! ## Keyboard navigation -/

theorem keysDown_arrows (ks : List Key) :
    ∀ w : Widget, (∀ k ∈ ks, k = .arrowRight ∨ k = .arrowLeft) →
      1 ≤ w.controlsCount → 0 ≤ w.active → w.active ≤ (w.controlsCount : Int) - 1 →
      (keysDown w ks).root = w.root ∧ (keysDown w ks).controlsCount = w.controlsCount ∧
      0 ≤ (keysDown w ks).active ∧ (keysDown w ks).active ≤ (w.controlsCount : Int) - 1 := by
  induction ks with
  | nil =>
    intro w _ _ h0 h1
    exact ⟨rfl, rfl, h0, h1⟩
  | cons k ks ih =>
    intro w hk hc h0 h1
    have hks : ∀ k' ∈ ks, k' = .arrowRight ∨ k' = .arrowLeft :=
      fun k' hk' => hk k' (List.mem_cons_of_mem _ hk')
    rcases hk k (List.mem_cons_self _ _) with rfl | rfl
    · have := ih (keydown w .arrowRight).1 hks hc
        (by simp only [keydown]; omega) (by simp only [keydown]; omega)
      simpa [keysDown, keydown] using this
    · have := ih (keydown w .arrowLeft).1 hks hc
        (by simp only [keydown]; omega) (by simp only [keydown]; omega)
      simpa [keysDown, keydown] using this

/-- Claim C11 (evaluated on the code): when the buttons are created by the
script, every sequence of ArrowRight and ArrowLeft keys keeps the active index
within the milestone range, each key moving it by one up to the bounds, and
Enter or Space then opens the popover of the active milestone.  When the
buttons are adopted from existing markup, the bound is taken from the empty
controls element: ArrowRight from the initial state sets the active index to
-1, and Enter then throws without opening a popover. -/
theorem keyboard_navigation (ms : List Milestone) (existing : List ExistingButton)
    (hn : 1 ≤ ms.length) :
    (existing = [] → ∀ ks : List Key, (∀ k ∈ ks, k = .arrowRight ∨ k = .arrowLeft) →
      0 ≤ (keysDown (Widget.init ms existing) ks).active ∧
      (keysDown (Widget.init ms existing) ks).active ≤ (ms.length : Int) - 1 ∧
      (keydown (keysDown (Widget.init ms existing) ks) .arrowRight).1.active
        = min ((keysDown (Widget.init ms existing) ks).active + 1) ((ms.length : Int) - 1) ∧
      (keydown (keysDown (Widget.init ms existing) ks) .arrowLeft).1.active
        = max ((keysDown (Widget.init ms existing) ks).active - 1) 0 ∧
      ∀ k : Key, (k = .enter ∨ k = .space) →
        (keydown (keysDown (Widget.init ms existing) ks) k).2 = none ∧
        ∃ pop : Popover,
          pop ∈ (keydown (keysDown (Widget.init ms existing) ks) k).1.root.popovers ∧
          (keydown (keysDown (Widget.init ms existing) ks) k).1.root.currentPopover
            = some pop.node ∧
          pop.id = "milestone-popover-"
            ++ toString ((keysDown (Widget.init ms existing) ks).active + 1)) ∧
    (existing ≠ [] →
      (keydown (Widget.init ms existing) .arrowRight).1.active = -1 ∧
      (keydown (keydown (Widget.init ms existing) .arrowRight).1 .enter).2 = some .typeError ∧
      (keydown (keydown (Widget.init ms existing) .arrowRight).1 .enter).1.root.popovers = [] ∧
      (keydown (keydown (Widget.init ms existing) .arrowRight).1 .enter).1.root.currentPopover
        = none) := by
  constructor
  · intro hex ks hks
    have hcc : (Widget.init ms existing).controlsCount = ms.length := by
      simp [Widget.init, buildButtons, hex]
    obtain ⟨hroot, hcount, h0, h1⟩ := keysDown_arrows ks (Widget.init ms existing) hks
      (by rw [hcc]; exact hn) (by simp [Widget.init]) (by rw [hcc]; simp [Widget.init]; omega)
    rw [hcc] at hcount h1
    refine ⟨h0, h1, by simp [keydown, hcount], by simp [keydown], ?_⟩
    intro k hk
    have hmil : (keysDown (Widget.init ms existing) ks).root.milestones = ms := by
      rw [hroot]; rfl
    have hlt : (keysDown (Widget.init ms existing) ks).active.toNat < ms.length := by omega
    have hcast : (((keysDown (Widget.init ms existing) ks).active.toNat : Nat) : Int)
        = (keysDown (Widget.init ms existing) ks).active := Int.toNat_of_nonneg h0
    have hm : (keysDown (Widget.init ms existing) ks).root.milestones[
        (keysDown (Widget.init ms existing) ks).active.toNat]? = some ms[
        (keysDown (Widget.init ms existing) ks).active.toNat] := by
      rw [hmil]; exact List.getElem?_eq_getElem hlt
    obtain ⟨f1, f2, f3, _, _, _, f7⟩ :=
      openMilestone_fields (keysDown (Widget.init ms existing) ks).root _ _ hm
    rw [hcast] at f1 f2 f3 f7
    have hopen : (keydown (keysDown (Widget.init ms existing) ks) k).2 = none ∧
        (keydown (keysDown (Widget.init ms existing) ks) k).1.root
          = (openMilestone (keysDown (Widget.init ms existing) ks).root
              (keysDown (Widget.init ms existing) ks).active).1 := by
      rcases hk with rfl | rfl <;> exact ⟨f1, rfl⟩
    refine ⟨hopen.1, newPopover (closePopover (keysDown (Widget.init ms existing) ks).root)
      (keysDown (Widget.init ms existing) ks).active
      ms[(keysDown (Widget.init ms existing) ks).active.toNat], ?_, ?_, rfl⟩
    · rw [hopen.2, f2]; simp
    · rw [hopen.2, f3, f7]
  · intro hex
    have hb : (buildButtons ms existing).2 = 0 := by
      simp [buildButtons, hex]
    have hw : (keydown (Widget.init ms existing) .arrowRight).1
        = { root := Root.init ms (buildButtons ms existing).1, active := -1, controlsCount := 0 } := by
      simp [keydown, Widget.init, hb]
    rw [hw]
    refine ⟨rfl, ?_, ?_, ?_⟩ <;>
      simp [keydown, openMilestone, closePopover, Root.init]

/-- Witness for C11: two milestones whose buttons are adopted from one existing
element: ArrowRight leaves the active index at -1 and Enter throws. -/
theorem keyboard_navigation_witness :
    (keydown (Widget.init [⟨none, none, none⟩, ⟨none, none, none⟩] [⟨"", none⟩]) .arrowRight).1.active
      = -1 ∧
    (keydown (keydown (Widget.init [⟨none, none, none⟩, ⟨none, none, none⟩] [⟨"", none⟩])
      .arrowRight).1 .enter).2 = some .typeError :=
  have h := (keyboard_navigation [⟨none, none, none⟩, ⟨none, none, none⟩] [⟨"", none⟩]
    (by decide)).2 (by decide)
  ⟨h.1, h.2.1⟩

/-! ## Path animation and the milestone gate -/

/-- Claim C12 (evaluated on the code): initRoadmap(root) prepares every
measurable path and the observer callback animates it whatever the
reduced-motion preference is; with the preference set, a path of length 120
gets its dash styles and transition at initialisation and the class
path-animate on entering the viewport. -/
theorem path_animation_ignores_reduced_motion :
    (∀ v : View, v.reducedMotion = true →
      (initRoadmap v).paths = v.paths.map preparePath ∧
      (initRoadmap v).observers = v.observers + 1 ∧
      (∀ p ∈ (intersect (initRoadmap v) true).paths, p.pathAnimate = true)) ∧
    (initRoadmap ⟨true, [⟨some 120, .empty, .empty, "", false, false⟩], [], [], false, 0, 0,
        none⟩).paths
      = [⟨some 120, .num 120, .num 120, "stroke-dashoffset 900ms ease", true, false⟩] ∧
    (viewport (initRoadmap ⟨true, [⟨some 120, .empty, .empty, "", false, false⟩], [], [], false,
        0, 0, none⟩) [true]).paths
      = [⟨some 120, .num 120, .num 0, "stroke-dashoffset 900ms ease", true, true⟩] := by
  refine ⟨?_, rfl, rfl⟩
  intro v _
  refine ⟨?_, ?_, ?_⟩
  · unfold initRoadmap; split <;> rfl
  · unfold initRoadmap; split <;> rfl
  · intro p hp
    simp only [intersect, if_true, List.mem_map] at hp
    obtain ⟨q, _, rfl⟩ := hp
    rfl

/-- Counterexample to C13 as stated: a root without milestones that holds one
measurable path has that path restyled and an observer installed. -/
theorem init_without_milestones_touches_paths :
    (initRoadmap ⟨false, [⟨some 120, .empty, .empty, "", false, false⟩], [], [], false, 0, 0,
        none⟩).paths
      = [⟨some 120, .num 120, .num 120, "stroke-dashoffset 900ms ease", true, false⟩] ∧
    (initRoadmap ⟨false, [⟨some 120, .empty, .empty, "", false, false⟩], [], [], false, 0, 0,
        none⟩).paths.map (fun p => p.timelineDashed)
      ≠ [false] ∧
    (initRoadmap ⟨false, [⟨some 120, .empty, .empty, "", false, false⟩], [], [], false, 0, 0,
        none⟩).observers = 1 := by
  refine ⟨rfl, by decide, rfl⟩

/-- Claim C13, amended: for a root without milestone elements initRoadmap(root)
builds no controls and installs no event listener, and leaves every path whose
length query throws untouched; but it does prepare the stroke of every
measurable path and it installs the viewport observer. -/
theorem init_without_milestones (v : View) (h : v.milestones = []) :
    initRoadmap v = { v with paths := v.paths.map preparePath, observers := v.observers + 1 } ∧
    (initRoadmap v).widget = v.widget ∧
    (initRoadmap v).handlers = v.handlers ∧
    (initRoadmap v).visible = v.visible ∧
    (initRoadmap v).observers = v.observers + 1 ∧
    (∀ p : SvgPath, p.totalLength = none → preparePath p = p) ∧
    (∀ (p : SvgPath) (len : ℚ), p.totalLength = some len →
      preparePath p = { p with dasharray := .num len, dashoffset := .num len
                               transition := "stroke-dashoffset 900ms ease"
                               timelineDashed := true }) := by
  have e : initRoadmap v
      = { v with paths := v.paths.map preparePath, observers := v.observers + 1 } := by
    simp [initRoadmap, h]
  refine ⟨e, by rw [e], by rw [e], by rw [e], by rw [e], ?_, ?_⟩
  · intro p hp
    simp [preparePath, hp]
  · intro p len hp
    simp [preparePath, hp]

/-- Witness for C13: a root with no milestone and no path. -/
theorem init_without_milestones_witness :
    (initRoadmap ⟨false, [], [], [], false, 0, 0, none⟩).widget = none ∧
    (initRoadmap ⟨false, [], [], [], false, 0, 0, none⟩).handlers = 0 ∧
    (initRoadmap ⟨false, [], [], [], false, 0, 0, none⟩).observers = 0 + 1 :=
  have h := init_without_milestones ⟨false, [], [], [], false, 0, 0, none⟩ rfl
  ⟨h.2.1, h.2.2.1, h.2.2.2.2.1⟩

/-! ## Placement of milestones -/

theorem assignPx_idem (old : CssLen) (v : Float64) :
    assignPx (assignPx old v) v = assignPx old v := by
  cases v <;> rfl

theorem assignPct_idem (old : CssLen) (v : Float64) :
    assignPct (assignPct old v) v = assignPct old v := by
  cases v <;> rfl

theorem placeOne_idem (imgRect : Option Rect) (stageRect : Rect) (m : Marker) :
    placeOne imgRect stageRect (placeOne imgRect stageRect m) = placeOne imgRect stageRect m := by
  rcases m with ⟨nodeId, id, rnd, x, y, rect, left, top, mw⟩
  cases imgRect <;> simp only [placeOne, assignPx_idem, assignPct_idem]

/-- Claim C14: with the stage rectangle, the image rectangle and the data-x,
data-y values fixed, running placeMilestonesInStage (or placeAll, which runs it
on every stage) twice gives the same result as running it once; a run changes
only left, top and max-width of the milestones.  With an image, milestone j
gets left = round(imgLeft - stageLeft + x/100 * imgWidth), top likewise and
max-width = max(80, round(max(1, imgWidth) * 0.12)) in pixels, all evaluated in
double precision in the order of the code, a value that is not finite leaving
the style as it was; without an image it gets its finite coordinates as
percentages and keeps its max-width. -/
theorem placement_idempotent (st : Stage) (stages : List Stage) :
    placeMilestonesInStage (placeMilestonesInStage st) = placeMilestonesInStage st ∧
    placeAll (placeAll stages) = placeAll stages ∧
    (∀ i : Nat, (placeAll stages)[i]? = (stages[i]?).map placeMilestonesInStage) ∧
    (placeMilestonesInStage st).rect = st.rect ∧
    (placeMilestonesInStage st).imgRect = st.imgRect ∧
    (placeMilestonesInStage st).svg = st.svg ∧
    (placeMilestonesInStage st).markers.map
        (fun m => (m.nodeId, m.id, m.randomId, m.x, m.y, m.rect))
      = st.markers.map (fun m => (m.nodeId, m.id, m.randomId, m.x, m.y, m.rect)) ∧
    (∀ (ir : Rect) (j : Nat) (m : Marker), st.imgRect = some ir → st.markers[j]? = some m →
      ∃ m2 : Marker, (placeMilestonesInStage st).markers[j]? = some m2 ∧
        m2.left = assignPx m.left (Float64.mathRound
          (Float64.ofRat ir.left - Float64.ofRat st.rect.left
            + m.x.divBy 100 * Float64.ofRat ir.width)) ∧
        m2.top = assignPx m.top (Float64.mathRound
          (Float64.ofRat ir.top - Float64.ofRat st.rect.top
            + m.y.divBy 100 * Float64.ofRat ir.height)) ∧
        m2.maxWidth = assignPx m.maxWidth (Float64.mathMax (.fin 80) (Float64.mathRound
          (Float64.mathMax (.fin 1) (Float64.ofRat ir.width) * Float64.ofRat (12 / 100))))) ∧
    (∀ (j : Nat) (m : Marker), st.imgRect = none → st.markers[j]? = some m →
      ∃ m2 : Marker, (placeMilestonesInStage st).markers[j]? = some m2 ∧
        m2.left = assignPct m.left m.x ∧ m2.top = assignPct m.top m.y ∧
        m2.maxWidth = m.maxWidth) := by
  have h1 : ∀ t : Stage, placeMilestonesInStage (placeMilestonesInStage t)
      = placeMilestonesInStage t := by
    intro t
    simp only [placeMilestonesInStage, List.map_map]
    congr 1
    apply List.map_congr_left
    intro m _
    exact placeOne_idem _ _ m
  refine ⟨h1 st, ?_, ?_, rfl, rfl, rfl, ?_, ?_, ?_⟩
  · simp only [placeAll, List.map_map]
    apply List.map_congr_left
    intro t _
    exact h1 t
  · intro i
    simp [placeAll]
  · simp only [placeMilestonesInStage, List.map_map]
    apply List.map_congr_left
    intro m _
    cases hi : st.imgRect <;> simp [placeOne, hi]
  · intro ir j m hi hj
    refine ⟨placeOne (some ir) st.rect m, ?_, rfl, rfl, rfl⟩
    simp [placeMilestonesInStage, hi, hj]
  · intro j m hi hj
    refine ⟨placeOne none st.rect m, ?_, rfl, rfl, rfl⟩
    simp [placeMilestonesInStage, hi, hj]

/-- Witness for C14: a stage at the origin with an image of size 100 by 50 at
(0, 20) and one milestone with data-x 14.5 and data-y 50.  The double
(14.5 / 100) * 100 is 14.499999999999998, so left is 14px; top is 45px and
max-width 80px. -/
theorem placement_idempotent_witness :
    ∃ m2 : Marker,
      (placeMilestonesInStage ⟨⟨0, 0, 200, 100⟩, some ⟨0, 20, 100, 50⟩,
        [⟨none, "a", "", .fin (29 / 2), .fin 50, none, .unset, .unset, .unset⟩],
        none⟩).markers[0]? = some m2 ∧
      m2.left = .px 14 ∧ m2.top = .px 45 ∧ m2.maxWidth = .px 80 :=
  match (placement_idempotent ⟨⟨0, 0, 200, 100⟩, some ⟨0, 20, 100, 50⟩,
      [⟨none, "a", "", .fin (29 / 2), .fin 50, none, .unset, .unset, .unset⟩], none⟩
      []).2.2.2.2.2.2.2.1 ⟨0, 20, 100, 50⟩ 0
      ⟨none, "a", "", .fin (29 / 2), .fin 50, none, .unset, .unset, .unset⟩ rfl rfl with
  | ⟨m2, h0, hl, ht, hw⟩ =>
    ⟨m2, h0, hl.trans (by decide!), ht.trans (by decide!), hw.trans (by decide!)⟩

/-! ## Connectors -/

theorem ne_append_tip (s : String) : ¬ s = s ++ "-tip" := by
  intro h
  have h2 := congrArg String.length h
  rw [String.length_append] at h2
  have h3 : "-tip".length = 4 := by decide
  omega

/-- Claim C20 (evaluated on the code): for a stage whose svg is empty and a
milestone with bounding rectangle r, drawConnectorsFor draws the line from
x1 = round(0.08 * stage width), y1 = round(y2) to the centre (x2, y2) of the
milestone relative to the stage, and places the tip circle at that centre.
The anchor is at 8 % of the stage width, not at 10 %: for a stage 100 wide
x1 is 8, while 10 % would give 10. -/
theorem connector_anchor (sr r : Rect) (m : Marker) :
    drawOne sr [] { m with rect := some r } =
      [ ⟨"line", "connector-" ++ connectorName m,
          [("id", .str ("connector-" ++ connectorName m)), ("class", .str "connector-line"),
           ("vector-effect", .str "non-scaling-stroke"),
           ("x1", .num (jsRound (sr.width * (8 / 100)))),
           ("y1", .num (jsRound (r.top + r.height / 2 - sr.top))),
           ("x2", .num (r.left + r.width / 2 - sr.left)),
           ("y2", .num (r.top + r.height / 2 - sr.top)),
           ("stroke", .str "#0361bf"), ("stroke-width", .str "2"),
           ("stroke-opacity", .str "1")]⟩,
        ⟨"circle", "connector-" ++ connectorName m ++ "-tip",
          [("id", .str ("connector-" ++ connectorName m ++ "-tip")),
           ("class", .str "connector-tip"),
           ("cx", .num (r.left + r.width / 2 - sr.left)),
           ("cy", .num (r.top + r.height / 2 - sr.top)),
           ("r", .str "5"), ("fill", .str "#0361bf"), ("fill-opacity", .str "1")]⟩ ] ∧
    jsRound ((100 : ℚ) * (8 / 100)) = 8 ∧
    jsRound ((100 : ℚ) * (10 / 100)) = 10 ∧
    (∀ old : List SvgEl,
      (drawConnectorsFor ⟨sr, none, [{ m with rect := some r }], some old⟩).svg
        = some (drawOne sr [] { m with rect := some r })) := by
  refine ⟨?_, by norm_num [jsRound], by norm_num [jsRound], fun old => rfl⟩
  have hn : connectorName { m with rect := some r } = connectorName m := rfl
  have hne := ne_append_tip ("connector-" ++ connectorName m)
  simp [drawOne, makeTip, makeLine, upsert, byId, modifyById, setAttrs, setAttr, hn, hne]

/-! ## Isolation of per-milestone failures -/

theorem setAttrs_id (e : SvgEl) (kvs : List (String × AttrVal)) : (setAttrs e kvs).id = e.id :=
  rfl

theorem byId_modifyById (id id2 : String) (f : SvgEl → SvgEl) (hf : ∀ e, (f e).id = e.id)
    (svg : List SvgEl) :
    byId id2 (modifyById id f svg)
      = if id2 = id then (byId id svg).map f else byId id2 svg := by
  induction svg with
  | nil => simp [modifyById, byId]
  | cons e es ih =>
    by_cases he : e.id = id
    · by_cases h2 : id2 = id
      · simp [modifyById, byId, he, h2, hf]
      · have h3 : ¬ e.id = id2 := fun h => h2 (h.symm.trans he)
        have h4 : ¬ id = id2 := fun h => h2 h.symm
        simp [modifyById, byId, he, h2, h3, h4, hf]
    · by_cases h3 : e.id = id2
      · have h2 : ¬ id2 = id := fun h => he (h3.trans h)
        simp [modifyById, byId, he, h2, h3]
      · simp only [modifyById, byId, if_neg he, if_neg h3]
        exact ih

theorem byId_append_single (id2 : String) (svg : List SvgEl) (e : SvgEl) :
    byId id2 (svg ++ [e])
      = match byId id2 svg with
        | some x => some x
        | none => if e.id = id2 then some e else none := by
  induction svg with
  | nil => simp [byId]
  | cons a as ih =>
    by_cases ha : a.id = id2
    · simp [byId, ha]
    · simp only [List.cons_append, byId, if_neg ha]
      exact ih

/-- Lookup after `upsert`: other ids are untouched, and the element with the
given id is the old or the new one with the further attributes set. -/
theorem byId_upsert (svg : List SvgEl) (tag id : String)
    (initial further : List (String × AttrVal)) (id2 : String) :
    byId id2 (upsert svg tag id initial further)
      = if id2 = id then
          some (setAttrs ((byId id svg).getD { tag := tag, id := id, attrs := initial }) further)
        else byId id2 svg := by
  unfold upsert
  rw [byId_modifyById _ _ _ (fun e => setAttrs_id e further)]
  cases hb : byId id svg with
  | some x =>
    by_cases h2 : id2 = id
    · simp [h2, hb]
    · simp [h2]
  | none =>
    by_cases h2 : id2 = id
    · simp [h2, byId_append_single, hb]
    · have h3 : ¬ id = id2 := fun h => h2 h.symm
      simp only [if_neg h2, byId_append_single]
      cases byId id2 svg <;> simp [h3]

theorem drawOne_agree (sr : Rect) (m : Marker) (K : List String) (s1 s2 : List SvgEl)
    (h : ∀ id2, id2 ∉ K → byId id2 s1 = byId id2 s2) :
    ∀ id2, id2 ∉ K → byId id2 (drawOne sr s1 m) = byId id2 (drawOne sr s2 m) := by
  intro id2 hK
  unfold drawOne
  cases m.rect with
  | none => exact h id2 hK
  | some r =>
    simp only [makeTip, makeLine, byId_upsert]
    by_cases ht : id2 = "connector-" ++ connectorName m ++ "-tip"
    · rw [if_pos ht, if_pos ht]
      have hne := ne_append_tip ("connector-" ++ connectorName m)
      rw [if_neg (fun e => hne e.symm), if_neg (fun e => hne e.symm), ← ht, h id2 hK]
    · rw [if_neg ht, if_neg ht]
      by_cases hl : id2 = "connector-" ++ connectorName m
      · rw [if_pos hl, if_pos hl, ← hl, h id2 hK]
      · rw [if_neg hl, if_neg hl]
        exact h id2 hK

theorem foldl_drawOne_agree (sr : Rect) (ms : List Marker) (K : List String) :
    ∀ s1 s2 : List SvgEl, (∀ id2, id2 ∉ K → byId id2 s1 = byId id2 s2) →
      ∀ id2, id2 ∉ K → byId id2 (ms.foldl (drawOne sr) s1) = byId id2 (ms.foldl (drawOne sr) s2) := by
  induction ms with
  | nil => intro s1 s2 h; exact h
  | cons m ms ih =>
    intro s1 s2 h
    exact ih _ _ (drawOne_agree sr m K s1 s2 h)

theorem drawOne_off (sr : Rect) (m : Marker) (svg : List SvgEl) (id2 : String)
    (h1 : id2 ≠ "connector-" ++ connectorName m)
    (h2 : id2 ≠ "connector-" ++ connectorName m ++ "-tip") :
    byId id2 (drawOne sr svg m) = byId id2 svg := by
  unfold drawOne
  cases m.rect with
  | none => rfl
  | some r => simp only [makeTip, makeLine, byId_upsert, if_neg h1, if_neg h2]

theorem positionLoop_blocked (g : PathGeom) (len : ℚ) (n : Nat) (pre : List Btn) :
    ∀ (i : Nat) (b : Btn) (post : List Btn),
      (∀ j, j < pre.length → (g.pointAt (pathFraction n (i + j) * len)).isSome = true) →
      g.pointAt (pathFraction n (i + pre.length) * len) = none →
      (positionLoop g len n i (pre ++ b :: post)).2 = some .domException ∧
      (positionLoop g len n i (pre ++ b :: post)).1.drop pre.length = b :: post := by
  induction pre with
  | nil =>
    intro i b post _ hfail
    simp only [List.length_nil, Nat.add_zero] at hfail
    simp [positionLoop, hfail]
  | cons a as ih =>
    intro i b post hok hfail
    have h0 := hok 0 (by simp)
    simp only [Nat.add_zero] at h0
    obtain ⟨pt, hpt⟩ := Option.isSome_iff_exists.mp h0
    have hrest := ih (i + 1) b post
      (fun j hj => by
        have := hok (j + 1) (by simp; omega)
        rwa [show i + (j + 1) = i + 1 + j by omega] at this)
      (by
        rwa [show i + (a :: as).length = i + 1 + as.length by simp; omega] at hfail)
    simp only [List.cons_append, positionLoop, hpt, List.length_cons, List.drop_succ_cons]
    exact hrest

/-- Claim C15 (evaluated on the code): drawConnectorsFor and
placeMilestonesInStage isolate a failing milestone, positionButtons does not.
In drawConnectorsFor a milestone whose rectangle query throws is skipped and
every connector element not named after it is the same as in the run where
the query returns; placeMilestonesInStage treats each milestone on its own;
positionButtons catches a throwing length query, but when the point query
throws for button k the exception leaves the function and button k and all
buttons after it stay unpositioned. -/
theorem failure_isolation (sr : Rect) (img : Option Rect) (old : Option (List SvgEl))
    (pre post : List Marker) (k : Marker) (r : Rect) (g : PathGeom) (len : ℚ)
    (bpre bpost : List Btn) (b : Btn) :
    (∀ id2 : String, id2 ≠ "connector-" ++ connectorName k →
      id2 ≠ "connector-" ++ connectorName k ++ "-tip" →
      connectorOf (drawConnectorsFor ⟨sr, img, pre ++ { k with rect := none } :: post, old⟩) id2
        = connectorOf
            (drawConnectorsFor ⟨sr, img, pre ++ { k with rect := some r } :: post, old⟩) id2) ∧
    (∀ (st : Stage) (j : Nat),
      (placeMilestonesInStage st).markers[j]?
        = (st.markers[j]?).map (placeOne st.imgRect st.rect)) ∧
    (g.totalLength = none → ∀ bs : List Btn, positionButtons g bs = (bs, none)) ∧
    (g.hasPath = true → g.totalLength = some len →
      (∀ j, j < bpre.length →
        (g.pointAt (pathFraction (bpre ++ b :: bpost).length j * len)).isSome = true) →
      g.pointAt (pathFraction (bpre ++ b :: bpost).length bpre.length * len) = none →
      (positionButtons g (bpre ++ b :: bpost)).2 = some .domException ∧
      (positionButtons g (bpre ++ b :: bpost)).1.drop bpre.length = b :: bpost) := by
  refine ⟨?_, ?_, ?_, ?_⟩
  · intro id2 h1 h2
    cases old with
    | none => rfl
    | some o =>
      simp only [drawConnectorsFor, connectorOf, List.foldl_append, List.foldl_cons]
      apply foldl_drawOne_agree sr post
        ["connector-" ++ connectorName k, "connector-" ++ connectorName k ++ "-tip"]
      · intro id3 h3
        simp only [List.mem_cons, List.mem_singleton, not_or, List.not_mem_nil, or_false] at h3
        have e1 : drawOne sr (List.foldl (drawOne sr) [] pre) { k with rect := none }
            = List.foldl (drawOne sr) [] pre := rfl
        rw [e1]
        exact (drawOne_off sr { k with rect := some r } _ id3 h3.1 h3.2).symm
      · simp only [List.mem_cons, List.mem_singleton, not_or, List.not_mem_nil, or_false]
        exact ⟨h1, h2⟩
  · intro st j
    simp [placeMilestonesInStage]
  · intro hlen bs
    unfold positionButtons
    split
    · rfl
    · simp [hlen]
  · intro hpath hlen hok hfail
    have hne : ¬ (g.hasPath = false ∨ bpre ++ b :: bpost = []) := by
      simp [hpath]
    have e : positionButtons g (bpre ++ b :: bpost)
        = positionLoop g len (bpre ++ b :: bpost).length 0 (bpre ++ b :: bpost) := by
      simp only [positionButtons, if_neg hne, hlen]
    rw [e]
    exact positionLoop_blocked g len _ bpre 0 b bpost
      (fun j hj => by rw [Nat.zero_add]; exact hok j hj)
      (by rw [Nat.zero_add]; exact hfail)

/-- Witness for C15: a path whose length query returns 0 and whose point
query throws, with two buttons: positionButtons throws and positions neither. -/
theorem failure_isolation_witness :
    (positionButtons ⟨true, some 0, fun _ => none, ⟨0, 0, 100, 100⟩, ⟨0, 0, 100, 100⟩,
        ⟨0, 0, 100, 100⟩⟩
      ([] ++ [⟨44, 44, "", .unset, .unset⟩, ⟨44, 44, "", .unset, .unset⟩])).2
      = some .domException ∧
    (positionButtons ⟨true, some 0, fun _ => none, ⟨0, 0, 100, 100⟩, ⟨0, 0, 100, 100⟩,
        ⟨0, 0, 100, 100⟩⟩
      ([] ++ [⟨44, 44, "", .unset, .unset⟩, ⟨44, 44, "", .unset, .unset⟩])).1.drop
        ([] : List Btn).length
      = [⟨44, 44, "", .unset, .unset⟩, ⟨44, 44, "", .unset, .unset⟩] :=
  (failure_isolation ⟨0, 0, 0, 0⟩ none none [] []
    ⟨none, "", "", .nan, .nan, none, .unset, .unset, .unset⟩ ⟨0, 0, 0, 0⟩
    ⟨true, some 0, fun _ => none, ⟨0, 0, 100, 100⟩, ⟨0, 0, 100, 100⟩, ⟨0, 0, 100, 100⟩⟩ 0
    [] [⟨44, 44, "", .unset, .unset⟩] ⟨44, 44, "", .unset, .unset⟩).2.2.2 rfl rfl
    (fun j hj => absurd hj (Nat.not_lt_zero j)) rfl

/-! ## The DETAILS-bound roadmap: one active node, one expansion -/

namespace Details

theorem withNode_getElem? (nodes : List DNode) (i : Nat) (f : DNode → DNode) (j : Nat) :
    (withNode nodes i f)[j]? = (nodes[j]?).map (fun nd => if j = i then f nd else nd) := by
  simp [withNode, List.getElem?_mapIdx]

theorem withNode_length (nodes : List DNode) (i : Nat) (f : DNode → DNode) :
    (withNode nodes i f).length = nodes.length := by
  simp [withNode]

/-- What `collapseCurrent` does to the nodes, the box and the bookkeeping. -/
theorem collapseCurrent_effect (st : Bound) :
    (collapseCurrent st).nodes.length = st.nodes.length ∧
    (collapseCurrent st).activeIndex = st.activeIndex ∧
    (collapseCurrent st).expandedEl = none ∧
    (∀ (j : Nat) (nd : DNode), (collapseCurrent st).nodes[j]? = some nd →
      ∃ nd0 : DNode, st.nodes[j]? = some nd0 ∧ nd.nodeId = nd0.nodeId ∧ nd.active = nd0.active ∧
        (nd.expanded = true → nd0.expanded = true ∧ st.expandedEl ≠ some (.node j))) ∧
    (∀ b : Box, (collapseCurrent st).box = some b →
      ∃ b0 : Box, st.box = some b0 ∧
        ((b.shown = true ∨ b.expanded = true) →
          (b0.shown = true ∨ b0.expanded = true) ∧ st.expandedEl ≠ some .box)) := by
  unfold collapseCurrent
  cases he : st.expandedEl with
  | none =>
    refine ⟨rfl, rfl, he, ?_, ?_⟩
    · intro j nd h
      exact ⟨nd, h, rfl, rfl, fun hx => ⟨hx, by simp⟩⟩
    · intro b h
      exact ⟨b, h, fun hx => ⟨hx, by simp⟩⟩
  | some e =>
    cases e with
    | node i =>
      refine ⟨withNode_length _ _ _, rfl, rfl, ?_, ?_⟩
      · intro j nd h
        simp only [withNode_getElem?, Option.map_eq_some'] at h
        obtain ⟨nd0, h0, rfl⟩ := h
        refine ⟨nd0, h0, ?_, ?_, ?_⟩
        · split <;> rfl
        · split <;> rfl
        · intro hx
          by_cases hj : j = i
          · simp [hj] at hx
          · simp only [if_neg hj] at hx
            exact ⟨hx, by simp; exact fun h => hj h.symm⟩
      · intro b h
        exact ⟨b, h, fun hx => ⟨hx, by simp⟩⟩
    | box =>
      refine ⟨rfl, rfl, rfl, ?_, ?_⟩
      · intro j nd h
        exact ⟨nd, h, rfl, rfl, fun hx => ⟨hx, by simp⟩⟩
      · intro b h
        simp only [Option.map_eq_some'] at h
        obtain ⟨b0, h0, rfl⟩ := h
        exact ⟨b0, h0, fun hx => by simp at hx⟩

/-- What `expandFor` does for an existing node. -/
theorem expandFor_effect (st : Bound) (i : Nat) (hi : i < st.nodes.length) :
    (expandFor st i).nodes.length = st.nodes.length ∧
    (expandFor st i).activeIndex = st.activeIndex ∧
    ((expandFor st i).expandedEl = some (.node i) ∨ (expandFor st i).expandedEl = some .box) ∧
    (∀ (j : Nat) (nd : DNode), (expandFor st i).nodes[j]? = some nd →
      ∃ nd0 : DNode, st.nodes[j]? = some nd0 ∧ nd.nodeId = nd0.nodeId ∧
        (nd.active = true ↔ (nd0.active = true ∨ j = i)) ∧
        (nd.expanded = true → (expandFor st i).expandedEl = some (.node j) ∨
          (nd0.expanded = true ∧ st.expandedEl ≠ some (.node j)))) ∧
    (∀ b : Box, (expandFor st i).box = some b → (b.shown = true ∨ b.expanded = true) →
      (expandFor st i).expandedEl = some .box ∨
        ∃ b0 : Box, st.box = some b0 ∧ (b0.shown = true ∨ b0.expanded = true) ∧
          st.expandedEl ≠ some .box) := by
  obtain ⟨c1, c2, _, c4, c5⟩ := collapseCurrent_effect st
  have hself : ∀ s2 : Bound, s2.nodes = withNode (collapseCurrent st).nodes i
        (fun nd => { nd with active := true }) → s2.activeIndex = (collapseCurrent st).activeIndex →
      s2.box = (collapseCurrent st).box →
      (expandSelf s2 i).nodes.length = st.nodes.length ∧
      (expandSelf s2 i).activeIndex = st.activeIndex ∧
      ((expandSelf s2 i).expandedEl = some (.node i) ∨ (expandSelf s2 i).expandedEl = some .box) ∧
      (∀ (j : Nat) (nd : DNode), (expandSelf s2 i).nodes[j]? = some nd →
        ∃ nd0 : DNode, st.nodes[j]? = some nd0 ∧ nd.nodeId = nd0.nodeId ∧
          (nd.active = true ↔ (nd0.active = true ∨ j = i)) ∧
          (nd.expanded = true → (expandSelf s2 i).expandedEl = some (.node j) ∨
            (nd0.expanded = true ∧ st.expandedEl ≠ some (.node j)))) ∧
      (∀ b : Box, (expandSelf s2 i).box = some b → (b.shown = true ∨ b.expanded = true) →
        (expandSelf s2 i).expandedEl = some .box ∨
          ∃ b0 : Box, st.box = some b0 ∧ (b0.shown = true ∨ b0.expanded = true) ∧
            st.expandedEl ≠ some .box) := by
    intro s2 hn ha hb
    refine ⟨?_, ?_, Or.inl rfl, ?_, ?_⟩
    · simp [expandSelf, hn, withNode_length, c1]
    · simp [expandSelf, ha, c2]
    · intro j nd h
      simp only [expandSelf, hn, withNode_getElem?, Option.map_eq_some'] at h
      obtain ⟨x, ⟨y, hy, rfl⟩, rfl⟩ := h
      obtain ⟨nd0, h0, hid, hact, hexp⟩ := c4 j y hy
      refine ⟨nd0, h0, ?_, ?_, ?_⟩
      · by_cases hj : j = i <;> simp [hj, hid]
      · by_cases hj : j = i <;> simp [hj, hact]
      · intro hx
        by_cases hj : j = i
        · left; simp [expandSelf, hj]
        · right
          simp only [if_neg hj] at hx
          exact hexp hx
    · intro b hbx hx
      right
      have : (collapseCurrent st).box = some b := by rw [← hb]; exact hbx
      obtain ⟨b0, h0, hh⟩ := c5 b this
      exact ⟨b0, h0, hh hx⟩
  have hlt : i < (collapseCurrent st).nodes.length := by omega
  unfold expandFor
  rw [List.getElem?_eq_getElem hlt]
  simp only
  split
  · cases hbox : (collapseCurrent st).box with
    | none => exact hself _ rfl rfl hbox.symm
    | some b =>
      refine ⟨?_, ?_, ?_, ?_, ?_⟩
      · simp [withNode_length, c1]
      · exact c2
      · exact Or.inr rfl
      · intro j nd h
        simp only [withNode_getElem?, Option.map_eq_some'] at h
        obtain ⟨y, hy, rfl⟩ := h
        obtain ⟨nd0, h0, hid, hact, hexp⟩ := c4 j y hy
        refine ⟨nd0, h0, ?_, ?_, ?_⟩
        · by_cases hj : j = i <;> simp [hj, hid]
        · by_cases hj : j = i <;> simp [hj, hact]
        · intro hx
          right
          have : y.expanded = true := by
            by_cases hj : j = i
            · simpa [hj] using hx
            · simpa [hj] using hx
          exact hexp this
      · intro b2 _ _
        exact Or.inl rfl
  · exact hself _ rfl rfl rfl

theorem renderDetails_ok (panel : Panel) (id : String) (d : Detail)
    (h : DETAILS.lookup id = some d) : (renderDetails panel id).2 = none := by
  simp [renderDetails, lookupDetail, h]

theorem clampActive_bounds (n : Nat) (k : Int) (hn : 1 ≤ n) :
    0 ≤ clampActive n k ∧ clampActive n k ≤ (n : Int) - 1 ∧
    clampActive n k = max 0 (min ((n : Int) - 1) k) ∧
    clampActive n (clampActive n k) = clampActive n k := by
  unfold clampActive
  simp only
  split <;> split <;> (try split) <;> (try split) <;> omega

/-- What one pass of `setActive` does when every node is named by a key of
`DETAILS`. -/
theorem setActiveBody_effect (st : Bound) (k : Int) (hn : 1 ≤ st.nodes.length)
    (hkeys : ∀ nd ∈ st.nodes, ∃ d, DETAILS.lookup nd.nodeId = some d) :
    (setActiveBody st k).2 = none ∧
    (setActiveBody st k).1.nodes.length = st.nodes.length ∧
    (setActiveBody st k).1.activeIndex = clampActive st.nodes.length k ∧
    (setActiveBody st k).1.expandedEl ≠ none ∧
    (∀ (j : Nat) (nd : DNode), (setActiveBody st k).1.nodes[j]? = some nd →
      ∃ nd0 : DNode, st.nodes[j]? = some nd0 ∧ nd.nodeId = nd0.nodeId ∧
        (nd.active = true ↔ (j : Int) = clampActive st.nodes.length k) ∧
        (nd.expanded = true → (setActiveBody st k).1.expandedEl = some (.node j) ∨
          (nd0.expanded = true ∧ st.expandedEl ≠ some (.node j)))) ∧
    (∀ b : Box, (setActiveBody st k).1.box = some b → (b.shown = true ∨ b.expanded = true) →
      (setActiveBody st k).1.expandedEl = some .box ∨
        ∃ b0 : Box, st.box = some b0 ∧ (b0.shown = true ∨ b0.expanded = true) ∧
          st.expandedEl ≠ some .box) := by
  obtain ⟨hc0, hc1, _, _⟩ := clampActive_bounds st.nodes.length k hn
  have hlt : (clampActive st.nodes.length k).toNat < st.nodes.length := by omega
  have hcast : (((clampActive st.nodes.length k).toNat : Nat) : Int)
      = clampActive st.nodes.length k := Int.toNat_of_nonneg hc0
  have hnode : (st.nodes.map (fun nd => { nd with active := false }))[
      (clampActive st.nodes.length k).toNat]?
      = some { st.nodes[(clampActive st.nodes.length k).toNat] with active := false } := by
    simp [List.getElem?_map, List.getElem?_eq_getElem hlt]
  obtain ⟨d, hd⟩ := hkeys _ (List.getElem_mem hlt)
  have hrd := renderDetails_ok st.panel
    st.nodes[(clampActive st.nodes.length k).toNat].nodeId d hd
  unfold setActiveBody
  simp only [if_pos hc0, hnode]
  generalize renderDetails st.panel st.nodes[(clampActive st.nodes.length k).toNat].nodeId = r
    at hrd
  rcases r with ⟨panel, e⟩
  simp only at hrd
  subst hrd
  simp only
  have hlen1 : (withNode (st.nodes.map (fun nd => { nd with active := false }))
      (clampActive st.nodes.length k).toNat (fun nd => { nd with active := true })).length
      = st.nodes.length := by
    simp [withNode_length]
  obtain ⟨e1, e2, e3, e4, e5⟩ := expandFor_effect
    { st with
      nodes := withNode (st.nodes.map (fun nd => { nd with active := false }))
        (clampActive st.nodes.length k).toNat (fun nd => { nd with active := true })
      activeIndex := clampActive st.nodes.length k
      panel := panel } (clampActive st.nodes.length k).toNat (by rw [hlen1]; exact hlt)
  refine ⟨trivial, by rw [e1, hlen1], e2, ?_, ?_, ?_⟩
  · rcases e3 with h | h <;> rw [h] <;> simp
  · intro j nd h
    obtain ⟨nd1, h1, hid, hact, hexp⟩ := e4 j nd h
    simp only [withNode_getElem?, List.getElem?_map, Option.map_eq_some'] at h1
    obtain ⟨y, ⟨nd0, h0, rfl⟩, rfl⟩ := h1
    refine ⟨nd0, h0, ?_, ?_, ?_⟩
    · rw [hid]; split <;> rfl
    · rw [hact]
      by_cases hj : j = (clampActive st.nodes.length k).toNat
      · simp only [hj, if_true, or_true, true_iff]
        exact hcast
      · have hne : ¬ (j : Int) = clampActive st.nodes.length k := by omega
        simp [hj, hne]
    · intro hx
      rcases hexp hx with h2 | ⟨h2, h3⟩
      · exact Or.inl h2
      · right
        refine ⟨?_, h3⟩
        by_cases hj : j = (clampActive st.nodes.length k).toNat
        · simpa [hj] using h2
        · simpa [hj] using h2
  · intro b hb hx
    exact e5 b hb hx

/-- One pass of `setActive`: summary used for sequences of calls. -/
theorem setActiveBody_good (st : Bound) (k : Int) (hn : 1 ≤ st.nodes.length)
    (hkeys : ∀ nd ∈ st.nodes, ∃ d, DETAILS.lookup nd.nodeId = some d) :
    (setActiveBody st k).2 = none ∧
    (setActiveBody st k).1.nodes.length = st.nodes.length ∧
    (∀ nd ∈ (setActiveBody st k).1.nodes, ∃ d, DETAILS.lookup nd.nodeId = some d) ∧
    (setActiveBody st k).1.activeIndex = clampActive st.nodes.length k ∧
    (∀ (j : Nat) (nd : DNode), (setActiveBody st k).1.nodes[j]? = some nd →
      (nd.active = true ↔ (j : Int) = clampActive st.nodes.length k)) ∧
    (∀ m : Nat, NodesTracked m st → NodesTracked m (setActiveBody st k).1) ∧
    (BoxTracked st → BoxTracked (setActiveBody st k).1) := by
  obtain ⟨b1, b2, b3, _, b5, b6⟩ := setActiveBody_effect st k hn hkeys
  have hk2 : ∀ nd ∈ (setActiveBody st k).1.nodes, ∃ d, DETAILS.lookup nd.nodeId = some d := by
    intro nd hnd
    obtain ⟨j, hj⟩ := List.mem_iff_getElem?.mp hnd
    obtain ⟨nd0, h0, hid, _, _⟩ := b5 j nd hj
    rw [hid]
    exact hkeys nd0 (List.getElem?_mem h0)
  refine ⟨b1, b2, hk2, b3, ?_, ?_, ?_⟩
  · intro j nd hj
    obtain ⟨_, _, _, hact, _⟩ := b5 j nd hj
    exact hact
  · rintro m ⟨t1, _, t3⟩
    refine ⟨by rw [b2]; exact t1, hk2, ?_⟩
    intro j nd hj hx
    obtain ⟨nd0, h0, _, _, hexp⟩ := b5 j nd hj
    rcases hexp hx with h | ⟨h1, h2⟩
    · exact h
    · exact absurd (t3 j nd0 h0 h1) h2
  · intro t4 b hb hx
    rcases b6 b hb hx with h | ⟨b0, h0, h1, h2⟩
    · exact h
    · exact absurd (t4 b0 h0 h1) h2

/-- The same summary for a full `setActive` call, whether or not focusing the
node raises a `focus` event. -/
theorem setActive_good (st : Bound) (k : Int) (f : Bool) (hn : 1 ≤ st.nodes.length)
    (hkeys : ∀ nd ∈ st.nodes, ∃ d, DETAILS.lookup nd.nodeId = some d) :
    (setActive st k f).2 = none ∧
    (setActive st k f).1.nodes.length = st.nodes.length ∧
    (∀ nd ∈ (setActive st k f).1.nodes, ∃ d, DETAILS.lookup nd.nodeId = some d) ∧
    (setActive st k f).1.activeIndex = clampActive st.nodes.length k ∧
    (∀ (j : Nat) (nd : DNode), (setActive st k f).1.nodes[j]? = some nd →
      (nd.active = true ↔ (j : Int) = clampActive st.nodes.length k)) ∧
    (∀ m : Nat, NodesTracked m st → NodesTracked m (setActive st k f).1) ∧
    (BoxTracked st → BoxTracked (setActive st k f).1) := by
  have g1 := setActiveBody_good st k hn hkeys
  unfold setActive
  split
  · obtain ⟨a1, a2, a3, a4, _, a6, a7⟩ := g1
    have g2 := setActiveBody_good (setActiveBody st k).1 (setActiveBody st k).1.activeIndex
      (by rw [a2]; exact hn) a3
    obtain ⟨c1, c2, c3, c4, c5, c6, c7⟩ := g2
    have hcl : clampActive (setActiveBody st k).1.nodes.length (setActiveBody st k).1.activeIndex
        = clampActive st.nodes.length k := by
      rw [a2, a4]
      exact (clampActive_bounds st.nodes.length k hn).2.2.2
    rw [hcl] at c4 c5
    exact ⟨c1, by rw [c2, a2], c3, c4, c5, fun m hm => c6 m (a6 m hm), fun hb => c7 (a7 hb)⟩
  · exact g1

/-- A click on the foundation-examples button leaves the nodes and the
bookkeeping of `setActive` alone. -/
theorem clickFoundation_frame (st : Bound) :
    (clickFoundation st).nodes = st.nodes ∧
    (clickFoundation st).expandedEl = st.expandedEl ∧
    (clickFoundation st).activeIndex = st.activeIndex := by
  unfold clickFoundation
  split
  · split <;> exact ⟨rfl, rfl, rfl⟩
  · exact ⟨rfl, rfl, rfl⟩

/-- What survives a sequence of events: the nodes and their names always, the
tracking of expanded nodes always, and the tracking of the examples box as
long as the button is not clicked. -/
theorem runDEvents_good (events : List DEvent) :
    ∀ st : Bound, 1 ≤ st.nodes.length →
      (∀ nd ∈ st.nodes, ∃ d, DETAILS.lookup nd.nodeId = some d) →
      (runDEvents st events).nodes.length = st.nodes.length ∧
      (∀ nd ∈ (runDEvents st events).nodes, ∃ d, DETAILS.lookup nd.nodeId = some d) ∧
      (∀ m : Nat, NodesTracked m st → NodesTracked m (runDEvents st events)) ∧
      ((∀ e ∈ events, e ≠ DEvent.clickButton) → BoxTracked st →
        BoxTracked (runDEvents st events)) := by
  induction events with
  | nil => intro st _ hk; exact ⟨rfl, hk, fun _ h => h, fun _ h => h⟩
  | cons e es ih =>
    intro st hn hk
    cases e with
    | activate k f =>
      obtain ⟨_, a2, a3, _, _, a6, a7⟩ := setActive_good st k f hn hk
      obtain ⟨i1, i2, i3, i4⟩ := ih (setActive st k f).1 (by rw [a2]; exact hn) a3
      refine ⟨?_, i2, fun m hm => i3 m (a6 m hm), ?_⟩
      · simpa [runDEvents, applyDEvent, a2] using i1
      · intro hno hb
        exact i4 (fun e he => hno e (List.mem_cons_of_mem _ he)) (a7 hb)
    | clickButton =>
      obtain ⟨f1, f2, _⟩ := clickFoundation_frame st
      obtain ⟨i1, i2, i3, _⟩ := ih (clickFoundation st) (by rw [f1]; exact hn)
        (by rw [f1]; exact hk)
      refine ⟨?_, i2, ?_, ?_⟩
      · simpa [runDEvents, applyDEvent, f1] using i1
      · rintro m ⟨t1, t2, t3⟩
        exact i3 m ⟨by rw [f1]; exact t1, by rw [f1]; exact t2, by rw [f1, f2]; exact t3⟩
      · intro hno
        exact absurd rfl (hno DEvent.clickButton (List.mem_cons_self _ _))

theorem details_key_lookup (id : String) (h : id ∈ DETAILS.map Prod.fst) :
    ∃ d, DETAILS.lookup id = some d := by
  simp only [DETAILS, List.map_cons, List.map_nil, List.mem_cons, List.mem_singleton,
    List.not_mem_nil, or_false] at h
  rcases h with rfl | rfl | rfl | rfl | rfl | rfl | rfl <;> exact ⟨_, rfl⟩

theorem bindNodes_mem (doc : List DNode) (nd : DNode) (h : nd ∈ bindNodes doc) :
    nd ∈ doc ∧ ∃ d, DETAILS.lookup nd.nodeId = some d := by
  simp only [bindNodes, List.mem_filterMap] at h
  obtain ⟨id, hid, hfind⟩ := h
  have hmem := List.mem_of_find?_eq_some hfind
  have hp := List.find?_some hfind
  simp only [decide_eq_true_eq] at hp
  exact ⟨hmem, by rw [hp]; exact details_key_lookup id hid⟩

theorem filter_length_le_one {α : Type} (p : α → Bool) (l : List α)
    (h : ∀ (j k : Nat) (x y : α), l[j]? = some x → l[k]? = some y →
      p x = true → p y = true → j = k) :
    (l.filter p).length ≤ 1 := by
  induction l with
  | nil => simp
  | cons a as ih =>
    have htail : ∀ (j k : Nat) (x y : α), as[j]? = some x → as[k]? = some y →
        p x = true → p y = true → j = k := by
      intro j k x y hj hk hx hy
      have := h (j + 1) (k + 1) x y (by simpa using hj) (by simpa using hk) hx hy
      omega
    by_cases ha : p a = true
    · have hnone : as.filter p = [] := by
        rw [List.filter_eq_nil_iff]
        intro y hy hpy
        obtain ⟨k, hk⟩ := List.mem_iff_getElem?.mp hy
        have := h 0 (k + 1) a y (by simp) (by simpa using hk) ha hpy
        omega
      simp [List.filter_cons, ha, hnone]
    · simp only [List.filter_cons, ha, Bool.false_eq_true, if_false]
      exact ih htail

theorem tracked_count (n : Nat) (st : Bound) (h : NodesTracked n st) (hb : BoxTracked st) :
    expandedCount st ≤ 1 := by
  obtain ⟨_, _, t3⟩ := h
  have hnodes : (st.nodes.filter (fun nd => nd.expanded)).length ≤ 1 := by
    apply filter_length_le_one
    intro j k x y hj hk hx hy
    have h1 := t3 j x hj hx
    have h2 := t3 k y hk hy
    rw [h1] at h2
    exact Expanded.node.inj (Option.some.inj h2)
  unfold expandedCount
  cases hbox : st.box with
  | none => simpa using hnodes
  | some b =>
    by_cases hx : (b.shown || b.expanded) = true
    · have hbx := hb b hbox (by simpa using hx)
      have hnone : st.nodes.filter (fun nd => nd.expanded) = [] := by
        rw [List.filter_eq_nil_iff]
        intro nd hnd hexp
        obtain ⟨j, hj⟩ := List.mem_iff_getElem?.mp hnd
        have := t3 j nd hj hexp
        rw [hbx] at this
        cases this
      simp [hnone, hx]
    · simp only [hx, Bool.false_eq_true, if_false, Nat.add_zero]
      exact hnodes

/-- Counterexample to C23 as stated, in two runs with the bound nodes emerging
and future.  First run: the examples box is hidden at load, the
foundation-examples button is clicked once, which shows the box without
recording it in expandedEl, and setActive(1) then leaves the box and the node
future expanded.  Second run: the node future carries the class expanded in
the markup, and after setActive(0) it is still expanded next to the node
emerging. -/
theorem two_expanded_after_setActive :
    expandedCount (setActive (runDEvents (initRoadmap
        [⟨"emerging", none, false, false, none⟩, ⟨"future", none, false, false, none⟩]
        (some ⟨false, some "true", false, none⟩) (some ⟨some "false"⟩) ⟨none, none⟩).1
        [.clickButton]) 1 false).1 = 2 ∧
    expandedCount (setActive (runDEvents (initRoadmap
        [⟨"emerging", none, false, false, none⟩, ⟨"future", none, false, true, none⟩]
        none none ⟨none, none⟩).1 []) 0 false).1 = 2 := by
  decide

/-- Claim C23, amended: in the DETAILS-bound roadmap with n >= 1 bound nodes,
in every state reached from initRoadmap() by setActive calls and clicks on the
foundation-examples button, setActive(k) for any integer k completes, exactly
the node at max(0, min(n-1, k)) carries the class active, and activeIndex is
that value.  When no node carries the class expanded in the markup at load and,
as the call starts, the examples box is hidden or is the element expandedEl
refers to, at most one element is in the expanded state afterwards and it is
the one expandedEl refers to.  That condition on the box holds whenever the box
is hidden at load and the button has not been clicked. -/
theorem setActive_single_active (doc : List DNode) (box : Option Box)
    (btn : Option FoundationBtn) (panel : Panel) (events : List DEvent) (k : Int)
    (f : Bool) (hn : 1 ≤ (bindNodes doc).length) :
    (setActive (runDEvents (initRoadmap doc box btn panel).1 events) k f).2 = none ∧
    (setActive (runDEvents (initRoadmap doc box btn panel).1 events) k f).1.nodes.length
      = (bindNodes doc).length ∧
    (setActive (runDEvents (initRoadmap doc box btn panel).1 events) k f).1.activeIndex
      = max 0 (min (((bindNodes doc).length : Int) - 1) k) ∧
    (∀ (j : Nat) (nd : DNode),
      (setActive (runDEvents (initRoadmap doc box btn panel).1 events) k f).1.nodes[j]?
        = some nd →
      (nd.active = true ↔ (j : Int) = max 0 (min (((bindNodes doc).length : Int) - 1) k))) ∧
    ((∀ e ∈ doc, e.expanded = false) →
      (∀ b : Box, (runDEvents (initRoadmap doc box btn panel).1 events).box = some b →
        (b.shown = true ∨ b.expanded = true) →
        (runDEvents (initRoadmap doc box btn panel).1 events).expandedEl = some .box) →
      expandedCount (setActive (runDEvents (initRoadmap doc box btn panel).1 events) k f).1 ≤ 1 ∧
      (∀ (j : Nat) (nd : DNode),
        (setActive (runDEvents (initRoadmap doc box btn panel).1 events) k f).1.nodes[j]?
          = some nd → nd.expanded = true →
        (setActive (runDEvents (initRoadmap doc box btn panel).1 events) k f).1.expandedEl
          = some (.node j)) ∧
      (∀ b : Box,
        (setActive (runDEvents (initRoadmap doc box btn panel).1 events) k f).1.box = some b →
        (b.shown = true ∨ b.expanded = true) →
        (setActive (runDEvents (initRoadmap doc box btn panel).1 events) k f).1.expandedEl
          = some .box)) ∧
    ((∀ b : Box, box = some b → b.shown = false ∧ b.expanded = false) →
      (∀ e ∈ events, e ≠ DEvent.clickButton) →
      ∀ b : Box, (runDEvents (initRoadmap doc box btn panel).1 events).box = some b →
        (b.shown = true ∨ b.expanded = true) →
        (runDEvents (initRoadmap doc box btn panel).1 events).expandedEl = some .box) := by
  have hlen0 : ((bindNodes doc).map
      (fun nd => { nd with tabindex := some (attrOr nd.tabindex "0") })).length
      = (bindNodes doc).length := by simp
  have hkeys0 : ∀ nd ∈ (bindNodes doc).map
      (fun nd => { nd with tabindex := some (attrOr nd.tabindex "0") }),
      ∃ d, DETAILS.lookup nd.nodeId = some d := by
    intro nd hnd
    simp only [List.mem_map] at hnd
    obtain ⟨nd0, h0, rfl⟩ := hnd
    exact (bindNodes_mem doc nd0 h0).2
  obtain ⟨_, a2, a3, _, _, a6, a7⟩ := setActive_good
    { nodes := (bindNodes doc).map (fun nd => { nd with tabindex := some (attrOr nd.tabindex "0") })
      box := box, btn := btn, activeIndex := 0, expandedEl := none, panel := panel }
    0 false (by rw [hlen0]; exact hn) hkeys0
  have a2' : (initRoadmap doc box btn panel).1.nodes.length = (bindNodes doc).length := by
    rw [← hlen0]; exact a2
  obtain ⟨b1, b2, b3, b4⟩ := runDEvents_good events (initRoadmap doc box btn panel).1
    (by rw [a2']; exact hn) a3
  have b1' : (runDEvents (initRoadmap doc box btn panel).1 events).nodes.length
      = (bindNodes doc).length := by rw [b1, a2']
  obtain ⟨c1, c2, _, c4, c5, c6, c7⟩ := setActive_good
    (runDEvents (initRoadmap doc box btn panel).1 events) k f (by rw [b1']; exact hn) b2
  rw [b1'] at c2 c4 c5
  have hcl := (clampActive_bounds (bindNodes doc).length k hn).2.2.1
  rw [hcl] at c4 c5
  refine ⟨c1, c2, c4, c5, ?_, ?_⟩
  · intro hclean hbox
    have t0 : NodesTracked (bindNodes doc).length
        { nodes := (bindNodes doc).map
            (fun nd => { nd with tabindex := some (attrOr nd.tabindex "0") })
          box := box, btn := btn, activeIndex := 0, expandedEl := none, panel := panel } := by
      refine ⟨hlen0, hkeys0, ?_⟩
      intro j nd hj hx
      simp only [List.getElem?_map, Option.map_eq_some'] at hj
      obtain ⟨nd0, h0, rfl⟩ := hj
      have := hclean nd0 (bindNodes_mem doc nd0 (List.getElem?_mem h0)).1
      simp only at hx
      rw [this] at hx
      cases hx
    have t3 := c6 _ (b3 _ (a6 _ t0))
    have t4 := c7 hbox
    exact ⟨tracked_count _ _ t3 t4, t3.2.2, t4⟩
  · intro hbox hno
    apply b4 hno
    apply a7
    intro b hb hx
    have := hbox b hb
    rcases hx with hx | hx
    · rw [this.1] at hx; cases hx
    · rw [this.2] at hx; cases hx

/-- Witness for C23: the bound nodes foundations and future with the examples
box hidden at load; after setActive(1) and then setActive(5), activeIndex is 1
and one element is expanded. -/
theorem setActive_single_active_witness :
    (setActive (runDEvents (initRoadmap [⟨"foundations", none, false, false, none⟩,
        ⟨"future", none, false, false, none⟩] (some ⟨false, some "true", false, none⟩)
        (some ⟨some "false"⟩) ⟨none, none⟩).1 [.activate 1 true]) 5 false).1.activeIndex
      = max 0 (min (((bindNodes [⟨"foundations", none, false, false, none⟩,
          ⟨"future", none, false, false, none⟩]).length : Int) - 1) 5) ∧
    expandedCount (setActive (runDEvents (initRoadmap [⟨"foundations", none, false, false, none⟩,
        ⟨"future", none, false, false, none⟩] (some ⟨false, some "true", false, none⟩)
        (some ⟨some "false"⟩) ⟨none, none⟩).1 [.activate 1 true]) 5 false).1 ≤ 1 :=
  have h := setActive_single_active [⟨"foundations", none, false, false, none⟩,
      ⟨"future", none, false, false, none⟩] (some ⟨false, some "true", false, none⟩)
      (some ⟨some "false"⟩) ⟨none, none⟩ [.activate 1 true] 5 false (by decide)
  ⟨h.2.2.1,
   (h.2.2.2.2.1 (by decide)
      (h.2.2.2.2.2 (by decide) (by decide))).1⟩

end Details

end Roadmap
